import Mathlib

/-!
# Isetta engine: networked transform replication

A shallow embedding of `IsettaEngine/Networking/NetworkTransform.cpp`.

Conventions of the embedding:

* C++ `float` values (timestamps, vector components, thresholds, blend progress)
  are idealised as exact rationals `ℚ`: comparisons and products are exact and
  there is no NaN.  The section on timestamps that can be NaN embeds the client
  callbacks a second time, with the timestamp of a message as any `float` that the
  wire can deliver.
* Pointers are handles.  `NetworkManager::GetNetworkId` is a partial map from the
  wire id to a `NetworkId` component, `NetworkId::entity` is an optional entity
  handle, and `Entity::GetComponent<NetworkTransform>()` is an optional component.
* A callback or method returns an `Option`: `none` is a null-pointer dereference
  (undefined behaviour in C++), `some` is a normal return with the new state (and,
  for a method that sends, the messages handed to the transport).
* Code that is used by `NetworkTransform.cpp` but lives in files that are not part
  of the sources (vector arithmetic, transform accessors, quaternion angle, world
  scale) is either modelled from the specification or taken as a parameter.
-/

namespace Isetta

/-! ## Math types -/

/-- Three floats, as in `Math::Vector3`. -/
structure Vector3 where
  x : ℚ
  y : ℚ
  z : ℚ
  deriving DecidableEq, Repr

/-- Four floats, as in `Math::Quaternion`. -/
structure Quaternion where
  w : ℚ
  x : ℚ
  y : ℚ
  z : ℚ
  deriving DecidableEq, Repr

/-- Modelled from the spec: `Math::Vector3::operator-` (Vector3.h is not among the
sources); the component-wise difference used for the "delta" of a channel. -/
def Vector3.sub (a b : Vector3) : Vector3 :=
  ⟨a.x - b.x, a.y - b.y, a.z - b.z⟩

/-- Modelled from the spec: `Math::Vector3::Scale` (Vector3.h is not among the
sources); the component-wise product that expresses a delta in world units. -/
def Vector3.Scale (a b : Vector3) : Vector3 :=
  ⟨a.x * b.x, a.y * b.y, a.z * b.z⟩

/-- Modelled from the spec: `Math::Vector3::SqrMagnitude` (Vector3.h is not among
the sources); the squared distance compared with the squared threshold. -/
def Vector3.SqrMagnitude (a : Vector3) : ℚ :=
  a.x * a.x + a.y * a.y + a.z * a.z

/-! ## Scene objects -/

/-- Handle of an entity (an `Entity*` that is not null). -/
abbrev EntityId := Nat

/-- The part of `Transform` that the replication code reads and writes: the three
local fields of the transform store and the parent link. -/
structure Transform where
  localPos : Vector3
  localRot : Quaternion
  localScale : Vector3
  parent : Option EntityId
  deriving DecidableEq, Repr

/-- Modelled from the spec: `Transform::GetLocalPos` (Transform.cpp is not among the
sources), the getter of the local position field. -/
def Transform.GetLocalPos (t : Transform) : Vector3 := t.localPos

/-- Modelled from the spec: `Transform::GetLocalRot` (Transform.cpp is not among the
sources), the getter of the local rotation field. -/
def Transform.GetLocalRot (t : Transform) : Quaternion := t.localRot

/-- Modelled from the spec: `Transform::GetLocalScale` (Transform.cpp is not among
the sources), the getter of the local scale field. -/
def Transform.GetLocalScale (t : Transform) : Vector3 := t.localScale

/-- Modelled from the spec: `Transform::SetLocalPos` (Transform.cpp is not among the
sources), the setter of the local position field. -/
def Transform.SetLocalPos (t : Transform) (p : Vector3) : Transform :=
  { t with localPos := p }

/-- Modelled from the spec: `Transform::SetLocalRot` (Transform.cpp is not among the
sources), the setter of the local rotation field. -/
def Transform.SetLocalRot (t : Transform) (r : Quaternion) : Transform :=
  { t with localRot := r }

/-- Modelled from the spec: `Transform::SetLocalScale` (Transform.cpp is not among
the sources), the setter of the local scale field. -/
def Transform.SetLocalScale (t : Transform) (s : Vector3) : Transform :=
  { t with localScale := s }

/-- Modelled from the spec: the `NetworkId` component (NetworkId.h is not among the
sources): the wire id, whether this peer holds authority (`HasClientAuthority()`),
the sampling interval and the back-reference to the owning entity (`none` is a
null `entity` pointer). -/
structure NetworkId where
  id : Int
  HasClientAuthority : Bool
  updateInterval : Int
  entity : Option EntityId
  deriving DecidableEq, Repr

/-- The data members of the `NetworkTransform` component: the `netId` pointer (held
as the value of the component it points to, `none` when null), the sampling counter,
the thresholds and the per-channel replicated-field state. -/
structure NetworkTransform where
  netId : Option NetworkId
  updateCounter : Int
  updateDistance : ℚ
  updateRotation : ℚ
  updateScale : ℚ
  snapDistance : ℚ
  snapRotation : ℚ
  snapScale : ℚ
  targetPos : Vector3
  prevPos : Vector3
  posInterpolation : ℚ
  lastPosMessage : ℚ
  targetRot : Quaternion
  prevRot : Quaternion
  rotInterpolation : ℚ
  lastRotMessage : ℚ
  targetScale : Vector3
  prevScale : Vector3
  scaleInterpolation : ℚ
  lastScaleMessage : ℚ
  deriving DecidableEq, Repr

/-- An entity: its transform and the results of `GetComponent<NetworkId>()` and
`GetComponent<NetworkTransform>()` (`none` is the null pointer returned when the
component is not attached). -/
structure Entity where
  transform : Transform
  networkId : Option NetworkId
  networkTransform : Option NetworkTransform
  deriving DecidableEq, Repr

/-- The state of a peer that the client callbacks can reach: the identity registry
(`NetworkManager::GetNetworkId`, `none` is the null pointer of a failed lookup) and
the entities with their transforms and components. -/
structure World where
  GetNetworkId : Int → Option NetworkId
  entities : EntityId → Entity

/-- Write back the entity behind a handle. -/
def World.setEntity (w : World) (e : EntityId) (ent : Entity) : World :=
  { w with entities := Function.update w.entities e ent }

/-- Functions of the engine that `NetworkTransform.cpp` calls and whose code is not
among the sources: `Transform::GetWorldScale` (it reads the hierarchy, so it is a
function of the whole world and the entity) and `Math::Quaternion::AngleDeg`. -/
structure Engine where
  GetWorldScale : World → EntityId → Vector3
  AngleDeg : Quaternion → Quaternion → ℚ

/-! ## Messages -/

/-- Wire fields of `PositionMessage`. -/
structure PositionMessage where
  netId : Int
  timestamp : ℚ
  localPos : Vector3
  deriving DecidableEq, Repr

/-- Wire fields of `RotationMessage`. -/
structure RotationMessage where
  netId : Int
  timestamp : ℚ
  localRot : Quaternion
  deriving DecidableEq, Repr

/-- Wire fields of `ScaleMessage`. -/
structure ScaleMessage where
  netId : Int
  timestamp : ℚ
  localScale : Vector3
  deriving DecidableEq, Repr

/-- Wire fields of `TransformMessage`. -/
structure TransformMessage where
  netId : Int
  timestamp : ℚ
  snap : Bool
  localPos : Vector3
  localRot : Quaternion
  localScale : Vector3
  deriving DecidableEq, Repr

/-! ## Channel blocks of the client callbacks

Each block is the statement sequence that the callbacks run on `t` (the entity's
transform) and `nt` (its `NetworkTransform`).  The blend blocks occur twice in the
source with the same text: in the single-channel callback and in the non-snap
branch of the `TransformMessage` callback. -/

/-- Position blend block (lines 46-58 and 226-238): set the target, reset the
progress, snap when the world-scaled squared distance reaches `snapDistance²`,
then record the previous value and the timestamp.  `ws` is the value of
`t->GetWorldScale()`. -/
def positionBlock (ws : Vector3) (timestamp : ℚ) (localPos : Vector3)
    (t : Transform) (nt : NetworkTransform) : Transform × NetworkTransform :=
  let nt := { nt with targetPos := localPos }
  let nt := { nt with posInterpolation := 0 }
  if (Vector3.Scale ws (Vector3.sub t.GetLocalPos nt.targetPos)).SqrMagnitude
      ≥ nt.snapDistance * nt.snapDistance then
    let t := t.SetLocalPos localPos
    let nt := { nt with posInterpolation := 1 }
    let nt := { nt with prevPos := t.GetLocalPos }
    (t, { nt with lastPosMessage := timestamp })
  else
    let nt := { nt with prevPos := t.GetLocalPos }
    (t, { nt with lastPosMessage := timestamp })

/-- Rotation blend block (lines 97-108 and 243-254); `angleDeg` is
`Math::Quaternion::AngleDeg`, and the unqualified `abs` of the source is read as the
floating-point absolute value. -/
def rotationBlock (angleDeg : Quaternion → Quaternion → ℚ) (timestamp : ℚ)
    (localRot : Quaternion) (t : Transform) (nt : NetworkTransform) :
    Transform × NetworkTransform :=
  let nt := { nt with targetRot := localRot }
  let nt := { nt with rotInterpolation := 0 }
  if abs (angleDeg t.GetLocalRot nt.targetRot) ≥ nt.snapRotation then
    let t := t.SetLocalRot localRot
    let nt := { nt with rotInterpolation := 1 }
    let nt := { nt with prevRot := t.GetLocalRot }
    (t, { nt with lastRotMessage := timestamp })
  else
    let nt := { nt with prevRot := t.GetLocalRot }
    (t, { nt with lastRotMessage := timestamp })

/-- Scale blend block (lines 146-157 and 259-270). -/
def scaleBlock (timestamp : ℚ) (localScale : Vector3)
    (t : Transform) (nt : NetworkTransform) : Transform × NetworkTransform :=
  let nt := { nt with targetScale := localScale }
  let nt := { nt with scaleInterpolation := 0 }
  if (Vector3.sub t.GetLocalScale nt.targetScale).SqrMagnitude
      ≥ nt.snapScale * nt.snapScale then
    let t := t.SetLocalScale localScale
    let nt := { nt with scaleInterpolation := 1 }
    let nt := { nt with prevScale := t.GetLocalScale }
    (t, { nt with lastScaleMessage := timestamp })
  else
    let nt := { nt with prevScale := t.GetLocalScale }
    (t, { nt with lastScaleMessage := timestamp })

/-- Snap branch of the `TransformMessage` callback (lines 195-220): each channel
that is not stale is written to the store and recorded as previous value, then
all three progress values are set to 1. -/
def transformSnapBranch (m : TransformMessage) (t : Transform) (nt : NetworkTransform) :
    Transform × NetworkTransform :=
  -- Position
  let (t, nt) :=
    if m.timestamp ≥ nt.lastPosMessage then
      let t := t.SetLocalPos m.localPos
      let nt := { nt with prevPos := t.GetLocalPos }
      (t, { nt with lastPosMessage := m.timestamp })
    else (t, nt)
  -- Rotation
  let (t, nt) :=
    if m.timestamp ≥ nt.lastRotMessage then
      let t := t.SetLocalRot m.localRot
      let nt := { nt with prevRot := t.GetLocalRot }
      (t, { nt with lastRotMessage := m.timestamp })
    else (t, nt)
  -- Scale
  let (t, nt) :=
    if m.timestamp ≥ nt.lastScaleMessage then
      let t := t.SetLocalScale m.localScale
      let nt := { nt with prevScale := t.GetLocalScale }
      (t, { nt with lastScaleMessage := m.timestamp })
    else (t, nt)
  let nt := { nt with posInterpolation := 1 }
  let nt := { nt with rotInterpolation := 1 }
  (t, { nt with scaleInterpolation := 1 })

/-- Non-snap branch of the `TransformMessage` callback (lines 222-271): the three
blend blocks, each behind its own timestamp test.  `ws` is the value of
`t->GetWorldScale()`, which only the position block reads. -/
def transformBlendBranch (ws : Vector3) (angleDeg : Quaternion → Quaternion → ℚ)
    (m : TransformMessage) (t : Transform) (nt : NetworkTransform) :
    Transform × NetworkTransform :=
  -- Position
  let (t, nt) :=
    if m.timestamp ≥ nt.lastPosMessage then positionBlock ws m.timestamp m.localPos t nt
    else (t, nt)
  -- Rotation
  let (t, nt) :=
    if m.timestamp ≥ nt.lastRotMessage then rotationBlock angleDeg m.timestamp m.localRot t nt
    else (t, nt)
  -- Scale
  if m.timestamp ≥ nt.lastScaleMessage then scaleBlock m.timestamp m.localScale t nt
  else (t, nt)

/-! ## Client callbacks registered by `NetworkTransform::Start` -/

/-- Client callback for `PositionMessage` (lines 26-60). -/
def positionClientCallback (E : Engine) (w : World) (m : PositionMessage) : Option World :=
  match w.GetNetworkId m.netId with
  | none => some w
  | some netId =>
    if netId.HasClientAuthority then some w
    else
      match netId.entity with
      | none => none  -- entity->GetComponent on a null entity
      | some e =>
        let entity := w.entities e
        match entity.networkTransform with
        | some nt =>
          if m.timestamp < nt.lastPosMessage then some w
          else
            let (t, nt) :=
              positionBlock (E.GetWorldScale w e) m.timestamp m.localPos entity.transform nt
            some (w.setEntity e { entity with transform := t, networkTransform := some nt })
        | none => none  -- if (entity) holds and nt->targetPos dereferences a null nt

/-- Client callback for `RotationMessage` (lines 77-110). -/
def rotationClientCallback (E : Engine) (w : World) (m : RotationMessage) : Option World :=
  match w.GetNetworkId m.netId with
  | none => some w
  | some netId =>
    if netId.HasClientAuthority then some w
    else
      match netId.entity with
      | none => none  -- entity->GetComponent on a null entity
      | some e =>
        let entity := w.entities e
        match entity.networkTransform with
        | some nt =>
          if m.timestamp < nt.lastRotMessage then some w
          else
            let (t, nt) := rotationBlock E.AngleDeg m.timestamp m.localRot entity.transform nt
            some (w.setEntity e { entity with transform := t, networkTransform := some nt })
        | none => none  -- if (entity) holds and nt->targetRot dereferences a null nt

/-- Client callback for `ScaleMessage` (lines 127-159). -/
def scaleClientCallback (w : World) (m : ScaleMessage) : Option World :=
  match w.GetNetworkId m.netId with
  | none => some w
  | some netId =>
    if netId.HasClientAuthority then some w
    else
      match netId.entity with
      | none => none  -- entity->GetComponent on a null entity
      | some e =>
        let entity := w.entities e
        match entity.networkTransform with
        | some nt =>
          if m.timestamp < nt.lastScaleMessage then some w
          else
            let (t, nt) := scaleBlock m.timestamp m.localScale entity.transform nt
            some (w.setEntity e { entity with transform := t, networkTransform := some nt })
        | none => none  -- if (entity) holds and nt->targetScale dereferences a null nt

/-- Client callback for `TransformMessage` (lines 175-273). -/
def transformClientCallback (E : Engine) (w : World) (m : TransformMessage) : Option World :=
  match w.GetNetworkId m.netId with
  | none => some w
  | some netId =>
    if netId.HasClientAuthority then some w
    else
      match netId.entity with
      | none => none  -- entity->GetComponent on a null entity
      | some e =>
        let entity := w.entities e
        match entity.networkTransform with
        | none => some w  -- if (!nt) return
        | some nt =>
          let (t, nt) :=
            if m.snap then transformSnapBranch m entity.transform nt
            else transformBlendBranch (E.GetWorldScale w e) E.AngleDeg m entity.transform nt
          some (w.setEntity e { entity with transform := t, networkTransform := some nt })

/-- The state part of `NetworkTransform::Start` (lines 319-329), run on the component
`nt` of `entity`: bind the identity, take the store's values as target and previous
value of every channel and zero the three last-message timestamps.  The one-time
registration of the callbacks (lines 24-318) changes no field of the component. -/
def NetworkTransform.Start (entity : Entity) (nt : NetworkTransform) : NetworkTransform :=
  let nt := { nt with netId := entity.networkId }
  let nt := { nt with targetPos := entity.transform.GetLocalPos }
  let nt := { nt with prevPos := nt.targetPos }
  let nt := { nt with targetRot := entity.transform.GetLocalRot }
  let nt := { nt with prevRot := nt.targetRot }
  let nt := { nt with targetScale := entity.transform.GetLocalScale }
  let nt := { nt with prevScale := nt.targetScale }
  let nt := { nt with lastPosMessage := 0 }
  let nt := { nt with lastRotMessage := 0 }
  { nt with lastScaleMessage := 0 }

/-! ## Vocabulary of the properties -/

/-- The receiving-peer situation of the reconciliation contract: on world `w` the
wire id `id` resolves, this peer has no authority over it, the identity belongs to
entity `e`, and `e` carries the `NetworkTransform` component `nt`. -/
def Receives (w : World) (id : Int) (e : EntityId) (nt : NetworkTransform) : Prop :=
  ∃ netId, w.GetNetworkId id = some netId ∧ netId.HasClientAuthority = false ∧
    netId.entity = some e ∧ (w.entities e).networkTransform = some nt

/-- The world-scaled squared distance that the position block compares with
`snapDistance * snapDistance`. -/
def posDelta2 (E : Engine) (w : World) (e : EntityId) (target : Vector3) : ℚ :=
  (Vector3.Scale (E.GetWorldScale w e)
    (Vector3.sub (w.entities e).transform.localPos target)).SqrMagnitude

/-- The squared distance that the scale block compares with `snapScale * snapScale`. -/
def scaleDelta2 (w : World) (e : EntityId) (target : Vector3) : ℚ :=
  (Vector3.sub (w.entities e).transform.localScale target).SqrMagnitude

/-- The absolute angle that the rotation block compares with `snapRotation`. -/
def rotDelta (E : Engine) (w : World) (e : EntityId) (target : Quaternion) : ℚ :=
  abs (E.AngleDeg (w.entities e).transform.localRot target)

/-! ## A concrete receiving peer

Identity 7 belongs to entity 0, which sits at the origin with unit scale and has a
freshly started `NetworkTransform` with `snapDistance = 1`.  Identity 8 belongs to
entity 1, which has no `NetworkTransform`.  Identity 9 belongs to entity 2 and is
under this peer's own authority. -/

/-- The origin / zero vector. -/
def Vector3.zero : Vector3 := ⟨0, 0, 0⟩

/-- The unit scale. -/
def Vector3.one : Vector3 := ⟨1, 1, 1⟩

/-- The identity rotation. -/
def Quaternion.identity : Quaternion := ⟨1, 0, 0, 0⟩

/-- A transform at the origin, unrotated, with unit scale, attached to the root. -/
def demoTransform : Transform :=
  { localPos := Vector3.zero, localRot := Quaternion.identity,
    localScale := Vector3.one, parent := none }

/-- The three identities of the concrete peer. -/
def demoNetId (id : Int) (authority : Bool) (e : EntityId) : NetworkId :=
  { id := id, HasClientAuthority := authority, updateInterval := 1, entity := some e }

/-- A component as constructed, before `Start`: thresholds chosen for the scenario
(`snapDistance = 1`, `snapRotation = 30`, `snapScale = 1`), all blends finished. -/
def demoRawNT : NetworkTransform :=
  { netId := none, updateCounter := 0,
    updateDistance := 1 / 100, updateRotation := 5, updateScale := 1 / 200,
    snapDistance := 1, snapRotation := 30, snapScale := 1,
    targetPos := Vector3.zero, prevPos := Vector3.zero,
    posInterpolation := 1, lastPosMessage := 0,
    targetRot := Quaternion.identity, prevRot := Quaternion.identity,
    rotInterpolation := 1, lastRotMessage := 0,
    targetScale := Vector3.one, prevScale := Vector3.one,
    scaleInterpolation := 1, lastScaleMessage := 0 }

/-- Entity 0 before its component is started. -/
def demoEntity0 : Entity :=
  { transform := demoTransform, networkId := some (demoNetId 7 false 0),
    networkTransform := some demoRawNT }

/-- The component of entity 0 as `Start` leaves it. -/
def demoNT : NetworkTransform := NetworkTransform.Start demoEntity0 demoRawNT

/-- The concrete receiving peer. -/
def demoWorld : World :=
  { GetNetworkId := fun id =>
      if id = 7 then some (demoNetId 7 false 0)
      else if id = 8 then some (demoNetId 8 false 1)
      else if id = 9 then some (demoNetId 9 true 2)
      else none
    entities := fun e =>
      if e = 0 then { demoEntity0 with networkTransform := some demoNT }
      else if e = 1 then
        { transform := demoTransform, networkId := some (demoNetId 8 false 1),
          networkTransform := none }
      else
        { transform := demoTransform, networkId := some (demoNetId 9 true 2),
          networkTransform := some demoRawNT } }

/-- An engine for the concrete peer: every entity has world scale (1,1,1), and the
angle between two rotations is reported as 0 when they are equal and 90 otherwise. -/
def demoEngine : Engine :=
  { GetWorldScale := fun _ _ => Vector3.one
    AngleDeg := fun a b => if a = b then 0 else 90 }

/-- The concrete peer with the position channel of entity 0 mid-blend: target
(1/2,0,0), progress 0, last position message 10. -/
def demoWorldBlending : World :=
  demoWorld.setEntity 0
    { demoEntity0 with
      networkTransform := some { demoNT with
        targetPos := ⟨1 / 2, 0, 0⟩, posInterpolation := 0, lastPosMessage := 10 } }

/-! ## Delivery of a sequence of messages -/

/-- A message of one of the four kinds that carry transform channels, as the
transport hands it to the callback registered for its kind. -/
inductive ClientMessage where
  | position (m : PositionMessage)
  | rotation (m : RotationMessage)
  | scale (m : ScaleMessage)
  | transform (m : TransformMessage)
  deriving DecidableEq, Repr

/-- Run the client callback registered for the kind of the message. -/
def clientCallback (E : Engine) (w : World) : ClientMessage → Option World
  | ClientMessage.position m => positionClientCallback E w m
  | ClientMessage.rotation m => rotationClientCallback E w m
  | ClientMessage.scale m => scaleClientCallback w m
  | ClientMessage.transform m => transformClientCallback E w m

/-- Deliver the messages in their order of arrival; a fault stops the run. -/
def deliver (E : Engine) (w : World) : List ClientMessage → Option World
  | [] => some w
  | m :: ms =>
    match clientCallback E w m with
    | none => none
    | some w1 => deliver E w1 ms

/-- The four fields of the position channel agree in two component states. -/
def posChannelEq (a b : NetworkTransform) : Prop :=
  a.targetPos = b.targetPos ∧ a.prevPos = b.prevPos ∧
    a.posInterpolation = b.posInterpolation ∧ a.lastPosMessage = b.lastPosMessage

/-- The four fields of the rotation channel agree in two component states. -/
def rotChannelEq (a b : NetworkTransform) : Prop :=
  a.targetRot = b.targetRot ∧ a.prevRot = b.prevRot ∧
    a.rotInterpolation = b.rotInterpolation ∧ a.lastRotMessage = b.lastRotMessage

/-- The four fields of the scale channel agree in two component states. -/
def scaleChannelEq (a b : NetworkTransform) : Prop :=
  a.targetScale = b.targetScale ∧ a.prevScale = b.prevScale ∧
    a.scaleInterpolation = b.scaleInterpolation ∧ a.lastScaleMessage = b.lastScaleMessage

/-- The `NetworkTransform` of entity `e` in the state a callback returned (`none`
when the callback faulted or the entity has no such component). -/
def componentAfter (r : Option World) (e : EntityId) : Option NetworkTransform :=
  r.bind fun w => (w.entities e).networkTransform

/-- The transform of entity `e` in the state a callback returned (`none` when the
callback faulted). -/
def transformAfter (r : Option World) (e : EntityId) : Option Transform :=
  r.map fun w => (w.entities e).transform

/-- A snapping Transform message for identity 7 that moves the position to (3,0,0) and
keeps the identity rotation and the unit scale. -/
def demoSnapMessage (timestamp : ℚ) : TransformMessage :=
  { netId := 7, timestamp := timestamp, snap := true, localPos := ⟨3, 0, 0⟩,
    localRot := Quaternion.identity, localScale := Vector3.one }

/-! ## Methods of the component

`Update` runs once per variable-rate frame, `FixedUpdate` once per fixed step; the
other methods are called by game code.  A method that sends returns the messages it
handed to `SendMessageFromClient`, in order. -/

/-- Modelled from the spec: `Math::Vector3::Lerp` (Vector3.h is not among the
sources); the linear interpolation between `a` (at 0) and `b` (at 1). -/
def Vector3.Lerp (a b : Vector3) (t : ℚ) : Vector3 :=
  ⟨a.x * (1 - t) + b.x * t, a.y * (1 - t) + b.y * t, a.z * (1 - t) + b.z * t⟩

/-- What `Update` reads from outside the component and whose code is not among the
sources: the configured `loopConfig.maxFps` and `Math::Quaternion::Slerp`. -/
structure FrameEnv where
  maxFps : Int
  Slerp : Quaternion → Quaternion → ℚ → Quaternion

/-- Wire fields of `ParentMessage`. -/
structure ParentMessage where
  netId : Int
  parentNetId : Int
  deriving DecidableEq, Repr

/-- A message handed to `SendMessageFromClient`. -/
inductive Outbound where
  | position (m : PositionMessage)
  | rotation (m : RotationMessage)
  | scale (m : ScaleMessage)
  | transform (m : TransformMessage)
  | parent (m : ParentMessage)
  deriving DecidableEq, Repr

/-- Modelled from the spec: `Transform::SetParent` (Transform.cpp is not among the
sources), the setter of the parent link; `none` is the null pointer (root). -/
def Transform.SetParent (t : Transform) (p : Option EntityId) : Transform :=
  { t with parent := p }

/-- Modelled from the spec: `Transform::GetParent` (Transform.cpp is not among the
sources), the getter of the parent link. -/
def Transform.GetParent (t : Transform) : Option EntityId := t.parent

/-- Modelled from the spec: `NetworkManager::GetNetworkEntity` (NetworkManager is not
among the sources): resolve the network id to its entity, `none` when absent. -/
def World.GetNetworkEntity (w : World) (id : Int) : Option EntityId :=
  match w.GetNetworkId id with
  | none => none
  | some netId => netId.entity

/-- The body of `NetworkTransform::Update` (lines 332-356) on the transform `t` of the
owning entity and the component `nt`; `deltaTime` is `Time::GetDeltaTime()`.  The
`min` of the source compares a float with the literal 1 and keeps the smaller. -/
def NetworkTransform.Update (F : FrameEnv) (deltaTime : ℚ) (t : Transform)
    (nt : NetworkTransform) : Option (Transform × NetworkTransform) :=
  if nt.posInterpolation < 1 ∨ nt.rotInterpolation < 1 ∨ nt.scaleInterpolation < 1 then
    match nt.netId with
    | none => none  -- netId->updateInterval on a null netId
    | some netId =>
      let netIdLerp : ℚ := (netId.updateInterval : ℚ) / (F.maxFps : ℚ)
      -- Translation
      let nt := { nt with posInterpolation := min (nt.posInterpolation + deltaTime / netIdLerp) 1 }
      let t := t.SetLocalPos (Vector3.Lerp nt.prevPos nt.targetPos nt.posInterpolation)
      -- Rotation
      let nt := { nt with rotInterpolation := min (nt.rotInterpolation + deltaTime / netIdLerp) 1 }
      let t := t.SetLocalRot (F.Slerp nt.prevRot nt.targetRot nt.rotInterpolation)
      -- Scale
      let nt :=
        { nt with scaleInterpolation := min (nt.scaleInterpolation + deltaTime / netIdLerp) 1 }
      let t := t.SetLocalScale (Vector3.Lerp nt.prevScale nt.targetScale nt.scaleInterpolation)
      some (t, nt)
  else some (t, nt)

/-- The sampling part of `NetworkTransform::FixedUpdate` (lines 365-401), entered after
the counter was reset: the three threshold tests, each followed by the recording of
the new previous sample and the sending of the channel's message.  `parentWorldScale`
is the value of `t->GetParent()->GetWorldScale()` (`none` when `GetParent()` is null),
`id` is `netId->id` and `elapsedTime` is `Time::GetElapsedTime()`. -/
def NetworkTransform.sampleChannels (parentWorldScale : Option Vector3)
    (angleDeg : Quaternion → Quaternion → ℚ) (elapsedTime : ℚ) (id : Int) (t : Transform)
    (nt : NetworkTransform) : Option (NetworkTransform × List Outbound) :=
  match parentWorldScale with
  | none => none  -- t->GetParent()->GetWorldScale() on a null parent
  | some ws =>
    -- Position
    let (nt, out) :=
      if (Vector3.Scale ws (Vector3.sub t.GetLocalPos nt.prevPos)).SqrMagnitude
          ≥ nt.updateDistance * nt.updateDistance then
        ({ nt with prevPos := t.GetLocalPos },
         [Outbound.position
            { timestamp := elapsedTime, localPos := t.GetLocalPos, netId := id }])
      else (nt, [])
    -- Rotation
    let (nt, out) :=
      if angleDeg t.GetLocalRot nt.prevRot ≥ nt.updateRotation then
        ({ nt with prevRot := t.GetLocalRot },
         out ++ [Outbound.rotation
            { timestamp := elapsedTime, localRot := t.GetLocalRot, netId := id }])
      else (nt, out)
    -- Scale
    if (Vector3.sub t.GetLocalScale nt.prevScale).SqrMagnitude
        ≥ nt.updateScale * nt.updateScale then
      some ({ nt with prevScale := t.GetLocalScale },
        out ++ [Outbound.scale
          { timestamp := elapsedTime, localScale := t.GetLocalScale, netId := id }])
    else some (nt, out)

/-- The body of `NetworkTransform::FixedUpdate` (lines 358-404).  The counter is an
`int` that is reset when it reaches `updateInterval`; its overflow is not modelled. -/
def NetworkTransform.FixedUpdate (parentWorldScale : Option Vector3)
    (angleDeg : Quaternion → Quaternion → ℚ) (elapsedTime : ℚ) (t : Transform)
    (nt : NetworkTransform) : Option (NetworkTransform × List Outbound) :=
  match nt.netId with
  | none => none  -- netId->HasClientAuthority() on a null netId
  | some netId =>
    if netId.HasClientAuthority then
      let nt := { nt with updateCounter := nt.updateCounter + 1 }
      if nt.updateCounter ≥ netId.updateInterval then
        let nt := { nt with updateCounter := 0 }
        NetworkTransform.sampleChannels parentWorldScale angleDeg elapsedTime netId.id t nt
      else some (nt, [])
    else some (nt, [])

/-- The body of `NetworkTransform::SnapLocalTransform` (lines 406-419). -/
def NetworkTransform.SnapLocalTransform (t : Transform) (nt : NetworkTransform) :
    Transform × NetworkTransform :=
  let t := t.SetLocalPos nt.targetPos
  let t := t.SetLocalRot nt.targetRot
  let t := t.SetLocalScale nt.targetScale
  let nt := { nt with prevPos := nt.targetPos }
  let nt := { nt with prevRot := nt.targetRot }
  let nt := { nt with prevScale := nt.targetScale }
  let nt := { nt with posInterpolation := 1 }
  let nt := { nt with rotInterpolation := 1 }
  (t, { nt with scaleInterpolation := 1 })

/-- The body of `NetworkTransform::ForceSendTransform` (lines 421-441). -/
def NetworkTransform.ForceSendTransform (elapsedTime : ℚ) (snap : Bool) (t : Transform)
    (nt : NetworkTransform) : Option (NetworkTransform × List Outbound) :=
  match nt.netId with
  | none => none  -- netId->HasClientAuthority() on a null netId
  | some netId =>
    if netId.HasClientAuthority then
      let nt := { nt with prevPos := t.GetLocalPos }
      let nt := { nt with prevRot := t.GetLocalRot }
      let nt := { nt with prevScale := t.GetLocalScale }
      some (nt, [Outbound.transform
        { timestamp := elapsedTime, snap := snap, localPos := t.GetLocalPos,
          localRot := t.GetLocalRot, localScale := t.GetLocalScale, netId := netId.id }])
    else some (nt, [])

/-! ## The methods and the Parent callback on a peer

`self` is the entity whose `NetworkTransform` runs the method.  The engine calls a
method only on an attached component, so on an entity without the component the
peer is returned as it is. -/

/-- `NetworkTransform::Update` of the component of `self`. -/
def World.Update (F : FrameEnv) (deltaTime : ℚ) (w : World) (self : EntityId) : Option World :=
  let entity := w.entities self
  match entity.networkTransform with
  | none => some w
  | some nt =>
    match nt.Update F deltaTime entity.transform with
    | none => none
    | some (t, nt) =>
      some (w.setEntity self { entity with transform := t, networkTransform := some nt })

/-- `NetworkTransform::FixedUpdate` of the component of `self`; the parent's world
scale is read through the parent link of the transform. -/
def World.FixedUpdate (E : Engine) (elapsedTime : ℚ) (w : World) (self : EntityId) :
    Option (World × List Outbound) :=
  let entity := w.entities self
  match entity.networkTransform with
  | none => some (w, [])
  | some nt =>
    match nt.FixedUpdate (entity.transform.GetParent.map (E.GetWorldScale w)) E.AngleDeg
        elapsedTime entity.transform with
    | none => none
    | some (nt, out) => some (w.setEntity self { entity with networkTransform := some nt }, out)

/-- `NetworkTransform::SnapLocalTransform` of the component of `self`. -/
def World.SnapLocalTransform (w : World) (self : EntityId) : World :=
  let entity := w.entities self
  match entity.networkTransform with
  | none => w
  | some nt =>
    let (t, nt) := nt.SnapLocalTransform entity.transform
    w.setEntity self { entity with transform := t, networkTransform := some nt }

/-- `NetworkTransform::ForceSendTransform` of the component of `self`. -/
def World.ForceSendTransform (elapsedTime : ℚ) (snap : Bool) (w : World) (self : EntityId) :
    Option (World × List Outbound) :=
  let entity := w.entities self
  match entity.networkTransform with
  | none => some (w, [])
  | some nt =>
    match nt.ForceSendTransform elapsedTime snap entity.transform with
    | none => none
    | some (nt, out) => some (w.setEntity self { entity with networkTransform := some nt }, out)

/-- `NetworkTransform::SetNetworkedParentToRoot` of the component of `self`
(lines 443-451). -/
def World.SetNetworkedParentToRoot (w : World) (self : EntityId) :
    Option (World × List Outbound) :=
  let entity := w.entities self
  match entity.networkTransform with
  | none => some (w, [])
  | some nt =>
    match nt.netId with
    | none => none  -- netId->id on a null netId
    | some netId =>
      some (w.setEntity self { entity with transform := entity.transform.SetParent none },
        [Outbound.parent { netId := netId.id, parentNetId := 0 }])

/-- `NetworkTransform::SetNetworkedParent` of the component of `self` (lines 453-467);
the third component is the returned `bool`. -/
def World.SetNetworkedParent (w : World) (self : EntityId) (networkId : Int) :
    Option (World × List Outbound × Bool) :=
  let entity := w.entities self
  match entity.networkTransform with
  | none => some (w, [], false)
  | some nt =>
    match w.GetNetworkEntity networkId with
    | none => some (w, [], false)
    | some parent =>
      match nt.netId with
      | none => none  -- netId->id on a null netId
      | some netId =>
        some (w.setEntity self
            { entity with transform := entity.transform.SetParent (some parent) },
          [Outbound.parent { netId := netId.id, parentNetId := networkId }], true)

/-- Client callback for `ParentMessage` (lines 285-305). -/
def parentClientCallback (w : World) (m : ParentMessage) : Option World :=
  match w.GetNetworkId m.netId with
  | none => some w
  | some netId =>
    match netId.entity with
    | none => none  -- entity->transform on a null entity
    | some e =>
      let entity := w.entities e
      if m.parentNetId = 0 then
        some (w.setEntity e { entity with transform := entity.transform.SetParent none })
      else
        match w.GetNetworkEntity m.parentNetId with
        | none => none  -- parentEntity->transform on a null parentEntity
        | some parentEntity =>
          some (w.setEntity e
            { entity with transform := entity.transform.SetParent (some parentEntity) })

/-! ## Runs -/

/-- Consecutive `Update` ticks of the component of `self`, one per frame delta; a
fault stops the run. -/
def World.updateTicks (F : FrameEnv) (w : World) (self : EntityId) : List ℚ → Option World
  | [] => some w
  | dt :: dts =>
    match w.Update F dt self with
    | none => none
    | some w1 => World.updateTicks F w1 self dts

/-- What one fixed step finds outside the component: the elapsed time, the transform
of the entity and the world scale of its parent. -/
structure FixedStep where
  elapsedTime : ℚ
  transform : Transform
  parentWorldScale : Vector3
  deriving DecidableEq, Repr

/-- The component after consecutive `FixedUpdate` calls, one per fixed step; the
messages are dropped.  A fault stops the run. -/
def NetworkTransform.fixedUpdateRun (angleDeg : Quaternion → Quaternion → ℚ) :
    List FixedStep → NetworkTransform → Option NetworkTransform
  | [], nt => some nt
  | x :: xs, nt =>
    match nt.FixedUpdate (some x.parentWorldScale) angleDeg x.elapsedTime x.transform with
    | none => none
    | some (nt1, _) => NetworkTransform.fixedUpdateRun angleDeg xs nt1

/-- The three progress values of a component lie in [0,1]. -/
def NetworkTransform.ProgressInRange (nt : NetworkTransform) : Prop :=
  (0 ≤ nt.posInterpolation ∧ nt.posInterpolation ≤ 1) ∧
  (0 ≤ nt.rotInterpolation ∧ nt.rotInterpolation ≤ 1) ∧
  (0 ≤ nt.scaleInterpolation ∧ nt.scaleInterpolation ≤ 1)

/-- Every component on the peer has its three progress values in [0,1]. -/
def World.ProgressInRange (w : World) : Prop :=
  ∀ e nt, (w.entities e).networkTransform = some nt → nt.ProgressInRange

/-- The blend step of one `Update` tick: `deltaTime / netIdLerp` with
`netIdLerp = updateInterval / (float) maxFps`. -/
def blendStep (F : FrameEnv) (netId : NetworkId) (deltaTime : ℚ) : ℚ :=
  deltaTime / ((netId.updateInterval : ℚ) / (F.maxFps : ℚ))

/-- A frame environment for the concrete peer: 60 fixed steps per second, and the
component-wise linear blend of the two rotations in the place of `Slerp`. -/
def demoFrameEnv : FrameEnv :=
  { maxFps := 60
    Slerp := fun a b t =>
      ⟨a.w * (1 - t) + b.w * t, a.x * (1 - t) + b.x * t, a.y * (1 - t) + b.y * t,
       a.z * (1 - t) + b.z * t⟩ }

/-- The started component of the concrete peer with the position channel half-way
through a blend. -/
def demoHalfwayNT : NetworkTransform :=
  { demoNT with targetPos := ⟨1, 0, 0⟩, posInterpolation := 1 / 2 }

/-- The position test of the sampler: the squared magnitude of the component-wise
product of the parent's world scale `ws` with (current local position - prevPos)
reaches `updateDistance * updateDistance`. -/
@[reducible] def positionDue (ws : Vector3) (t : Transform) (nt : NetworkTransform) : Prop :=
  (Vector3.Scale ws (Vector3.sub t.localPos nt.prevPos)).SqrMagnitude
    ≥ nt.updateDistance * nt.updateDistance

/-- The rotation test of the sampler: the angle between the current local rotation and
prevRot reaches `updateRotation`. -/
@[reducible] def rotationDue (angleDeg : Quaternion → Quaternion → ℚ) (t : Transform)
    (nt : NetworkTransform) : Prop :=
  angleDeg t.localRot nt.prevRot ≥ nt.updateRotation

/-- The scale test of the sampler: the squared magnitude of (current local scale -
prevScale) reaches `updateScale * updateScale`. -/
@[reducible] def scaleDue (t : Transform) (nt : NetworkTransform) : Prop :=
  (Vector3.sub t.localScale nt.prevScale).SqrMagnitude ≥ nt.updateScale * nt.updateScale

/-- Neither the targets, nor the progress values, nor the last-message timestamps, nor
the identity differ between two component states. -/
def sameReceiverFields (a b : NetworkTransform) : Prop :=
  a.netId = b.netId ∧
  a.targetPos = b.targetPos ∧ a.posInterpolation = b.posInterpolation ∧
  a.lastPosMessage = b.lastPosMessage ∧
  a.targetRot = b.targetRot ∧ a.rotInterpolation = b.rotInterpolation ∧
  a.lastRotMessage = b.lastRotMessage ∧
  a.targetScale = b.targetScale ∧ a.scaleInterpolation = b.scaleInterpolation ∧
  a.lastScaleMessage = b.lastScaleMessage

/-! ## A concrete authoritative entity

Entity 2 of the concrete peer, moved to (1,0,0) and parented to entity 1; its
identity 9 is under this peer's authority. -/

/-- The component of the authoritative entity: bound to identity 9, previous samples
at the origin / identity / unit scale, counter 0. -/
def demoOwnerNT : NetworkTransform :=
  { demoRawNT with netId := some (demoNetId 9 true 2) }

/-- The transform of the authoritative entity: at (1,0,0), child of entity 1. -/
def demoOwnerTransform : Transform :=
  { demoTransform with localPos := ⟨1, 0, 0⟩, parent := some 1 }

/-- The concrete peer with the authoritative entity in place. -/
def demoOwnerWorld : World :=
  demoWorld.setEntity 2
    { transform := demoOwnerTransform, networkId := some (demoNetId 9 true 2),
      networkTransform := some demoOwnerNT }

/-- The authoritative component with a sampling interval of 3 fixed steps. -/
def demoSlowOwnerNT : NetworkTransform :=
  { demoRawNT with netId := some { demoNetId 9 true 2 with updateInterval := 3 } }

/-- A fixed step of the authoritative entity at the given elapsed time. -/
def demoFixedStep (elapsedTime : ℚ) : FixedStep :=
  { elapsedTime := elapsedTime, transform := demoOwnerTransform, parentWorldScale := Vector3.one }

/-! ## Server callbacks registered by `NetworkTransform::Start`

The three static maps are `std::unordered_map<int, float>`.  They are only accessed
with `operator[]`, which yields 0 for a key without entry, so a map is modelled as
a total function that is 0 where nothing was stored. -/

/-- The static relay state of the server: `serverPosTimestamps`,
`serverRotTimestamps` and `serverScaleTimestamps` (lines 19-21). -/
structure ServerState where
  serverPosTimestamps : Int → ℚ
  serverRotTimestamps : Int → ℚ
  serverScaleTimestamps : Int → ℚ

/-- The relay state at program start: the three maps are empty. -/
def ServerState.initial : ServerState :=
  { serverPosTimestamps := fun _ => 0
    serverRotTimestamps := fun _ => 0
    serverScaleTimestamps := fun _ => 0 }

/-- A message handed by a server callback to the transport:
`SendAllMessageFromServer` or `SendAllButClientMessageFromServer`. -/
inductive Relayed where
  | toAll (m : Outbound)
  | toAllButClient (clientIdx : Int) (m : Outbound)
  deriving DecidableEq, Repr

/-- Server callback for `PositionMessage` (lines 62-74). -/
def positionServerCallback (s : ServerState) (_clientIdx : Int) (m : PositionMessage) :
    ServerState × List Relayed :=
  if s.serverScaleTimestamps m.netId ≤ m.timestamp then
    let s := { s with
      serverScaleTimestamps := Function.update s.serverScaleTimestamps m.netId m.timestamp }
    (s, [Relayed.toAll (Outbound.position m)])
  else (s, [])

/-- Server callback for `RotationMessage` (lines 112-124). -/
def rotationServerCallback (s : ServerState) (_clientIdx : Int) (m : RotationMessage) :
    ServerState × List Relayed :=
  if s.serverScaleTimestamps m.netId ≤ m.timestamp then
    let s := { s with
      serverScaleTimestamps := Function.update s.serverScaleTimestamps m.netId m.timestamp }
    (s, [Relayed.toAll (Outbound.rotation m)])
  else (s, [])

/-- Server callback for `ScaleMessage` (lines 161-172). -/
def scaleServerCallback (s : ServerState) (_clientIdx : Int) (m : ScaleMessage) :
    ServerState × List Relayed :=
  if s.serverScaleTimestamps m.netId ≤ m.timestamp then
    let s := { s with
      serverScaleTimestamps := Function.update s.serverScaleTimestamps m.netId m.timestamp }
    (s, [Relayed.toAll (Outbound.scale m)])
  else (s, [])

/-- Server callback for `TransformMessage` (lines 275-282). -/
def transformServerCallback (s : ServerState) (_clientIdx : Int) (m : TransformMessage) :
    ServerState × List Relayed :=
  (s, [Relayed.toAll (Outbound.transform m)])

/-- Server callback for `ParentMessage` (lines 307-315). -/
def parentServerCallback (s : ServerState) (clientIdx : Int) (m : ParentMessage) :
    ServerState × List Relayed :=
  (s, [Relayed.toAllButClient clientIdx (Outbound.parent m)])

/-- Run the server callback registered for the kind of the message that client
`clientIdx` sent. -/
def serverCallback (s : ServerState) (clientIdx : Int) : Outbound → ServerState × List Relayed
  | Outbound.position m => positionServerCallback s clientIdx m
  | Outbound.rotation m => rotationServerCallback s clientIdx m
  | Outbound.scale m => scaleServerCallback s clientIdx m
  | Outbound.transform m => transformServerCallback s clientIdx m
  | Outbound.parent m => parentServerCallback s clientIdx m

/-- The messages arrive at the server in order, each with the index of its sender; the
result is the final relay state and everything relayed, in order. -/
def serverRun (s : ServerState) : List (Int × Outbound) → ServerState × List Relayed
  | [] => (s, [])
  | (clientIdx, m) :: rest =>
    ((serverRun (serverCallback s clientIdx m).1 rest).1,
     (serverCallback s clientIdx m).2 ++ (serverRun (serverCallback s clientIdx m).1 rest).2)

/-- The message is a Position, Rotation or Scale message. -/
def Outbound.isSingleChannel : Outbound → Bool
  | Outbound.position _ => true
  | Outbound.rotation _ => true
  | Outbound.scale _ => true
  | Outbound.transform _ => false
  | Outbound.parent _ => false

/-- The timestamp of a relayed Position, Rotation or Scale message for network id
`id`; `none` for any other relayed message. -/
def Relayed.channelTimestamp (id : Int) : Relayed → Option ℚ
  | Relayed.toAll (Outbound.position m) => if m.netId = id then some m.timestamp else none
  | Relayed.toAll (Outbound.rotation m) => if m.netId = id then some m.timestamp else none
  | Relayed.toAll (Outbound.scale m) => if m.netId = id then some m.timestamp else none
  | _ => none

/-- The timestamps of the relayed Position, Rotation and Scale messages for network id
`id`, in the order of relay. -/
def relayedTimestamps (id : Int) (out : List Relayed) : List ℚ :=
  out.filterMap (Relayed.channelTimestamp id)

/-- A Position message for identity 7 that moves to (1,0,0), stamped `timestamp`. -/
def demoPositionMessage (timestamp : ℚ) : PositionMessage :=
  { netId := 7, timestamp := timestamp, localPos := ⟨1, 0, 0⟩ }

/-- A Rotation message for identity 7 with a quarter-turn-like rotation, stamped
`timestamp`. -/
def demoRotationMessage (timestamp : ℚ) : RotationMessage :=
  { netId := 7, timestamp := timestamp, localRot := ⟨0, 1, 0, 0⟩ }

/-- A Scale message for identity 7 with scale (2,2,2), stamped `timestamp`. -/
def demoScaleMessage (timestamp : ℚ) : ScaleMessage :=
  { netId := 7, timestamp := timestamp, localScale := ⟨2, 2, 2⟩ }

/-! ## Histories of a peer -/

/-- Something that happens to a peer: a message of a transform channel arrives, a
Parent message arrives, the component of `self` gets its `Update`, its `FixedUpdate`
or a call of `SnapLocalTransform`. -/
inductive Event where
  | message (m : ClientMessage)
  | parentMessage (m : ParentMessage)
  | update (self : EntityId) (deltaTime : ℚ)
  | fixedUpdate (self : EntityId) (elapsedTime : ℚ)
  | snapLocalTransform (self : EntityId)
  deriving DecidableEq, Repr

/-- The peer after one event (the messages that `FixedUpdate` sends leave the peer and
are not part of its state). -/
def step (E : Engine) (F : FrameEnv) (w : World) : Event → Option World
  | Event.message m => clientCallback E w m
  | Event.parentMessage m => parentClientCallback w m
  | Event.update self deltaTime => w.Update F deltaTime self
  | Event.fixedUpdate self elapsedTime =>
    match w.FixedUpdate E elapsedTime self with
    | none => none
    | some (w1, _) => some w1
  | Event.snapLocalTransform self => some (w.SnapLocalTransform self)

/-- The peer after a history of events; a fault stops the run. -/
def run (E : Engine) (F : FrameEnv) (w : World) : List Event → Option World
  | [] => some w
  | ev :: evs =>
    match step E F w ev with
    | none => none
    | some w1 => run E F w1 evs

/-- The three transform channels. -/
inductive Channel where
  | position
  | rotation
  | scale
  deriving DecidableEq, Repr

/-- The last-message timestamp of a channel. -/
def NetworkTransform.lastMessage (nt : NetworkTransform) : Channel → ℚ
  | Channel.position => nt.lastPosMessage
  | Channel.rotation => nt.lastRotMessage
  | Channel.scale => nt.lastScaleMessage

/-- The network id a message is addressed to. -/
def ClientMessage.netId : ClientMessage → Int
  | ClientMessage.position m => m.netId
  | ClientMessage.rotation m => m.netId
  | ClientMessage.scale m => m.netId
  | ClientMessage.transform m => m.netId

/-- The timestamp of a message. -/
def ClientMessage.timestamp : ClientMessage → ℚ
  | ClientMessage.position m => m.timestamp
  | ClientMessage.rotation m => m.timestamp
  | ClientMessage.scale m => m.timestamp
  | ClientMessage.transform m => m.timestamp

/-- Whether a message carries a value for the channel: a single-channel message for
its own channel, a Transform message for all three. -/
def ClientMessage.carries : ClientMessage → Channel → Bool
  | ClientMessage.position _, Channel.position => true
  | ClientMessage.rotation _, Channel.rotation => true
  | ClientMessage.scale _, Channel.scale => true
  | ClientMessage.transform _, _ => true
  | _, _ => false

/-- The message is accepted on channel `ch` of entity `e`: it carries the channel, its
network id resolves to an identity of `e` over which this peer has no authority, `e`
has the component, and the timestamp is not below the channel's last-message
timestamp. -/
def accepts (w : World) (e : EntityId) (ch : Channel) (m : ClientMessage) : Prop :=
  m.carries ch = true ∧
    ∃ nt, Receives w m.netId e nt ∧ nt.lastMessage ch ≤ m.timestamp

/-- The timestamps of the messages of a history that were accepted on channel `ch` of
entity `e`, in order: the history `evs` starts on peer `w`, and `A` lists the
accepted timestamps. -/
inductive AcceptedAlong (E : Engine) (F : FrameEnv) (e : EntityId) (ch : Channel) :
    World → List Event → List ℚ → Prop where
  | nil (w : World) : AcceptedAlong E F e ch w [] []
  | accepted (w w1 : World) (m : ClientMessage) (evs : List Event) (A : List ℚ) :
      accepts w e ch m → step E F w (Event.message m) = some w1 →
      AcceptedAlong E F e ch w1 evs A →
      AcceptedAlong E F e ch w (Event.message m :: evs) (m.timestamp :: A)
  | other (w w1 : World) (ev : Event) (evs : List Event) (A : List ℚ) :
      (∀ m, ev = Event.message m → ¬ accepts w e ch m) → step E F w ev = some w1 →
      AcceptedAlong E F e ch w1 evs A →
      AcceptedAlong E F e ch w (ev :: evs) A

/-- An engine for the concrete peer that reports an angle of 10 degrees between any
two different rotations (below the snap threshold of 30) and world scale (1,1,1). -/
def demoGentleEngine : Engine :=
  { GetWorldScale := fun _ _ => Vector3.one
    AngleDeg := fun a b => if a = b then 0 else 10 }

/-- The history of the counter-trace: a snapping Transform message that moves the
position to (3,0,0), then a Rotation message that blends, then one `Update` tick of
entity 0 with frame delta 1/60. -/
def demoDisturbingHistory : List Event :=
  [Event.message (ClientMessage.transform (demoSnapMessage 1)),
   Event.message (ClientMessage.rotation (demoRotationMessage 2)),
   Event.update 0 (1 / 60)]

/-! ## The client callbacks on timestamps that can be NaN

The `timestamp` of a message and the three `last*Message` fields of the component are
C++ `float`s that the callbacks only compare and copy.  A message arrives off the
wire, so its timestamp can be any `float`, NaN included.  This section embeds the
four client callbacks a second time, with such timestamps: a timestamp is a number
or NaN (the infinities compare like numbers and are left out), and `<` and `>=` are
the comparisons of `float`, both false as soon as one side is NaN.  Everything else
is embedded as in the sections above, and the types that hold no timestamp are
shared with them. -/

namespace FloatTimestamp

/-- A `float` timestamp: NaN or a number. -/
inductive Timestamp where
  | nan
  | num (q : ℚ)
  deriving DecidableEq, Repr

/-- The comparison `a < b` of two `float`s: false when either side is NaN. -/
def Timestamp.lt : Timestamp → Timestamp → Bool
  | Timestamp.num a, Timestamp.num b => decide (a < b)
  | _, _ => false

/-- The comparison `a >= b` of two `float`s: false when either side is NaN. -/
def Timestamp.ge : Timestamp → Timestamp → Bool
  | Timestamp.num a, Timestamp.num b => decide (a ≥ b)
  | _, _ => false

/-- The data members of the `NetworkTransform` component, the three `last*Message`
timestamps being `float`s that can be NaN. -/
structure NetworkTransform where
  netId : Option NetworkId
  updateCounter : Int
  updateDistance : ℚ
  updateRotation : ℚ
  updateScale : ℚ
  snapDistance : ℚ
  snapRotation : ℚ
  snapScale : ℚ
  targetPos : Vector3
  prevPos : Vector3
  posInterpolation : ℚ
  lastPosMessage : Timestamp
  targetRot : Quaternion
  prevRot : Quaternion
  rotInterpolation : ℚ
  lastRotMessage : Timestamp
  targetScale : Vector3
  prevScale : Vector3
  scaleInterpolation : ℚ
  lastScaleMessage : Timestamp
  deriving DecidableEq, Repr

/-- An entity: its transform and the results of `GetComponent<NetworkId>()` and
`GetComponent<NetworkTransform>()` (`none` is the null pointer). -/
structure Entity where
  transform : Transform
  networkId : Option NetworkId
  networkTransform : Option NetworkTransform
  deriving DecidableEq, Repr

/-- The state of a peer that the client callbacks can reach: the identity registry
(`NetworkManager::GetNetworkId`, `none` is the null pointer of a failed lookup) and
the entities with their transforms and components. -/
structure World where
  GetNetworkId : Int → Option NetworkId
  entities : EntityId → Entity

/-- Write back the entity behind a handle. -/
def World.setEntity (w : World) (e : EntityId) (ent : Entity) : World :=
  { w with entities := Function.update w.entities e ent }

/-- Functions of the engine that `NetworkTransform.cpp` calls and whose code is not
among the sources: `Transform::GetWorldScale` and `Math::Quaternion::AngleDeg`. -/
structure Engine where
  GetWorldScale : World → EntityId → Vector3
  AngleDeg : Quaternion → Quaternion → ℚ

/-- Wire fields of `PositionMessage`. -/
structure PositionMessage where
  netId : Int
  timestamp : Timestamp
  localPos : Vector3
  deriving DecidableEq, Repr

/-- Wire fields of `RotationMessage`. -/
structure RotationMessage where
  netId : Int
  timestamp : Timestamp
  localRot : Quaternion
  deriving DecidableEq, Repr

/-- Wire fields of `ScaleMessage`. -/
structure ScaleMessage where
  netId : Int
  timestamp : Timestamp
  localScale : Vector3
  deriving DecidableEq, Repr

/-- Wire fields of `TransformMessage`. -/
structure TransformMessage where
  netId : Int
  timestamp : Timestamp
  snap : Bool
  localPos : Vector3
  localRot : Quaternion
  localScale : Vector3
  deriving DecidableEq, Repr

/-- Position blend block (lines 46-58 and 226-238); `ws` is the value of
`t->GetWorldScale()`. -/
def positionBlock (ws : Vector3) (timestamp : Timestamp) (localPos : Vector3)
    (t : Transform) (nt : NetworkTransform) : Transform × NetworkTransform :=
  let nt := { nt with targetPos := localPos }
  let nt := { nt with posInterpolation := 0 }
  if (Vector3.Scale ws (Vector3.sub t.GetLocalPos nt.targetPos)).SqrMagnitude
      ≥ nt.snapDistance * nt.snapDistance then
    let t := t.SetLocalPos localPos
    let nt := { nt with posInterpolation := 1 }
    let nt := { nt with prevPos := t.GetLocalPos }
    (t, { nt with lastPosMessage := timestamp })
  else
    let nt := { nt with prevPos := t.GetLocalPos }
    (t, { nt with lastPosMessage := timestamp })

/-- Rotation blend block (lines 97-108 and 243-254); `angleDeg` is
`Math::Quaternion::AngleDeg`. -/
def rotationBlock (angleDeg : Quaternion → Quaternion → ℚ) (timestamp : Timestamp)
    (localRot : Quaternion) (t : Transform) (nt : NetworkTransform) :
    Transform × NetworkTransform :=
  let nt := { nt with targetRot := localRot }
  let nt := { nt with rotInterpolation := 0 }
  if abs (angleDeg t.GetLocalRot nt.targetRot) ≥ nt.snapRotation then
    let t := t.SetLocalRot localRot
    let nt := { nt with rotInterpolation := 1 }
    let nt := { nt with prevRot := t.GetLocalRot }
    (t, { nt with lastRotMessage := timestamp })
  else
    let nt := { nt with prevRot := t.GetLocalRot }
    (t, { nt with lastRotMessage := timestamp })

/-- Scale blend block (lines 146-157 and 259-270). -/
def scaleBlock (timestamp : Timestamp) (localScale : Vector3)
    (t : Transform) (nt : NetworkTransform) : Transform × NetworkTransform :=
  let nt := { nt with targetScale := localScale }
  let nt := { nt with scaleInterpolation := 0 }
  if (Vector3.sub t.GetLocalScale nt.targetScale).SqrMagnitude
      ≥ nt.snapScale * nt.snapScale then
    let t := t.SetLocalScale localScale
    let nt := { nt with scaleInterpolation := 1 }
    let nt := { nt with prevScale := t.GetLocalScale }
    (t, { nt with lastScaleMessage := timestamp })
  else
    let nt := { nt with prevScale := t.GetLocalScale }
    (t, { nt with lastScaleMessage := timestamp })

/-- Snap branch of the `TransformMessage` callback (lines 195-220), each channel
behind its test `timestamp >= last*Message`. -/
def transformSnapBranch (m : TransformMessage) (t : Transform) (nt : NetworkTransform) :
    Transform × NetworkTransform :=
  -- Position
  let (t, nt) :=
    if m.timestamp.ge nt.lastPosMessage then
      let t := t.SetLocalPos m.localPos
      let nt := { nt with prevPos := t.GetLocalPos }
      (t, { nt with lastPosMessage := m.timestamp })
    else (t, nt)
  -- Rotation
  let (t, nt) :=
    if m.timestamp.ge nt.lastRotMessage then
      let t := t.SetLocalRot m.localRot
      let nt := { nt with prevRot := t.GetLocalRot }
      (t, { nt with lastRotMessage := m.timestamp })
    else (t, nt)
  -- Scale
  let (t, nt) :=
    if m.timestamp.ge nt.lastScaleMessage then
      let t := t.SetLocalScale m.localScale
      let nt := { nt with prevScale := t.GetLocalScale }
      (t, { nt with lastScaleMessage := m.timestamp })
    else (t, nt)
  let nt := { nt with posInterpolation := 1 }
  let nt := { nt with rotInterpolation := 1 }
  (t, { nt with scaleInterpolation := 1 })

/-- Non-snap branch of the `TransformMessage` callback (lines 222-271): the three
blend blocks, each behind its test `timestamp >= last*Message` (lines 225, 242,
258). -/
def transformBlendBranch (ws : Vector3) (angleDeg : Quaternion → Quaternion → ℚ)
    (m : TransformMessage) (t : Transform) (nt : NetworkTransform) :
    Transform × NetworkTransform :=
  -- Position
  let (t, nt) :=
    if m.timestamp.ge nt.lastPosMessage then positionBlock ws m.timestamp m.localPos t nt
    else (t, nt)
  -- Rotation
  let (t, nt) :=
    if m.timestamp.ge nt.lastRotMessage then
      rotationBlock angleDeg m.timestamp m.localRot t nt
    else (t, nt)
  -- Scale
  if m.timestamp.ge nt.lastScaleMessage then scaleBlock m.timestamp m.localScale t nt
  else (t, nt)

/-- Client callback for `PositionMessage` (lines 26-60); the message is dropped on
`timestamp < lastPosMessage` (line 40). -/
def positionClientCallback (E : Engine) (w : World) (m : PositionMessage) : Option World :=
  match w.GetNetworkId m.netId with
  | none => some w
  | some netId =>
    if netId.HasClientAuthority then some w
    else
      match netId.entity with
      | none => none  -- entity->GetComponent on a null entity
      | some e =>
        let entity := w.entities e
        match entity.networkTransform with
        | some nt =>
          if m.timestamp.lt nt.lastPosMessage then some w
          else
            let (t, nt) :=
              positionBlock (E.GetWorldScale w e) m.timestamp m.localPos entity.transform nt
            some (w.setEntity e { entity with transform := t, networkTransform := some nt })
        | none => none  -- if (entity) holds and nt->targetPos dereferences a null nt

/-- Client callback for `RotationMessage` (lines 77-110); the message is dropped on
`timestamp < lastRotMessage` (line 91). -/
def rotationClientCallback (E : Engine) (w : World) (m : RotationMessage) : Option World :=
  match w.GetNetworkId m.netId with
  | none => some w
  | some netId =>
    if netId.HasClientAuthority then some w
    else
      match netId.entity with
      | none => none  -- entity->GetComponent on a null entity
      | some e =>
        let entity := w.entities e
        match entity.networkTransform with
        | some nt =>
          if m.timestamp.lt nt.lastRotMessage then some w
          else
            let (t, nt) := rotationBlock E.AngleDeg m.timestamp m.localRot entity.transform nt
            some (w.setEntity e { entity with transform := t, networkTransform := some nt })
        | none => none  -- if (entity) holds and nt->targetRot dereferences a null nt

/-- Client callback for `ScaleMessage` (lines 127-159); the message is dropped on
`timestamp < lastScaleMessage` (line 140). -/
def scaleClientCallback (w : World) (m : ScaleMessage) : Option World :=
  match w.GetNetworkId m.netId with
  | none => some w
  | some netId =>
    if netId.HasClientAuthority then some w
    else
      match netId.entity with
      | none => none  -- entity->GetComponent on a null entity
      | some e =>
        let entity := w.entities e
        match entity.networkTransform with
        | some nt =>
          if m.timestamp.lt nt.lastScaleMessage then some w
          else
            let (t, nt) := scaleBlock m.timestamp m.localScale entity.transform nt
            some (w.setEntity e { entity with transform := t, networkTransform := some nt })
        | none => none  -- if (entity) holds and nt->targetScale dereferences a null nt

/-- Client callback for `TransformMessage` (lines 175-273). -/
def transformClientCallback (E : Engine) (w : World) (m : TransformMessage) : Option World :=
  match w.GetNetworkId m.netId with
  | none => some w
  | some netId =>
    if netId.HasClientAuthority then some w
    else
      match netId.entity with
      | none => none  -- entity->GetComponent on a null entity
      | some e =>
        let entity := w.entities e
        match entity.networkTransform with
        | none => some w  -- if (!nt) return
        | some nt =>
          let (t, nt) :=
            if m.snap then transformSnapBranch m entity.transform nt
            else transformBlendBranch (E.GetWorldScale w e) E.AngleDeg m entity.transform nt
          some (w.setEntity e { entity with transform := t, networkTransform := some nt })

/-- The state part of `NetworkTransform::Start` (lines 319-329): bind the identity,
take the store's values as target and previous value of every channel and zero the
three last-message timestamps. -/
def NetworkTransform.Start (entity : Entity) (nt : NetworkTransform) : NetworkTransform :=
  let nt := { nt with netId := entity.networkId }
  let nt := { nt with targetPos := entity.transform.GetLocalPos }
  let nt := { nt with prevPos := nt.targetPos }
  let nt := { nt with targetRot := entity.transform.GetLocalRot }
  let nt := { nt with prevRot := nt.targetRot }
  let nt := { nt with targetScale := entity.transform.GetLocalScale }
  let nt := { nt with prevScale := nt.targetScale }
  let nt := { nt with lastPosMessage := Timestamp.num 0 }
  let nt := { nt with lastRotMessage := Timestamp.num 0 }
  { nt with lastScaleMessage := Timestamp.num 0 }

/-- A message of one of the four kinds that carry transform channels, as the
transport hands it to the callback registered for its kind. -/
inductive ClientMessage where
  | position (m : PositionMessage)
  | rotation (m : RotationMessage)
  | scale (m : ScaleMessage)
  | transform (m : TransformMessage)
  deriving DecidableEq, Repr

/-- Run the client callback registered for the kind of the message. -/
def clientCallback (E : Engine) (w : World) : ClientMessage → Option World
  | ClientMessage.position m => positionClientCallback E w m
  | ClientMessage.rotation m => rotationClientCallback E w m
  | ClientMessage.scale m => scaleClientCallback w m
  | ClientMessage.transform m => transformClientCallback E w m

/-- Deliver the messages in their order of arrival; a fault stops the run. -/
def deliver (E : Engine) (w : World) : List ClientMessage → Option World
  | [] => some w
  | m :: ms =>
    match clientCallback E w m with
    | none => none
    | some w1 => deliver E w1 ms

/-- The component and the transform of entity `e` in the state a run of callbacks
returned (`none` when a callback faulted or the entity has no such component). -/
def entityAfter (r : Option World) (e : EntityId) : Option (Transform × NetworkTransform) :=
  r.bind fun w => (w.entities e).networkTransform.map fun nt => ((w.entities e).transform, nt)

/-- The last-message timestamp and the target of the position channel of entity `e`
in the state a run of callbacks returned. -/
def posChannelAfter (r : Option World) (e : EntityId) : Option (Timestamp × Vector3) :=
  r.bind fun w => (w.entities e).networkTransform.map fun nt =>
    (nt.lastPosMessage, nt.targetPos)

/-- A component as constructed, before `Start`: `snapDistance = 1`,
`snapRotation = 30`, `snapScale = 1`, all blends finished. -/
def demoRawNT : NetworkTransform :=
  { netId := none, updateCounter := 0,
    updateDistance := 1 / 100, updateRotation := 5, updateScale := 1 / 200,
    snapDistance := 1, snapRotation := 30, snapScale := 1,
    targetPos := Vector3.zero, prevPos := Vector3.zero,
    posInterpolation := 1, lastPosMessage := Timestamp.num 0,
    targetRot := Quaternion.identity, prevRot := Quaternion.identity,
    rotInterpolation := 1, lastRotMessage := Timestamp.num 0,
    targetScale := Vector3.one, prevScale := Vector3.one,
    scaleInterpolation := 1, lastScaleMessage := Timestamp.num 0 }

/-- Entity 0 before its component is started: at the origin, unrotated, with unit
scale, carrying identity 7 without authority. -/
def demoEntity0 : Entity :=
  { transform := demoTransform, networkId := some (demoNetId 7 false 0),
    networkTransform := some demoRawNT }

/-- The component of entity 0 as `Start` leaves it. -/
def demoNT : NetworkTransform := NetworkTransform.Start demoEntity0 demoRawNT

/-- A receiving peer: identity 7 resolves to entity 0, which carries the started
component; no other identity resolves. -/
def demoWorld : World :=
  { GetNetworkId := fun id => if id = 7 then some (demoNetId 7 false 0) else none
    entities := fun _ => { demoEntity0 with networkTransform := some demoNT } }

/-- An engine for the peer: every entity has world scale (1,1,1), and the angle
between two rotations is reported as 0 when they are equal and 90 otherwise. -/
def demoEngine : Engine :=
  { GetWorldScale := fun _ _ => Vector3.one
    AngleDeg := fun a b => if a = b then 0 else 90 }

/-- A rotation other than the identity. -/
def demoTurn : Quaternion := ⟨0, 1, 0, 0⟩

/-- A Position message for identity 7. -/
def demoPositionMessage (timestamp : Timestamp) (x : ℚ) : PositionMessage :=
  { netId := 7, timestamp := timestamp, localPos := ⟨x, 0, 0⟩ }

/-- A Transform message for identity 7 that does not snap: position (1/2,0,0),
rotation `demoTurn`, scale (3/2,1,1). -/
def demoTransformMessage (timestamp : Timestamp) : TransformMessage :=
  { netId := 7, timestamp := timestamp, snap := false, localPos := ⟨1 / 2, 0, 0⟩,
    localRot := demoTurn, localScale := ⟨3 / 2, 1, 1⟩ }

/-- The three single-channel messages with the timestamp and the values of a
Transform message, in the order Position, Rotation, Scale. -/
def singles (m : TransformMessage) : List ClientMessage :=
  [ClientMessage.position { netId := m.netId, timestamp := m.timestamp, localPos := m.localPos },
   ClientMessage.rotation { netId := m.netId, timestamp := m.timestamp, localRot := m.localRot },
   ClientMessage.scale
     { netId := m.netId, timestamp := m.timestamp, localScale := m.localScale }]

end FloatTimestamp

/-! ## The dynamic array `Array<T>` (Core/DataStructures/Array.h)

An `Array<T>` owns a block of `capacity` slots and uses the first `size_` of them.
A slot is addressed by its offset from `data`; an iterator into the array is such an
offset.  Every access to a slot outside the block it belongs to is a fault, and so
is a thrown `std::out_of_range`: a method that can do either returns `Option`, with
`none` for the fault.  A `size_type` value is a natural number.  An `int` argument
and the `int` that `NextPowerOfTwo` returns are integers, which may be negative;
where the source compares one with a `size_type`, or stores it into one, it is
converted first (`toSizeType`).  An `int` local that receives a size keeps the
size: sizes stay below 2^31, the wrap-around of `int` is not modelled.  The iterator
a method returns is not part of the array and is left out. -/

/-- A block of slots as `MemoryManager::NewArrOnFreeList<T>` hands it out.  A slot is
`none` while it holds no value: fresh from the allocator, or after its destructor
ran. -/
abbrev Block (T : Type) := List (Option T)

/-- Modelled from the spec: `MemoryManager::NewArrOnFreeList<T>(length)`
(MemoryManager.h is not among the sources and the spec is silent on it, so the model
follows its use in Array.h): a block of `length` slots, none of which holds a value
yet. -/
def NewArrOnFreeList (T : Type) (length : Nat) : Block T := List.replicate length none

/-- Read the slot at offset `i` of a block; `none` when the offset is outside. -/
def Block.read {T : Type} (b : Block T) (i : Nat) : Option (Option T) := b[i]?

/-- Store into the slot at offset `i` of a block; `none` when the offset is outside. -/
def Block.write {T : Type} (b : Block T) (i : Nat) (v : Option T) : Option (Block T) :=
  if i < b.length then some (b.set i v) else none

/-- The call `data[i].~T()`: the slot at offset `i` holds no value afterwards. -/
def Block.destroy {T : Type} (b : Block T) (i : Nat) : Option (Block T) :=
  Block.write b i none

/-- The trip count of a loop `for (; it != last; it++)` whose body accesses the slot
at `it`: `last - it` rounds when `it` starts at or before `last`; otherwise `it`
never meets `last` and runs off the block. -/
def stepsUp (it last : Nat) : Option Nat :=
  if it ≤ last then some (last - it) else none

/-- The trip count of a loop `for (; it != last; it--)` whose body accesses the slots
at `it` and `it - 1`: `it - last` rounds when `it` starts at or after `last`;
otherwise `it` never meets `last` and runs off the block. -/
def stepsDown (it last : Nat) : Option Nat :=
  if last ≤ it then some (it - last) else none

/-- The conversion of an `int` to `size_type` (64 bits, unsigned) that a comparison
with a `size_type`, or an assignment to one, applies: a value that is not negative
is kept, a negative value `i` becomes `2^64 + i`. -/
def toSizeType (i : Int) : Nat :=
  if 0 ≤ i then i.toNat else (18446744073709551616 + i).toNat

/-- The loop body `*it = *itThis` with both iterators advancing, `k` rounds, where `it`
walks the block `dst` from offset `d` and `itThis` another block `src` from
offset `s`. -/
def Block.copyRun {T : Type} (src : Block T) : Block T → Nat → Nat → Nat → Option (Block T)
  | dst, _, _, 0 => some dst
  | dst, s, d, k + 1 =>
    match Block.read src s with
    | none => none
    | some v =>
      match Block.write dst d v with
      | none => none
      | some dst => Block.copyRun src dst (s + 1) (d + 1) k

/-- The loop body `*itBeg = *itEnd` with both iterators advancing inside one block,
`k` rounds, `itEnd` starting at offset `s` and `itBeg` at offset `d`. -/
def Block.moveRun {T : Type} : Block T → Nat → Nat → Nat → Option (Block T)
  | b, _, _, 0 => some b
  | b, s, d, k + 1 =>
    match Block.read b s with
    | none => none
    | some v =>
      match Block.write b d v with
      | none => none
      | some b => Block.moveRun b (s + 1) (d + 1) k

/-- The loop body `*it = *(it - 1)` with `it` stepping down, `k` rounds from offset
`it`.  At offset 0 the slot `it - 1` lies before the block. -/
def Block.shiftRun {T : Type} : Block T → Nat → Nat → Option (Block T)
  | b, _, 0 => some b
  | b, it, k + 1 =>
    if it = 0 then none
    else
      match Block.read b (it - 1) with
      | none => none
      | some v =>
        match Block.write b it v with
        | none => none
        | some b => Block.shiftRun b (it - 1) k

/-- The loop body `data[i] = val` with `i` stepping up, `k` rounds from offset `i`. -/
def Block.fillRun {T : Type} (val : T) : Block T → Nat → Nat → Option (Block T)
  | b, _, 0 => some b
  | b, i, k + 1 =>
    match Block.write b i (some val) with
    | none => none
    | some b => Block.fillRun val b (i + 1) k

/-- The loop body `data[i].~T()` with `i` stepping up, `k` rounds from offset `i`. -/
def Block.destroyRun {T : Type} : Block T → Nat → Nat → Option (Block T)
  | b, _, 0 => some b
  | b, i, k + 1 =>
    match Block.destroy b i with
    | none => none
    | some b => Block.destroyRun b (i + 1) k

/-- The loop body `(*itThis).~T(); *itThis = *it;` of the `Assign` overloads, `k`
rounds, where `itThis` walks the block `dst` from offset `d` and `it` the range
`src` from offset `s`. -/
def Block.assignRun {T : Type} (src : Block T) : Block T → Nat → Nat → Nat → Option (Block T)
  | dst, _, _, 0 => some dst
  | dst, s, d, k + 1 =>
    match Block.destroy dst d with
    | none => none
    | some dst =>
      match Block.read src s with
      | none => none
      | some v =>
        match Block.write dst d v with
        | none => none
        | some dst => Block.assignRun src dst (s + 1) (d + 1) k

/-- The members of `Array<T>` (lines 118-120). -/
structure Array (T : Type) where
  data : Block T
  size_ : Nat
  capacity : Nat
  deriving DecidableEq, Repr

/-- `Array()` (line 125); `data` is the null pointer, a block without slots. -/
def Array.new (T : Type) : Array T :=
  { data := [], size_ := 0, capacity := 0 }

/-- `Array(size_type capacity)` (lines 126-128). -/
def Array.withCapacity (T : Type) (capacity : Nat) : Array T :=
  { data := NewArrOnFreeList T capacity, size_ := 0, capacity := capacity }

/-- `Array(size_type capacity, const value_type &val)` (lines 129-133). -/
def Array.filled {T : Type} (capacity : Nat) (val : T) : Option (Array T) := do
  let data ← Block.fillRun val (NewArrOnFreeList T capacity) 0 capacity
  some { data := data, size_ := capacity, capacity := capacity }

/-- `Size()` (line 195). -/
def Array.Size {T : Type} (a : Array T) : Nat := a.size_

/-- `Capacity()` (line 197). -/
def Array.Capacity {T : Type} (a : Array T) : Nat := a.capacity

/-- `IsEmpty()` (line 198). -/
def Array.IsEmpty {T : Type} (a : Array T) : Bool := a.size_ == 0

/-- `At(i)` (lines 325-336): throws when `i >= size_`. -/
def Array.At {T : Type} (a : Array T) (i : Nat) : Option (Option T) :=
  if i ≥ a.size_ then none else Block.read a.data i

/-- `Front()` (lines 337-348): throws when the array is empty. -/
def Array.Front {T : Type} (a : Array T) : Option (Option T) :=
  if a.size_ = 0 then none else Block.read a.data 0

/-- `Back()` (lines 349-360): throws when the array is empty. -/
def Array.Back {T : Type} (a : Array T) : Option (Option T) :=
  if a.size_ = 0 then none else Block.read a.data (a.size_ - 1)

/-- `ReservePow2(int inCapacity)` (lines 282-291); `NextPowerOfTwo` is
`Math::Util::NextPowerOfTwo` (Core/Math/Util.h is not among the sources).  The `int`
is compared with `capacity`, handed to the allocator and stored into `capacity` as
a `size_type`. -/
def Array.ReservePow2 {T : Type} (NextPowerOfTwo : Int → Int) (a : Array T)
    (inCapacity : Int) : Option (Array T) :=
  let inCapacity := NextPowerOfTwo inCapacity
  if toSizeType inCapacity < a.capacity then some a
  else do
    let tmpData ←
      Block.copyRun a.data (NewArrOnFreeList T (toSizeType inCapacity)) 0 0 a.size_
    some { data := tmpData, size_ := a.size_, capacity := toSizeType inCapacity }

/-- `Resize(int inSize, val)` (lines 274-280).  The tests `inSize > capacity` and
`i < size_` (with `int i = inSize`) compare as `size_type`, so the first loop runs
from the converted `inSize` while that is below `size_`; the test `i < inSize` of
the second loop (with `int i = size_`) compares two `int`s, so it runs
`inSize - size_` rounds when that is positive; `size_ = inSize` stores the converted
value. -/
def Array.Resize {T : Type} (NextPowerOfTwo : Int → Int) (a : Array T) (inSize : Int)
    (val : T) : Option (Array T) := do
  let a ← (if toSizeType inSize > a.capacity then a.ReservePow2 NextPowerOfTwo inSize
    else some a)
  let data ← Block.destroyRun a.data (toSizeType inSize) (a.size_ - toSizeType inSize)
  let data ← Block.fillRun val data a.size_ (inSize - (a.size_ : Int)).toNat
  some { a with data := data, size_ := toSizeType inSize }

/-- `Reserve(int inCapacity)` (lines 293-301); the `int` is used as a `size_type`
throughout. -/
def Array.Reserve {T : Type} (a : Array T) (inCapacity : Int) : Option (Array T) :=
  if toSizeType inCapacity < a.capacity then some a
  else do
    let tmpData ←
      Block.copyRun a.data (NewArrOnFreeList T (toSizeType inCapacity)) 0 0 a.size_
    some { data := tmpData, size_ := a.size_, capacity := toSizeType inCapacity }

/-- `Shrink()` (lines 302-313). -/
def Array.Shrink {T : Type} (a : Array T) : Option (Array T) :=
  if a.size_ = a.capacity then some a
  else do
    let tmpData ← Block.copyRun a.data (NewArrOnFreeList T a.size_) 0 0 a.size_
    some { data := tmpData, size_ := a.size_, capacity := a.size_ }

/-- `Assign(cnt, val)` (lines 361-367). -/
def Array.Assign {T : Type} (NextPowerOfTwo : Int → Int) (a : Array T) (cnt : Nat)
    (val : T) : Option (Array T) := do
  let a ← (if cnt > a.capacity then a.ReservePow2 NextPowerOfTwo (cnt : Nat) else some a)
  let data ← Block.destroyRun a.data 0 a.size_
  let data ← Block.fillRun val data 0 cnt
  some { a with data := data, size_ := cnt }

/-- `Assign(beginIter, endIter)` (lines 368-378); the range holds the values `ys` and
lies outside the array.  `size_` is set before the loops, so the second loop starts
at `end()`. -/
def Array.Assign_range {T : Type} (NextPowerOfTwo : Int → Int) (a : Array T)
    (ys : List T) : Option (Array T) := do
  let a ← (if ys.length > a.capacity then a.ReservePow2 NextPowerOfTwo (ys.length : Nat)
    else some a)
  let a := { a with size_ := ys.length }
  let data ← Block.assignRun (ys.map some) a.data 0 0 ys.length
  let n ← stepsUp ys.length a.size_
  let data ← Block.destroyRun data ys.length n
  some { a with data := data }

/-- `Assign(beginPtr, endPtr)` (lines 379-389); the range holds the values `ys`. -/
def Array.Assign_ptr {T : Type} (NextPowerOfTwo : Int → Int) (a : Array T)
    (ys : List T) : Option (Array T) := do
  let a ← (if ys.length > a.capacity then a.ReservePow2 NextPowerOfTwo (ys.length : Nat)
    else some a)
  let a := { a with size_ := ys.length }
  let data ← Block.assignRun (ys.map some) a.data 0 0 ys.length
  let n ← stepsUp ys.length a.size_
  let data ← Block.destroyRun data ys.length n
  some { a with data := data }

/-- `Assign(list)` (lines 390-400). -/
def Array.Assign_list {T : Type} (NextPowerOfTwo : Int → Int) (a : Array T)
    (list : List T) : Option (Array T) := do
  let a ← (if list.length > a.capacity then a.ReservePow2 NextPowerOfTwo (list.length : Nat)
    else some a)
  let a := { a with size_ := list.length }
  let data ← Block.assignRun (list.map some) a.data 0 0 list.length
  let n ← stepsUp list.length a.size_
  let data ← Block.destroyRun data list.length n
  some { a with data := data }

/-- `PushBack(val)` (lines 401-405). -/
def Array.PushBack {T : Type} (NextPowerOfTwo : Int → Int) (a : Array T) (val : T) :
    Option (Array T) := do
  let a ← (if a.size_ + 1 > a.capacity
    then a.ReservePow2 NextPowerOfTwo ((a.size_ + 1 : Nat) : Int)
    else some a)
  let data ← Block.write a.data a.size_ (some val)
  some { a with data := data, size_ := a.size_ + 1 }

/-- `PopBack()` (lines 406-412).  The subscript of `data[size_--].~T()` is the value
of `size_` before the decrement. -/
def Array.PopBack {T : Type} (a : Array T) : Option (Array T) :=
  if a.size_ = 0 then none  -- throw std::out_of_range
  else do
    let data ← Block.destroy a.data a.size_
    some { a with data := data, size_ := a.size_ - 1 }

/-- `Insert(position, val)` (lines 413-438).  In the first loop of the reallocating
branch the comma makes `itThis != position` the test. -/
def Array.Insert {T : Type} (NextPowerOfTwo : Int → Int) (a : Array T) (position : Nat)
    (val : T) : Option (Array T) :=
  let newSize := a.size_ + 1
  if newSize > a.capacity then do
    let inCapacity := NextPowerOfTwo newSize
    let tmpData := NewArrOnFreeList T (toSizeType inCapacity)
    let n1 ← stepsUp 0 position
    let tmpData ← Block.copyRun a.data tmpData 0 0 n1
    let tmpData ← Block.write tmpData position (some val)
    let n2 ← stepsUp (position + 1) newSize
    let tmpData ← Block.copyRun a.data tmpData position (position + 1) n2
    some { data := tmpData, size_ := newSize, capacity := toSizeType inCapacity }
  else do
    let n ← stepsDown a.size_ position
    let data ← Block.shiftRun a.data a.size_ n
    let data ← Block.write data position (some val)
    some { a with data := data, size_ := newSize }

/-- `Insert(position, cnt, val)` (lines 439-464). -/
def Array.Insert_cnt {T : Type} (NextPowerOfTwo : Int → Int) (a : Array T)
    (position cnt : Nat) (val : T) : Option (Array T) :=
  let newSize := a.size_ + cnt
  if newSize > a.capacity then do
    let inCapacity := NextPowerOfTwo newSize
    let tmpData := NewArrOnFreeList T (toSizeType inCapacity)
    let n1 ← stepsUp 0 position
    let tmpData ← Block.copyRun a.data tmpData 0 0 n1
    let tmpData ← Block.fillRun val tmpData position cnt
    let n2 ← stepsUp (position + cnt) newSize
    let tmpData ← Block.copyRun a.data tmpData position (position + cnt) n2
    some { data := tmpData, size_ := newSize, capacity := toSizeType inCapacity }
  else do
    let n ← stepsDown a.size_ position
    let data ← Block.shiftRun a.data a.size_ n
    let data ← Block.fillRun val data position cnt
    some { a with data := data, size_ := newSize }

/-- `Insert(position, beginIter, endIter)` (lines 465-491); the range holds the
values `ys` and lies outside the array. -/
def Array.Insert_range {T : Type} (NextPowerOfTwo : Int → Int) (a : Array T)
    (position : Nat) (ys : List T) : Option (Array T) :=
  let newSize := a.size_ + ys.length
  if newSize > a.capacity then do
    let inCapacity := NextPowerOfTwo newSize
    let tmpData := NewArrOnFreeList T (toSizeType inCapacity)
    let n1 ← stepsUp 0 position
    let tmpData ← Block.copyRun a.data tmpData 0 0 n1
    let tmpData ← Block.copyRun (ys.map some) tmpData 0 position ys.length
    let n2 ← stepsUp (position + ys.length) newSize
    let tmpData ← Block.copyRun a.data tmpData position (position + ys.length) n2
    some { data := tmpData, size_ := newSize, capacity := toSizeType inCapacity }
  else do
    let n ← stepsDown a.size_ position
    let data ← Block.shiftRun a.data a.size_ n
    let data ← Block.copyRun (ys.map some) data 0 position ys.length
    some { a with data := data, size_ := newSize }

/-- `Insert(position, beginPtr, endPtr)` (lines 492-518); the range holds the values
`ys`. -/
def Array.Insert_ptr {T : Type} (NextPowerOfTwo : Int → Int) (a : Array T)
    (position : Nat) (ys : List T) : Option (Array T) :=
  let newSize := a.size_ + ys.length
  if newSize > a.capacity then do
    let inCapacity := NextPowerOfTwo newSize
    let tmpData := NewArrOnFreeList T (toSizeType inCapacity)
    let n1 ← stepsUp 0 position
    let tmpData ← Block.copyRun a.data tmpData 0 0 n1
    let tmpData ← Block.copyRun (ys.map some) tmpData 0 position ys.length
    let n2 ← stepsUp (position + ys.length) newSize
    let tmpData ← Block.copyRun a.data tmpData position (position + ys.length) n2
    some { data := tmpData, size_ := newSize, capacity := toSizeType inCapacity }
  else do
    let n ← stepsDown a.size_ position
    let data ← Block.shiftRun a.data a.size_ n
    let data ← Block.copyRun (ys.map some) data 0 position ys.length
    some { a with data := data, size_ := newSize }

/-- `Insert(position, list)` (lines 519-523). -/
def Array.Insert_list {T : Type} (NextPowerOfTwo : Int → Int) (a : Array T)
    (position : Nat) (list : List T) : Option (Array T) :=
  a.Insert_ptr NextPowerOfTwo position list

/-- `Erase(position)` (lines 524-531).  The test `it != end() - 1` is written as
`it + 1 != end()`, which also covers the empty array. -/
def Array.Erase {T : Type} (a : Array T) (position : Nat) : Option (Array T) := do
  let data ← Block.destroy a.data position
  let n ← stepsUp (position + 1) a.size_
  let data ← Block.moveRun data (position + 1) position n
  some { a with data := data, size_ := a.size_ - 1 }

/-- `Erase(beginIter, endIter)` (lines 532-541). -/
def Array.Erase_range {T : Type} (a : Array T) (beginIter endIter : Nat) :
    Option (Array T) := do
  let n1 ← stepsUp beginIter endIter
  let data ← Block.destroyRun a.data beginIter n1
  let n2 ← stepsUp endIter a.size_
  let data ← Block.moveRun data endIter beginIter n2
  some { a with data := data, size_ := a.size_ - (endIter - beginIter) }

/-- `Swap(x)` (lines 542-547): the array and `x` after the call. -/
def Array.Swap {T : Type} (a x : Array T) : Array T × Array T :=
  ({ data := x.data, size_ := x.size_, capacity := x.capacity },
   { data := a.data, size_ := a.size_, capacity := a.capacity })

/-- `Clear()` (lines 548-552). -/
def Array.Clear {T : Type} (a : Array T) : Option (Array T) := do
  let data ← Block.destroyRun a.data 0 a.size_
  some { a with data := data, size_ := 0 }

/-- `Emplace(iterator position, args...)` (lines 553-579); `val` is the value
`T(std::forward<Args>(args)...)`. -/
def Array.Emplace {T : Type} (NextPowerOfTwo : Int → Int) (a : Array T) (position : Nat)
    (val : T) : Option (Array T) :=
  let newSize := a.size_ + 1
  if newSize > a.capacity then do
    let inCapacity := NextPowerOfTwo newSize
    let tmpData := NewArrOnFreeList T (toSizeType inCapacity)
    let n1 ← stepsUp 0 position
    let tmpData ← Block.copyRun a.data tmpData 0 0 n1
    let tmpData ← Block.write tmpData position (some val)
    let n2 ← stepsUp (position + 1) newSize
    let tmpData ← Block.copyRun a.data tmpData position (position + 1) n2
    some { data := tmpData, size_ := newSize, capacity := toSizeType inCapacity }
  else do
    let n ← stepsDown a.size_ position
    let data ← Block.shiftRun a.data a.size_ n
    let data ← Block.write data position (some val)
    some { a with data := data, size_ := newSize }

/-- `Emplace(const_iterator position, args...)` (lines 580-606); `val` is the value
`T(args)`. -/
def Array.Emplace_const {T : Type} (NextPowerOfTwo : Int → Int) (a : Array T)
    (position : Nat) (val : T) : Option (Array T) :=
  let newSize := a.size_ + 1
  if newSize > a.capacity then do
    let inCapacity := NextPowerOfTwo newSize
    let tmpData := NewArrOnFreeList T (toSizeType inCapacity)
    let n1 ← stepsUp 0 position
    let tmpData ← Block.copyRun a.data tmpData 0 0 n1
    let tmpData ← Block.write tmpData position (some val)
    let n2 ← stepsUp (position + 1) newSize
    let tmpData ← Block.copyRun a.data tmpData position (position + 1) n2
    some { data := tmpData, size_ := newSize, capacity := toSizeType inCapacity }
  else do
    let n ← stepsDown a.size_ position
    let data ← Block.shiftRun a.data a.size_ n
    let data ← Block.write data position (some val)
    some { a with data := data, size_ := newSize }

/-- `EmplaceBack(args...)` (lines 607-612); `val` is the value
`T(std::forward<Args>(args)...)`. -/
def Array.EmplaceBack {T : Type} (NextPowerOfTwo : Int → Int) (a : Array T) (val : T) :
    Option (Array T) := do
  let a ← (if a.size_ + 1 > a.capacity
    then a.ReservePow2 NextPowerOfTwo ((a.size_ + 1 : Nat) : Int)
    else some a)
  let data ← Block.write a.data a.size_ (some val)
  some { a with data := data, size_ := a.size_ + 1 }

/-- `Array(std::initializer_list<T> list)` (lines 134-137). -/
def Array.ofList {T : Type} (NextPowerOfTwo : Int → Int) (list : List T) :
    Option (Array T) :=
  Array.Insert_ptr NextPowerOfTwo
    { data := NewArrOnFreeList T list.length, size_ := 0, capacity := list.length } 0 list

/-- `Array(iterator beginIter, iterator endIter)` (lines 138-142); the range holds
the values `ys`. -/
def Array.ofRange {T : Type} (NextPowerOfTwo : Int → Int) (ys : List T) :
    Option (Array T) :=
  Array.Insert_range NextPowerOfTwo
    { data := NewArrOnFreeList T ys.length, size_ := 0, capacity := ys.length } 0 ys

/-- `Array(const std::vector<T> &inVector)` (lines 256-262); the vector holds the
values `elems` and reports `vcapacity` as its capacity. -/
def Array.ofVector {T : Type} (elems : List T) (vcapacity : Nat) : Option (Array T) := do
  let data ← Block.copyRun (elems.map some) (NewArrOnFreeList T vcapacity) 0 0 elems.length
  some { data := data, size_ := elems.length, capacity := vcapacity }

/-- `Array(const Array &inVector)` (lines 148-152); `inVector[i]` passes its
`ASSERT(i < size_)` for every `i` of the loop. -/
def Array.copy {T : Type} (inVector : Array T) : Option (Array T) := do
  let data ← Block.copyRun inVector.data (NewArrOnFreeList T inVector.capacity) 0 0
    inVector.size_
  some { data := data, size_ := inVector.size_, capacity := inVector.capacity }

/-- `Array(Array &&inVector)` (lines 153-159): the new array and `inVector` after
the call. -/
def Array.move {T : Type} (inVector : Array T) : Array T × Array T :=
  ({ data := inVector.data, size_ := inVector.size_, capacity := inVector.capacity },
   { data := [], size_ := 0, capacity := 0 })

/-! ## Vocabulary of the array properties -/

/-- The slots in use: what `begin()` .. `end()` and `operator[]` below `Size()`
show. -/
def Array.contents {T : Type} (a : Array T) : Block T := a.data.take a.size_

/-- The representation is sound: the block has `capacity` slots and `Size()` does not
exceed `Capacity()`. -/
def Array.Valid {T : Type} (a : Array T) : Prop :=
  a.data.length = a.capacity ∧ a.Size ≤ a.Capacity

/-- The array is sound and its contents are the values `xs`, in this order. -/
def Array.Holds {T : Type} (a : Array T) (xs : List T) : Prop :=
  a.Valid ∧ a.Size = xs.length ∧ a.contents = xs.map some

/-- Doubling from `p` until `n` is reached, at most `fuel` times. -/
def nextPowerOfTwoFrom (n : Nat) : Nat → Nat → Nat
  | 0, p => p
  | fuel + 1, p => if n ≤ p then p else nextPowerOfTwoFrom n fuel (2 * p)

/-- A concrete `NextPowerOfTwo` for the examples: the least power of two that is at
least `n`, which is 1 for every `n` below 2. -/
def demoNextPowerOfTwo (n : Int) : Int := (nextPowerOfTwoFrom n.toNat n.toNat 1 : Nat)

/-- The array of the examples: `Array<int> a(8)` after `PushBack(1)`, `PushBack(2)`
and `PushBack(3)`. -/
def demoArray : Array Int :=
  { data := [some 1, some 2, some 3, none, none, none, none, none], size_ := 3, capacity := 8 }

/-- A call of a mutating member function of `Array<T>`, with its arguments; `Swap`,
which works on two arrays, is not among them. -/
inductive Mutation (T : Type) where
  | PushBack (val : T)
  | EmplaceBack (val : T)
  | PopBack
  | Insert (position : Nat) (val : T)
  | Insert_cnt (position cnt : Nat) (val : T)
  | Insert_range (position : Nat) (ys : List T)
  | Insert_ptr (position : Nat) (ys : List T)
  | Insert_list (position : Nat) (list : List T)
  | Emplace (position : Nat) (val : T)
  | Emplace_const (position : Nat) (val : T)
  | Erase (position : Nat)
  | Erase_range (beginIter endIter : Nat)
  | Resize (inSize : Int) (val : T)
  | Reserve (inCapacity : Int)
  | Shrink
  | Assign (cnt : Nat) (val : T)
  | Assign_range (ys : List T)
  | Assign_ptr (ys : List T)
  | Assign_list (list : List T)
  | Clear

/-- The array after the call, `none` when the call faults. -/
def Array.call {T : Type} (NextPowerOfTwo : Int → Int) (a : Array T) :
    Mutation T → Option (Array T)
  | Mutation.PushBack val => a.PushBack NextPowerOfTwo val
  | Mutation.EmplaceBack val => a.EmplaceBack NextPowerOfTwo val
  | Mutation.PopBack => a.PopBack
  | Mutation.Insert position val => a.Insert NextPowerOfTwo position val
  | Mutation.Insert_cnt position cnt val => a.Insert_cnt NextPowerOfTwo position cnt val
  | Mutation.Insert_range position ys => a.Insert_range NextPowerOfTwo position ys
  | Mutation.Insert_ptr position ys => a.Insert_ptr NextPowerOfTwo position ys
  | Mutation.Insert_list position list => a.Insert_list NextPowerOfTwo position list
  | Mutation.Emplace position val => a.Emplace NextPowerOfTwo position val
  | Mutation.Emplace_const position val => a.Emplace_const NextPowerOfTwo position val
  | Mutation.Erase position => a.Erase position
  | Mutation.Erase_range beginIter endIter => a.Erase_range beginIter endIter
  | Mutation.Resize inSize val => a.Resize NextPowerOfTwo inSize val
  | Mutation.Reserve inCapacity => a.Reserve inCapacity
  | Mutation.Shrink => a.Shrink
  | Mutation.Assign cnt val => a.Assign NextPowerOfTwo cnt val
  | Mutation.Assign_range ys => a.Assign_range NextPowerOfTwo ys
  | Mutation.Assign_ptr ys => a.Assign_ptr NextPowerOfTwo ys
  | Mutation.Assign_list list => a.Assign_list NextPowerOfTwo list
  | Mutation.Clear => a.Clear

/-- The array after a sequence of calls, `none` when one of them faults. -/
def Array.calls {T : Type} (NextPowerOfTwo : Int → Int) (a : Array T) :
    List (Mutation T) → Option (Array T)
  | [] => some a
  | m :: rest =>
    match a.call NextPowerOfTwo m with
    | none => none
    | some a1 => Array.calls NextPowerOfTwo a1 rest

/-- The `int` size handed to `Resize` is not negative. -/
def Mutation.SizeNotNegative {T : Type} : Mutation T → Prop
  | Mutation.Resize inSize _ => 0 ≤ inSize
  | _ => True

/-- The call gets iterators of the array and touches no slot outside the block: a
position is at most `end()`, an erased position is before `end()`, an erased range is
ordered and ends at most at `end()`; `PopBack` needs a non-empty array and, for the
destructor it runs on the slot at `end()`, a free slot; an insertion of an empty run
before `end()` needs a free slot, for the slot at `end()` that its shift loop
writes; the size handed to `Resize` and the capacity handed to `Reserve` are not
negative. -/
def Mutation.Admissible {T : Type} (a : Array T) : Mutation T → Prop
  | Mutation.PopBack => 0 < a.Size ∧ a.Size < a.Capacity
  | Mutation.Insert position _ => position ≤ a.Size
  | Mutation.Emplace position _ => position ≤ a.Size
  | Mutation.Emplace_const position _ => position ≤ a.Size
  | Mutation.Insert_cnt position cnt _ =>
    position ≤ a.Size ∧ (cnt = 0 → position < a.Size → a.Size < a.Capacity)
  | Mutation.Insert_range position ys =>
    position ≤ a.Size ∧ (ys.length = 0 → position < a.Size → a.Size < a.Capacity)
  | Mutation.Insert_ptr position ys =>
    position ≤ a.Size ∧ (ys.length = 0 → position < a.Size → a.Size < a.Capacity)
  | Mutation.Insert_list position list =>
    position ≤ a.Size ∧ (list.length = 0 → position < a.Size → a.Size < a.Capacity)
  | Mutation.Erase position => position < a.Size
  | Mutation.Erase_range beginIter endIter => beginIter ≤ endIter ∧ endIter ≤ a.Size
  | Mutation.Resize inSize _ => 0 ≤ inSize
  | Mutation.Reserve inCapacity => 0 ≤ inCapacity
  | _ => True

/-! ## Unfolding the callbacks on a receiving peer -/

theorem positionClientCallback_receives (E : Engine) (w : World) (m : PositionMessage)
    (e : EntityId) (nt : NetworkTransform) (h : Receives w m.netId e nt) :
    positionClientCallback E w m =
      if m.timestamp < nt.lastPosMessage then some w
      else some (w.setEntity e
        { (w.entities e) with
          transform := (positionBlock (E.GetWorldScale w e) m.timestamp m.localPos
            (w.entities e).transform nt).1
          networkTransform := some (positionBlock (E.GetWorldScale w e) m.timestamp
            m.localPos (w.entities e).transform nt).2 }) := by
  obtain ⟨netId, hid, hauth, hent, hnt⟩ := h
  simp only [positionClientCallback, hid, hauth, hent, hnt]
  rfl

theorem rotationClientCallback_receives (E : Engine) (w : World) (m : RotationMessage)
    (e : EntityId) (nt : NetworkTransform) (h : Receives w m.netId e nt) :
    rotationClientCallback E w m =
      if m.timestamp < nt.lastRotMessage then some w
      else some (w.setEntity e
        { (w.entities e) with
          transform := (rotationBlock E.AngleDeg m.timestamp m.localRot
            (w.entities e).transform nt).1
          networkTransform := some (rotationBlock E.AngleDeg m.timestamp m.localRot
            (w.entities e).transform nt).2 }) := by
  obtain ⟨netId, hid, hauth, hent, hnt⟩ := h
  simp only [rotationClientCallback, hid, hauth, hent, hnt]
  rfl

theorem scaleClientCallback_receives (w : World) (m : ScaleMessage)
    (e : EntityId) (nt : NetworkTransform) (h : Receives w m.netId e nt) :
    scaleClientCallback w m =
      if m.timestamp < nt.lastScaleMessage then some w
      else some (w.setEntity e
        { (w.entities e) with
          transform := (scaleBlock m.timestamp m.localScale (w.entities e).transform nt).1
          networkTransform := some (scaleBlock m.timestamp m.localScale
            (w.entities e).transform nt).2 }) := by
  obtain ⟨netId, hid, hauth, hent, hnt⟩ := h
  simp only [scaleClientCallback, hid, hauth, hent, hnt]
  rfl

theorem transformClientCallback_receives (E : Engine) (w : World) (m : TransformMessage)
    (e : EntityId) (nt : NetworkTransform) (h : Receives w m.netId e nt) :
    transformClientCallback E w m =
      some (w.setEntity e
        { (w.entities e) with
          transform := (if m.snap then transformSnapBranch m (w.entities e).transform nt
            else transformBlendBranch (E.GetWorldScale w e) E.AngleDeg m
              (w.entities e).transform nt).1
          networkTransform := some (if m.snap then
              transformSnapBranch m (w.entities e).transform nt
            else transformBlendBranch (E.GetWorldScale w e) E.AngleDeg m
              (w.entities e).transform nt).2 }) := by
  obtain ⟨netId, hid, hauth, hent, hnt⟩ := h
  simp only [transformClientCallback, hid, hauth, hent, hnt]
  rfl

theorem positionBlock_eq (ws : Vector3) (ts : ℚ) (p : Vector3) (t : Transform)
    (nt : NetworkTransform) :
    positionBlock ws ts p t nt =
      if (Vector3.Scale ws (Vector3.sub t.localPos p)).SqrMagnitude
          ≥ nt.snapDistance * nt.snapDistance then
        ({ t with localPos := p },
         { nt with targetPos := p, posInterpolation := 1, prevPos := p, lastPosMessage := ts })
      else
        (t, { nt with targetPos := p, posInterpolation := 0, prevPos := t.localPos,
                      lastPosMessage := ts }) :=
  rfl

theorem rotationBlock_eq (angleDeg : Quaternion → Quaternion → ℚ) (ts : ℚ) (r : Quaternion)
    (t : Transform) (nt : NetworkTransform) :
    rotationBlock angleDeg ts r t nt =
      if abs (angleDeg t.localRot r) ≥ nt.snapRotation then
        ({ t with localRot := r },
         { nt with targetRot := r, rotInterpolation := 1, prevRot := r, lastRotMessage := ts })
      else
        (t, { nt with targetRot := r, rotInterpolation := 0, prevRot := t.localRot,
                      lastRotMessage := ts }) :=
  rfl

theorem scaleBlock_eq (ts : ℚ) (s : Vector3) (t : Transform) (nt : NetworkTransform) :
    scaleBlock ts s t nt =
      if (Vector3.sub t.localScale s).SqrMagnitude ≥ nt.snapScale * nt.snapScale then
        ({ t with localScale := s },
         { nt with targetScale := s, scaleInterpolation := 1, prevScale := s,
                   lastScaleMessage := ts })
      else
        (t, { nt with targetScale := s, scaleInterpolation := 0, prevScale := t.localScale,
                      lastScaleMessage := ts }) :=
  rfl

theorem setEntity_entities_same (w : World) (e : EntityId) (ent : Entity) :
    (w.setEntity e ent).entities e = ent := by
  simp [World.setEntity]

theorem Receives.component {w : World} {id : Int} {e : EntityId} {nt : NetworkTransform}
    (h : Receives w id e nt) : (w.entities e).networkTransform = some nt := by
  obtain ⟨_, _, _, _, hnt⟩ := h
  exact hnt

theorem receives_setEntity (w : World) (id : Int) (e : EntityId) (nt nt1 : NetworkTransform)
    (ent : Entity) (h : Receives w id e nt) (hent : ent.networkTransform = some nt1) :
    Receives (w.setEntity e ent) id e nt1 := by
  obtain ⟨netId, hid, hauth, he, _⟩ := h
  exact ⟨netId, hid, hauth, he, by rw [setEntity_entities_same]; exact hent⟩

theorem position_step (E : Engine) (w : World) (m : PositionMessage)
    (e : EntityId) (nt : NetworkTransform) (h : Receives w m.netId e nt)
    (hts : nt.lastPosMessage ≤ m.timestamp) :
    ∃ w1 nt1, positionClientCallback E w m = some w1 ∧ Receives w1 m.netId e nt1 ∧
      (w1.entities e).transform =
        (positionBlock (E.GetWorldScale w e) m.timestamp m.localPos
          (w.entities e).transform nt).1 ∧
      nt1 = (positionBlock (E.GetWorldScale w e) m.timestamp m.localPos
          (w.entities e).transform nt).2 := by
  rw [positionClientCallback_receives E w m e nt h, if_neg (not_lt.mpr hts)]
  refine ⟨_, _, rfl, receives_setEntity w m.netId e nt _ _ h rfl, ?_, rfl⟩
  rw [setEntity_entities_same]

theorem rotation_step (E : Engine) (w : World) (m : RotationMessage)
    (e : EntityId) (nt : NetworkTransform) (h : Receives w m.netId e nt)
    (hts : nt.lastRotMessage ≤ m.timestamp) :
    ∃ w1 nt1, rotationClientCallback E w m = some w1 ∧ Receives w1 m.netId e nt1 ∧
      (w1.entities e).transform =
        (rotationBlock E.AngleDeg m.timestamp m.localRot (w.entities e).transform nt).1 ∧
      nt1 = (rotationBlock E.AngleDeg m.timestamp m.localRot (w.entities e).transform nt).2 := by
  rw [rotationClientCallback_receives E w m e nt h, if_neg (not_lt.mpr hts)]
  refine ⟨_, _, rfl, receives_setEntity w m.netId e nt _ _ h rfl, ?_, rfl⟩
  rw [setEntity_entities_same]

theorem scale_step (w : World) (m : ScaleMessage)
    (e : EntityId) (nt : NetworkTransform) (h : Receives w m.netId e nt)
    (hts : nt.lastScaleMessage ≤ m.timestamp) :
    ∃ w1 nt1, scaleClientCallback w m = some w1 ∧ Receives w1 m.netId e nt1 ∧
      (w1.entities e).transform =
        (scaleBlock m.timestamp m.localScale (w.entities e).transform nt).1 ∧
      nt1 = (scaleBlock m.timestamp m.localScale (w.entities e).transform nt).2 := by
  rw [scaleClientCallback_receives w m e nt h, if_neg (not_lt.mpr hts)]
  refine ⟨_, _, rfl, receives_setEntity w m.netId e nt _ _ h rfl, ?_, rfl⟩
  rw [setEntity_entities_same]

theorem transform_step (E : Engine) (w : World) (m : TransformMessage)
    (e : EntityId) (nt : NetworkTransform) (h : Receives w m.netId e nt) :
    ∃ w1 nt1, transformClientCallback E w m = some w1 ∧ Receives w1 m.netId e nt1 ∧
      (w1.entities e).transform =
        (if m.snap then transformSnapBranch m (w.entities e).transform nt
         else transformBlendBranch (E.GetWorldScale w e) E.AngleDeg m
           (w.entities e).transform nt).1 ∧
      nt1 = (if m.snap then transformSnapBranch m (w.entities e).transform nt
         else transformBlendBranch (E.GetWorldScale w e) E.AngleDeg m
           (w.entities e).transform nt).2 := by
  rw [transformClientCallback_receives E w m e nt h]
  refine ⟨_, _, rfl, receives_setEntity w m.netId e nt _ _ h rfl, ?_, rfl⟩
  rw [setEntity_entities_same]

theorem setEntity_keeps_components (w : World) (e : EntityId) (ent : Entity)
    (hent : ent.networkTransform.isSome = true) (e1 : EntityId)
    (h : (w.entities e1).networkTransform.isSome = true) :
    ((w.setEntity e ent).entities e1).networkTransform.isSome = true := by
  by_cases he : e1 = e
  · subst he
    rw [setEntity_entities_same]
    exact hent
  · simpa [World.setEntity, Function.update, he] using h

theorem positionClientCallback_preserves (E : Engine) (w w1 : World) (m : PositionMessage)
    (h : positionClientCallback E w m = some w1) :
    w1.GetNetworkId = w.GetNetworkId ∧
    ∀ e, (w.entities e).networkTransform.isSome = true →
      (w1.entities e).networkTransform.isSome = true := by
  unfold positionClientCallback at h
  split at h
  · cases h; exact ⟨rfl, fun _ he => he⟩
  · split at h
    · cases h; exact ⟨rfl, fun _ he => he⟩
    · split at h
      · cases h
      · dsimp only at h
        split at h
        · split at h
          · cases h; exact ⟨rfl, fun _ he => he⟩
          · cases h
            exact ⟨rfl, setEntity_keeps_components w _ _ rfl⟩
        · cases h

theorem rotationClientCallback_preserves (E : Engine) (w w1 : World) (m : RotationMessage)
    (h : rotationClientCallback E w m = some w1) :
    w1.GetNetworkId = w.GetNetworkId ∧
    ∀ e, (w.entities e).networkTransform.isSome = true →
      (w1.entities e).networkTransform.isSome = true := by
  unfold rotationClientCallback at h
  split at h
  · cases h; exact ⟨rfl, fun _ he => he⟩
  · split at h
    · cases h; exact ⟨rfl, fun _ he => he⟩
    · split at h
      · cases h
      · dsimp only at h
        split at h
        · split at h
          · cases h; exact ⟨rfl, fun _ he => he⟩
          · cases h
            exact ⟨rfl, setEntity_keeps_components w _ _ rfl⟩
        · cases h

theorem scaleClientCallback_preserves (w w1 : World) (m : ScaleMessage)
    (h : scaleClientCallback w m = some w1) :
    w1.GetNetworkId = w.GetNetworkId ∧
    ∀ e, (w.entities e).networkTransform.isSome = true →
      (w1.entities e).networkTransform.isSome = true := by
  unfold scaleClientCallback at h
  split at h
  · cases h; exact ⟨rfl, fun _ he => he⟩
  · split at h
    · cases h; exact ⟨rfl, fun _ he => he⟩
    · split at h
      · cases h
      · dsimp only at h
        split at h
        · split at h
          · cases h; exact ⟨rfl, fun _ he => he⟩
          · cases h
            exact ⟨rfl, setEntity_keeps_components w _ _ rfl⟩
        · cases h

theorem transformClientCallback_preserves (E : Engine) (w w1 : World) (m : TransformMessage)
    (h : transformClientCallback E w m = some w1) :
    w1.GetNetworkId = w.GetNetworkId ∧
    ∀ e, (w.entities e).networkTransform.isSome = true →
      (w1.entities e).networkTransform.isSome = true := by
  unfold transformClientCallback at h
  split at h
  · cases h; exact ⟨rfl, fun _ he => he⟩
  · split at h
    · cases h; exact ⟨rfl, fun _ he => he⟩
    · split at h
      · cases h
      · dsimp only at h
        split at h
        · cases h; exact ⟨rfl, fun _ he => he⟩
        · cases h
          exact ⟨rfl, setEntity_keeps_components w _ _ rfl⟩

theorem deliver_preserves (E : Engine) (msgs : List ClientMessage) :
    ∀ w w1 : World, deliver E w msgs = some w1 →
      w1.GetNetworkId = w.GetNetworkId ∧
      ∀ e, (w.entities e).networkTransform.isSome = true →
        (w1.entities e).networkTransform.isSome = true := by
  induction msgs with
  | nil =>
    intro w w1 h
    cases h
    exact ⟨rfl, fun _ he => he⟩
  | cons m ms ih =>
    intro w w1 h
    unfold deliver at h
    split at h
    · cases h
    · rename_i w2 hstep
      have hone : w2.GetNetworkId = w.GetNetworkId ∧
          ∀ e, (w.entities e).networkTransform.isSome = true →
            (w2.entities e).networkTransform.isSome = true := by
        cases m with
        | position pm => exact positionClientCallback_preserves E w w2 pm hstep
        | rotation rm => exact rotationClientCallback_preserves E w w2 rm hstep
        | scale sm => exact scaleClientCallback_preserves w w2 sm hstep
        | transform tm => exact transformClientCallback_preserves E w w2 tm hstep
      obtain ⟨hreg, hcomp⟩ := ih w2 w1 h
      exact ⟨hreg.trans hone.1, fun e he => hcomp e (hone.2 e he)⟩

theorem deliver_receives (E : Engine) (msgs : List ClientMessage) (w w1 : World) (id : Int)
    (e : EntityId) (nt : NetworkTransform) (h : Receives w id e nt)
    (hrun : deliver E w msgs = some w1) : ∃ nt1, Receives w1 id e nt1 := by
  obtain ⟨netId, hid, hauth, hent, hnt⟩ := h
  obtain ⟨hreg, hcomp⟩ := deliver_preserves E msgs w w1 hrun
  have hsome := hcomp e (by rw [hnt]; rfl)
  obtain ⟨nt1, hnt1⟩ := Option.isSome_iff_exists.mp hsome
  exact ⟨nt1, netId, by rw [hreg]; exact hid, hauth, hent, hnt1⟩

theorem demoWorld_receives : Receives demoWorld 7 0 demoNT :=
  ⟨demoNetId 7 false 0, rfl, rfl, rfl, rfl⟩

theorem demoWorldBlending_receives :
    Receives demoWorldBlending 7 0
      { demoNT with targetPos := ⟨1 / 2, 0, 0⟩, posInterpolation := 0, lastPosMessage := 10 } :=
  ⟨demoNetId 7 false 0, rfl, rfl, rfl, rfl⟩

theorem demoWorldBlending_reached :
    positionClientCallback demoEngine demoWorld
      { netId := 7, timestamp := 10, localPos := ⟨1 / 2, 0, 0⟩ } = some demoWorldBlending := by
  rw [positionClientCallback_receives demoEngine demoWorld _ 0 demoNT demoWorld_receives]
  norm_num [demoNT, NetworkTransform.Start, demoRawNT, positionBlock, demoWorld, demoEngine,
    demoEntity0, demoTransform, demoWorldBlending, Vector3.Scale, Vector3.sub,
    Vector3.SqrMagnitude, Vector3.zero, Vector3.one, Transform.GetLocalPos,
    Transform.GetLocalRot, Transform.GetLocalScale]

theorem transformSnapBranch_fresh (m : TransformMessage) (t : Transform)
    (nt : NetworkTransform) (hp : nt.lastPosMessage ≤ m.timestamp)
    (hr : nt.lastRotMessage ≤ m.timestamp) (hs : nt.lastScaleMessage ≤ m.timestamp) :
    transformSnapBranch m t nt =
      ({ t with localPos := m.localPos, localRot := m.localRot, localScale := m.localScale },
       { nt with
         prevPos := m.localPos, lastPosMessage := m.timestamp, posInterpolation := 1,
         prevRot := m.localRot, lastRotMessage := m.timestamp, rotInterpolation := 1,
         prevScale := m.localScale, lastScaleMessage := m.timestamp,
         scaleInterpolation := 1 }) := by
  simp [transformSnapBranch, hp, hr, hs, Transform.SetLocalPos, Transform.SetLocalRot,
    Transform.SetLocalScale, Transform.GetLocalPos, Transform.GetLocalRot,
    Transform.GetLocalScale]

/-! ## Properties of the client callbacks -/

/-- C1 (stale drop): on a receiving peer (the id resolves, no authority, the entity has
a NetworkTransform), a Position, Rotation or Scale message whose timestamp is strictly
less than the last-message timestamp of its channel returns with the whole state
unchanged. -/
theorem stale_message_dropped (E : Engine) (w : World) (id : Int) (e : EntityId)
    (nt : NetworkTransform) (h : Receives w id e nt) :
    (∀ m : PositionMessage, m.netId = id → m.timestamp < nt.lastPosMessage →
        positionClientCallback E w m = some w) ∧
    (∀ m : RotationMessage, m.netId = id → m.timestamp < nt.lastRotMessage →
        rotationClientCallback E w m = some w) ∧
    (∀ m : ScaleMessage, m.netId = id → m.timestamp < nt.lastScaleMessage →
        scaleClientCallback w m = some w) := by
  refine ⟨?_, ?_, ?_⟩
  · intro m hm hts
    subst hm
    rw [positionClientCallback_receives E w m e nt h, if_pos hts]
  · intro m hm hts
    subst hm
    rw [rotationClientCallback_receives E w m e nt h, if_pos hts]
  · intro m hm hts
    subst hm
    rw [scaleClientCallback_receives w m e nt h, if_pos hts]

/-- Witness for C1: on the concrete peer with last position message 10, a Position
message stamped 4 is dropped. -/
theorem stale_message_dropped_witness :
    Receives demoWorldBlending 7 0
      { demoNT with targetPos := ⟨1 / 2, 0, 0⟩, posInterpolation := 0, lastPosMessage := 10 } ∧
    positionClientCallback demoEngine demoWorldBlending
      { netId := 7, timestamp := 4, localPos := ⟨9, 9, 9⟩ } = some demoWorldBlending :=
  ⟨demoWorldBlending_receives,
   (stale_message_dropped demoEngine demoWorldBlending 7 0 _ demoWorldBlending_receives).1
     { netId := 7, timestamp := 4, localPos := ⟨9, 9, 9⟩ } rfl (by norm_num)⟩

/-- C2, counterexample: on the concrete peer the last applied Position message carries
timestamp 10 (it is the state reached from the started peer by that message); a second
Position message with exactly timestamp 10 is not rejected: it is applied and moves the
store to (9,9,9). -/
theorem equal_timestamp_applied :
    positionClientCallback demoEngine demoWorld
      { netId := 7, timestamp := 10, localPos := ⟨1 / 2, 0, 0⟩ } = some demoWorldBlending ∧
    (demoWorldBlending.entities 0).transform.localPos = ⟨0, 0, 0⟩ ∧
    ((positionClientCallback demoEngine demoWorldBlending
      { netId := 7, timestamp := 10, localPos := ⟨9, 9, 9⟩ }).map
        fun w => (w.entities 0).transform.localPos) = some ⟨9, 9, 9⟩ ∧
    positionClientCallback demoEngine demoWorldBlending
      { netId := 7, timestamp := 10, localPos := ⟨9, 9, 9⟩ } ≠ some demoWorldBlending := by
  have hstore : (demoWorldBlending.entities 0).transform.localPos = ⟨0, 0, 0⟩ := by
    simp [demoWorldBlending, World.setEntity, demoEntity0, demoTransform, Vector3.zero]
  have hrun : ((positionClientCallback demoEngine demoWorldBlending
      { netId := 7, timestamp := 10, localPos := ⟨9, 9, 9⟩ }).map
        fun w => (w.entities 0).transform.localPos) = some ⟨9, 9, 9⟩ := by
    rw [positionClientCallback_receives demoEngine demoWorldBlending _ 0 _
      demoWorldBlending_receives]
    norm_num [positionBlock, demoWorldBlending, World.setEntity, demoEngine, demoNT,
      NetworkTransform.Start, demoRawNT, demoEntity0, demoTransform, Vector3.Scale,
      Vector3.sub, Vector3.SqrMagnitude, Vector3.zero, Vector3.one, Transform.GetLocalPos,
      Transform.SetLocalPos]
  refine ⟨demoWorldBlending_reached, hstore, hrun, ?_⟩
  intro hsame
  rw [hsame, Option.map_some', hstore] at hrun
  simp at hrun

/-- C2, amended (staleness is strict): take a receiving peer (the id resolves, no
authority, the entity has a NetworkTransform) and deliver any sequence of Position,
Rotation, Scale and Transform messages that runs without fault.  The resulting state
is again a receiving state, and in it a Position, Rotation or Scale message whose
timestamp is strictly less than the last-message timestamp of its channel is rejected
with the state unchanged, whereas a message carrying exactly that timestamp is
accepted: the callback returns a state whose target for the channel is the value of
the message and whose last-message timestamp is the (equal) timestamp of the
message. -/
theorem strictly_older_rejected_equal_accepted (E : Engine) (w0 w : World)
    (msgs : List ClientMessage) (id : Int) (e : EntityId) (nt0 : NetworkTransform)
    (h0 : Receives w0 id e nt0) (hrun : deliver E w0 msgs = some w) :
    ∃ nt, Receives w id e nt ∧
    (∀ m : PositionMessage, m.netId = id →
      (m.timestamp < nt.lastPosMessage → positionClientCallback E w m = some w) ∧
      (m.timestamp = nt.lastPosMessage → ∃ w1 nt1, positionClientCallback E w m = some w1 ∧
        (w1.entities e).networkTransform = some nt1 ∧ nt1.targetPos = m.localPos ∧
        nt1.lastPosMessage = m.timestamp)) ∧
    (∀ m : RotationMessage, m.netId = id →
      (m.timestamp < nt.lastRotMessage → rotationClientCallback E w m = some w) ∧
      (m.timestamp = nt.lastRotMessage → ∃ w1 nt1, rotationClientCallback E w m = some w1 ∧
        (w1.entities e).networkTransform = some nt1 ∧ nt1.targetRot = m.localRot ∧
        nt1.lastRotMessage = m.timestamp)) ∧
    (∀ m : ScaleMessage, m.netId = id →
      (m.timestamp < nt.lastScaleMessage → scaleClientCallback w m = some w) ∧
      (m.timestamp = nt.lastScaleMessage → ∃ w1 nt1, scaleClientCallback w m = some w1 ∧
        (w1.entities e).networkTransform = some nt1 ∧ nt1.targetScale = m.localScale ∧
        nt1.lastScaleMessage = m.timestamp)) := by
  obtain ⟨nt, h⟩ := deliver_receives E msgs w0 w id e nt0 h0 hrun
  refine ⟨nt, h, ?_, ?_, ?_⟩ <;> intro m hm <;> subst hm
  · refine ⟨fun hlt => ?_, fun heq => ?_⟩
    · rw [positionClientCallback_receives E w m e nt h, if_pos hlt]
    · obtain ⟨w1, nt1, h1, hr1, _, hn1⟩ := position_step E w m e nt h (le_of_eq heq.symm)
      refine ⟨w1, nt1, h1, hr1.component, ?_, ?_⟩
      · rw [hn1, positionBlock_eq]; split <;> rfl
      · rw [hn1, positionBlock_eq]; split <;> rfl
  · refine ⟨fun hlt => ?_, fun heq => ?_⟩
    · rw [rotationClientCallback_receives E w m e nt h, if_pos hlt]
    · obtain ⟨w1, nt1, h1, hr1, _, hn1⟩ := rotation_step E w m e nt h (le_of_eq heq.symm)
      refine ⟨w1, nt1, h1, hr1.component, ?_, ?_⟩
      · rw [hn1, rotationBlock_eq]; split <;> rfl
      · rw [hn1, rotationBlock_eq]; split <;> rfl
  · refine ⟨fun hlt => ?_, fun heq => ?_⟩
    · rw [scaleClientCallback_receives w m e nt h, if_pos hlt]
    · obtain ⟨w1, nt1, h1, hr1, _, hn1⟩ := scale_step w m e nt h (le_of_eq heq.symm)
      refine ⟨w1, nt1, h1, hr1.component, ?_, ?_⟩
      · rw [hn1, scaleBlock_eq]; split <;> rfl
      · rw [hn1, scaleBlock_eq]; split <;> rfl

/-- Witness for the amended C2: the started concrete peer is a receiving state and
delivering Position{10,(1/2,0,0)} to it runs without fault; the theorem then gives a
receiving state in which the strict rule holds. -/
theorem strictly_older_rejected_equal_accepted_witness :
    Receives demoWorld 7 0 demoNT ∧
    deliver demoEngine demoWorld
      [ClientMessage.position { netId := 7, timestamp := 10, localPos := ⟨1 / 2, 0, 0⟩ }]
      = some demoWorldBlending ∧
    ∃ nt, Receives demoWorldBlending 7 0 nt ∧
      ∀ m : PositionMessage, m.netId = 7 →
        (m.timestamp < nt.lastPosMessage →
          positionClientCallback demoEngine demoWorldBlending m = some demoWorldBlending) ∧
        (m.timestamp = nt.lastPosMessage →
          ∃ w1 nt1, positionClientCallback demoEngine demoWorldBlending m = some w1 ∧
            (w1.entities 0).networkTransform = some nt1 ∧ nt1.targetPos = m.localPos ∧
            nt1.lastPosMessage = m.timestamp) :=
  have hrun : deliver demoEngine demoWorld
      [ClientMessage.position { netId := 7, timestamp := 10, localPos := ⟨1 / 2, 0, 0⟩ }]
      = some demoWorldBlending := by
    simp only [deliver, clientCallback, demoWorldBlending_reached]
  ⟨demoWorld_receives, hrun,
   (strictly_older_rejected_equal_accepted demoEngine demoWorld demoWorldBlending _ 7 0
      demoNT demoWorld_receives hrun).imp fun _ hnt => ⟨hnt.1, hnt.2.1⟩⟩

/-- C3 (snap-vs-blend boundary for position): for an accepted Position message with
value T, let d2 be the squared magnitude of the component-wise product of the entity's
world scale with (current local position - T).  The callback returns; if
d2 >= snapDistance * snapDistance the store's local position is T and posInterpolation
is 1 afterwards, otherwise the store's local position is unchanged and posInterpolation
is 0. -/
theorem position_snap_boundary (E : Engine) (w : World) (m : PositionMessage)
    (e : EntityId) (nt : NetworkTransform) (h : Receives w m.netId e nt)
    (hts : nt.lastPosMessage ≤ m.timestamp) :
    ∃ w1 nt1, positionClientCallback E w m = some w1 ∧
      (w1.entities e).networkTransform = some nt1 ∧
      (posDelta2 E w e m.localPos ≥ nt.snapDistance * nt.snapDistance →
        (w1.entities e).transform.localPos = m.localPos ∧ nt1.posInterpolation = 1) ∧
      (posDelta2 E w e m.localPos < nt.snapDistance * nt.snapDistance →
        (w1.entities e).transform.localPos = (w.entities e).transform.localPos ∧
        nt1.posInterpolation = 0) := by
  rw [positionClientCallback_receives E w m e nt h, if_neg (not_lt.mpr hts)]
  refine ⟨_, (positionBlock (E.GetWorldScale w e) m.timestamp m.localPos
    (w.entities e).transform nt).2, rfl, ?_, ?_, ?_⟩
  · rw [setEntity_entities_same]
  · intro hd
    unfold posDelta2 at hd
    rw [setEntity_entities_same, positionBlock_eq, if_pos hd]
    exact ⟨rfl, rfl⟩
  · intro hd
    unfold posDelta2 at hd
    rw [setEntity_entities_same, positionBlock_eq, if_neg (not_le.mpr hd)]
    exact ⟨rfl, rfl⟩

/-- Witness for C3: on the started concrete peer (snapDistance 1, store at the origin)
Position{6,(3,0,0)} is accepted and snaps. -/
theorem position_snap_boundary_witness :
    Receives demoWorld 7 0 demoNT ∧ demoNT.lastPosMessage ≤ (6 : ℚ) ∧
    ∃ w1 nt1, positionClientCallback demoEngine demoWorld
        { netId := 7, timestamp := 6, localPos := ⟨3, 0, 0⟩ } = some w1 ∧
      (w1.entities 0).networkTransform = some nt1 ∧
      (posDelta2 demoEngine demoWorld 0 ⟨3, 0, 0⟩ ≥ demoNT.snapDistance * demoNT.snapDistance →
        (w1.entities 0).transform.localPos = ⟨3, 0, 0⟩ ∧ nt1.posInterpolation = 1) ∧
      (posDelta2 demoEngine demoWorld 0 ⟨3, 0, 0⟩ < demoNT.snapDistance * demoNT.snapDistance →
        (w1.entities 0).transform.localPos = (demoWorld.entities 0).transform.localPos ∧
        nt1.posInterpolation = 0) :=
  ⟨demoWorld_receives, by norm_num [demoNT, NetworkTransform.Start],
   position_snap_boundary demoEngine demoWorld
    { netId := 7, timestamp := 6, localPos := ⟨3, 0, 0⟩ } 0 demoNT demoWorld_receives
    (by norm_num [demoNT, NetworkTransform.Start])⟩

/-- C4 (post-state of an accepted single-channel message): for an accepted Position
(resp. Rotation, Scale) message with value T and timestamp ts the callback returns, and
afterwards the channel's target is T, its previous value is the store's field value as
it stands after the snap decision (T if the threshold test snapped, the old store value
otherwise) and its last-message timestamp is ts; target, previous value, progress and
timestamp of the other two channels are unchanged. -/
theorem accepted_message_post_state (E : Engine) (w : World) (id : Int) (e : EntityId)
    (nt : NetworkTransform) (h : Receives w id e nt) :
    (∀ m : PositionMessage, m.netId = id → nt.lastPosMessage ≤ m.timestamp →
      ∃ w1 nt1, positionClientCallback E w m = some w1 ∧
        (w1.entities e).networkTransform = some nt1 ∧
        nt1.targetPos = m.localPos ∧
        nt1.prevPos = (w1.entities e).transform.localPos ∧
        (w1.entities e).transform.localPos =
          (if posDelta2 E w e m.localPos ≥ nt.snapDistance * nt.snapDistance then m.localPos
           else (w.entities e).transform.localPos) ∧
        nt1.lastPosMessage = m.timestamp ∧ rotChannelEq nt1 nt ∧ scaleChannelEq nt1 nt) ∧
    (∀ m : RotationMessage, m.netId = id → nt.lastRotMessage ≤ m.timestamp →
      ∃ w1 nt1, rotationClientCallback E w m = some w1 ∧
        (w1.entities e).networkTransform = some nt1 ∧
        nt1.targetRot = m.localRot ∧
        nt1.prevRot = (w1.entities e).transform.localRot ∧
        (w1.entities e).transform.localRot =
          (if rotDelta E w e m.localRot ≥ nt.snapRotation then m.localRot
           else (w.entities e).transform.localRot) ∧
        nt1.lastRotMessage = m.timestamp ∧ posChannelEq nt1 nt ∧ scaleChannelEq nt1 nt) ∧
    (∀ m : ScaleMessage, m.netId = id → nt.lastScaleMessage ≤ m.timestamp →
      ∃ w1 nt1, scaleClientCallback w m = some w1 ∧
        (w1.entities e).networkTransform = some nt1 ∧
        nt1.targetScale = m.localScale ∧
        nt1.prevScale = (w1.entities e).transform.localScale ∧
        (w1.entities e).transform.localScale =
          (if scaleDelta2 w e m.localScale ≥ nt.snapScale * nt.snapScale then m.localScale
           else (w.entities e).transform.localScale) ∧
        nt1.lastScaleMessage = m.timestamp ∧ posChannelEq nt1 nt ∧ rotChannelEq nt1 nt) := by
  refine ⟨?_, ?_, ?_⟩ <;> intro m hm hts <;> subst hm
  · rw [positionClientCallback_receives E w m e nt h, if_neg (not_lt.mpr hts)]
    refine ⟨_, (positionBlock (E.GetWorldScale w e) m.timestamp m.localPos
      (w.entities e).transform nt).2, rfl, ?_⟩
    rw [setEntity_entities_same, positionBlock_eq]
    unfold posDelta2 rotChannelEq scaleChannelEq
    split <;> simp
  · rw [rotationClientCallback_receives E w m e nt h, if_neg (not_lt.mpr hts)]
    refine ⟨_, (rotationBlock E.AngleDeg m.timestamp m.localRot
      (w.entities e).transform nt).2, rfl, ?_⟩
    rw [setEntity_entities_same, rotationBlock_eq]
    unfold rotDelta posChannelEq scaleChannelEq
    split <;> simp
  · rw [scaleClientCallback_receives w m e nt h, if_neg (not_lt.mpr hts)]
    refine ⟨_, (scaleBlock m.timestamp m.localScale (w.entities e).transform nt).2, rfl, ?_⟩
    rw [setEntity_entities_same, scaleBlock_eq]
    unfold scaleDelta2 posChannelEq rotChannelEq
    split <;> simp

/-- Witness for C4: on the started concrete peer Scale{2,(2,2,2)} is accepted; the
squared distance 3 reaches snapScale * snapScale = 1. -/
theorem accepted_message_post_state_witness :
    Receives demoWorld 7 0 demoNT ∧ demoNT.lastScaleMessage ≤ (2 : ℚ) ∧
    ∃ w1 nt1, scaleClientCallback demoWorld
        { netId := 7, timestamp := 2, localScale := ⟨2, 2, 2⟩ } = some w1 ∧
      (w1.entities 0).networkTransform = some nt1 ∧
      nt1.targetScale = ⟨2, 2, 2⟩ ∧
      nt1.prevScale = (w1.entities 0).transform.localScale ∧
      (w1.entities 0).transform.localScale =
        (if scaleDelta2 demoWorld 0 ⟨2, 2, 2⟩ ≥ demoNT.snapScale * demoNT.snapScale
         then ⟨2, 2, 2⟩ else (demoWorld.entities 0).transform.localScale) ∧
      nt1.lastScaleMessage = 2 ∧ posChannelEq nt1 demoNT ∧ rotChannelEq nt1 demoNT :=
  ⟨demoWorld_receives, by norm_num [demoNT, NetworkTransform.Start],
   (accepted_message_post_state demoEngine demoWorld 7 0 demoNT demoWorld_receives).2.2
     { netId := 7, timestamp := 2, localScale := ⟨2, 2, 2⟩ } rfl
     (by norm_num [demoNT, NetworkTransform.Start])⟩

/-- C5 (the position scenario as a trace): on a receiving peer whose component is as
Start leaves it (lastPosMessage = 0), with snapDistance = 1, world scale (1,1,1) and
local position (0,0,0): Position{ts=5,(1/2,0,0)} leaves the store at (0,0,0) with target
(1/2,0,0) and progress 0; then Position{ts=6,(3,0,0)} sets the store to (3,0,0) with
progress 1; then Position{ts=4,(9,9,9)} changes nothing, so the store remains
(3,0,0). -/
theorem position_scenario (E : Engine) (w : World) (id : Int) (e : EntityId)
    (nt0 : NetworkTransform)
    (h : Receives w id e (NetworkTransform.Start (w.entities e) nt0))
    (hsnap : nt0.snapDistance = 1)
    (hws : ∀ w1, E.GetWorldScale w1 e = ⟨1, 1, 1⟩)
    (hpos : (w.entities e).transform.localPos = ⟨0, 0, 0⟩) :
    ∃ w1 nt1 w2 nt2,
      positionClientCallback E w { netId := id, timestamp := 5, localPos := ⟨1 / 2, 0, 0⟩ }
        = some w1 ∧
      (w1.entities e).networkTransform = some nt1 ∧
      (w1.entities e).transform.localPos = ⟨0, 0, 0⟩ ∧
      nt1.targetPos = ⟨1 / 2, 0, 0⟩ ∧ nt1.posInterpolation = 0 ∧
      positionClientCallback E w1 { netId := id, timestamp := 6, localPos := ⟨3, 0, 0⟩ }
        = some w2 ∧
      (w2.entities e).networkTransform = some nt2 ∧
      (w2.entities e).transform.localPos = ⟨3, 0, 0⟩ ∧ nt2.posInterpolation = 1 ∧
      positionClientCallback E w2 { netId := id, timestamp := 4, localPos := ⟨9, 9, 9⟩ }
        = some w2 ∧
      (w2.entities e).transform.localPos = ⟨3, 0, 0⟩ := by
  have hlast : (NetworkTransform.Start (w.entities e) nt0).lastPosMessage = 0 := rfl
  have hsn : (NetworkTransform.Start (w.entities e) nt0).snapDistance = 1 := hsnap
  -- first message: 0 <= 5 and the squared distance 1/4 is below 1, so it blends
  obtain ⟨w1, nt1, h1, hr1, ht1, hn1⟩ := position_step E w
    { netId := id, timestamp := 5, localPos := ⟨1 / 2, 0, 0⟩ } e _ h (by rw [hlast]; norm_num)
  rw [positionBlock_eq, if_neg (by
    rw [hsn, hws, hpos]; norm_num [Vector3.Scale, Vector3.sub, Vector3.SqrMagnitude])] at ht1 hn1
  dsimp only at ht1 hn1 hr1
  have hpos1 : (w1.entities e).transform.localPos = ⟨0, 0, 0⟩ := by rw [ht1, hpos]
  have hlast1 : nt1.lastPosMessage = 5 := by rw [hn1]
  have hsn1 : nt1.snapDistance = 1 := by rw [hn1]; exact hsn
  -- second message: 5 <= 6 and the squared distance 9 reaches 1, so it snaps
  obtain ⟨w2, nt2, h2, hr2, ht2, hn2⟩ := position_step E w1
    { netId := id, timestamp := 6, localPos := ⟨3, 0, 0⟩ } e nt1 hr1 (by rw [hlast1]; norm_num)
  rw [positionBlock_eq, if_pos (by
    rw [hsn1, hws, hpos1]; norm_num [Vector3.Scale, Vector3.sub, Vector3.SqrMagnitude])] at ht2 hn2
  dsimp only at ht2 hn2 hr2
  have hpos2 : (w2.entities e).transform.localPos = ⟨3, 0, 0⟩ := by rw [ht2]
  have hlast2 : nt2.lastPosMessage = 6 := by rw [hn2]
  -- third message: 4 < 6, stale
  have h3 := positionClientCallback_receives E w2
    { netId := id, timestamp := 4, localPos := ⟨9, 9, 9⟩ } e nt2 hr2
  rw [if_pos (by rw [hlast2]; norm_num)] at h3
  refine ⟨w1, nt1, w2, nt2, h1, hr1.component, hpos1, ?_, ?_, h2, hr2.component, hpos2, ?_,
    h3, hpos2⟩
  · rw [hn1]
  · rw [hn1]
  · rw [hn2]

/-- Witness for C5: the scenario on the concrete peer, whose component is the started
one, whose engine reports world scale (1,1,1) and whose entity 0 sits at the origin. -/
theorem position_scenario_witness :
    ∃ w1 nt1 w2 nt2,
      positionClientCallback demoEngine demoWorld
        { netId := 7, timestamp := 5, localPos := ⟨1 / 2, 0, 0⟩ } = some w1 ∧
      (w1.entities 0).networkTransform = some nt1 ∧
      (w1.entities 0).transform.localPos = ⟨0, 0, 0⟩ ∧
      nt1.targetPos = ⟨1 / 2, 0, 0⟩ ∧ nt1.posInterpolation = 0 ∧
      positionClientCallback demoEngine w1
        { netId := 7, timestamp := 6, localPos := ⟨3, 0, 0⟩ } = some w2 ∧
      (w2.entities 0).networkTransform = some nt2 ∧
      (w2.entities 0).transform.localPos = ⟨3, 0, 0⟩ ∧ nt2.posInterpolation = 1 ∧
      positionClientCallback demoEngine w2
        { netId := 7, timestamp := 4, localPos := ⟨9, 9, 9⟩ } = some w2 ∧
      (w2.entities 0).transform.localPos = ⟨3, 0, 0⟩ :=
  position_scenario demoEngine demoWorld 7 0 demoRawNT demoWorld_receives rfl
    (fun _ => rfl) rfl

/-- C6 (unknown id / own authority): when the network id of the message does not
resolve, or resolves to an identity over which this peer has authority, each of the
Position, Rotation, Scale and Transform client callbacks returns with the whole
state unchanged. -/
theorem unknown_or_authoritative_dropped (E : Engine) (w : World) (id : Int)
    (h : w.GetNetworkId id = none ∨
      ∃ netId, w.GetNetworkId id = some netId ∧ netId.HasClientAuthority = true) :
    (∀ m : PositionMessage, m.netId = id → positionClientCallback E w m = some w) ∧
    (∀ m : RotationMessage, m.netId = id → rotationClientCallback E w m = some w) ∧
    (∀ m : ScaleMessage, m.netId = id → scaleClientCallback w m = some w) ∧
    (∀ m : TransformMessage, m.netId = id → transformClientCallback E w m = some w) := by
  refine ⟨?_, ?_, ?_, ?_⟩ <;> intro m hm <;> subst hm
  · rcases h with h | ⟨netId, h, ha⟩ <;> simp [positionClientCallback, h, *]
  · rcases h with h | ⟨netId, h, ha⟩ <;> simp [rotationClientCallback, h, *]
  · rcases h with h | ⟨netId, h, ha⟩ <;> simp [scaleClientCallback, h, *]
  · rcases h with h | ⟨netId, h, ha⟩ <;> simp [transformClientCallback, h, *]

/-- Witness for C6: id 9 is under this peer's own authority on the concrete peer, and
a snapping Transform message for it is dropped. -/
theorem unknown_or_authoritative_dropped_witness :
    (demoWorld.GetNetworkId 9 = none ∨
      ∃ netId, demoWorld.GetNetworkId 9 = some netId ∧ netId.HasClientAuthority = true) ∧
    transformClientCallback demoEngine demoWorld
      { netId := 9, timestamp := 3, snap := true, localPos := ⟨9, 9, 9⟩,
        localRot := Quaternion.identity, localScale := Vector3.one } = some demoWorld :=
  ⟨Or.inr ⟨demoNetId 9 true 2, rfl, rfl⟩,
   (unknown_or_authoritative_dropped demoEngine demoWorld 9
      (Or.inr ⟨demoNetId 9 true 2, rfl, rfl⟩)).2.2.2 _ rfl⟩

/-- C7, the code at the failing input: identity 8 of the concrete peer resolves, is not
under this peer's authority and its entity 1 has no NetworkTransform.  The Position,
Rotation and Scale callbacks dereference the null component (the run faults), while the
Transform callback, which tests the component first, returns with the state
unchanged. -/
theorem missing_component_faults :
    demoWorld.GetNetworkId 8 = some (demoNetId 8 false 1) ∧
    (demoWorld.entities 1).networkTransform = none ∧
    positionClientCallback demoEngine demoWorld
      { netId := 8, timestamp := 1, localPos := ⟨0, 0, 0⟩ } = none ∧
    rotationClientCallback demoEngine demoWorld
      { netId := 8, timestamp := 1, localRot := Quaternion.identity } = none ∧
    scaleClientCallback demoWorld
      { netId := 8, timestamp := 1, localScale := ⟨1, 1, 1⟩ } = none ∧
    transformClientCallback demoEngine demoWorld
      { netId := 8, timestamp := 1, snap := false, localPos := ⟨0, 0, 0⟩,
        localRot := Quaternion.identity, localScale := ⟨1, 1, 1⟩ } = some demoWorld :=
  ⟨rfl, rfl, rfl, rfl, rfl, rfl⟩

/-- C8 (explicit snap flag): for a Transform message with snap = true whose timestamp
is >= the last-message timestamp of all three channels, the callback returns, the
store's local position, rotation and scale equal the message's values and all three
progress values are 1, with no condition on the distance or angle between the old
store values and the message values. -/
theorem snap_flag_applies_all (E : Engine) (w : World) (m : TransformMessage)
    (e : EntityId) (nt : NetworkTransform) (h : Receives w m.netId e nt)
    (hsnap : m.snap = true) (hp : nt.lastPosMessage ≤ m.timestamp)
    (hr : nt.lastRotMessage ≤ m.timestamp) (hs : nt.lastScaleMessage ≤ m.timestamp) :
    ∃ w1 nt1, transformClientCallback E w m = some w1 ∧
      (w1.entities e).networkTransform = some nt1 ∧
      (w1.entities e).transform.localPos = m.localPos ∧
      (w1.entities e).transform.localRot = m.localRot ∧
      (w1.entities e).transform.localScale = m.localScale ∧
      nt1.posInterpolation = 1 ∧ nt1.rotInterpolation = 1 ∧ nt1.scaleInterpolation = 1 := by
  obtain ⟨w1, nt1, h1, hr1, ht1, hn1⟩ := transform_step E w m e nt h
  rw [hsnap, if_pos rfl, transformSnapBranch_fresh m _ nt hp hr hs] at ht1 hn1
  refine ⟨w1, nt1, h1, hr1.component, ?_, ?_, ?_, ?_, ?_, ?_⟩
  · rw [ht1]
  · rw [ht1]
  · rw [ht1]
  · rw [hn1]
  · rw [hn1]
  · rw [hn1]

/-- Witness for C8: on the started concrete peer a snapping Transform message that moves
the position by only 1/2 (below snapDistance = 1) and keeps rotation and scale is
applied to the store at once, with all progress values 1. -/
theorem snap_flag_applies_all_witness :
    Receives demoWorld 7 0 demoNT ∧
    ∃ w1 nt1, transformClientCallback demoEngine demoWorld
        { netId := 7, timestamp := 1, snap := true, localPos := ⟨1 / 2, 0, 0⟩,
          localRot := Quaternion.identity, localScale := Vector3.one } = some w1 ∧
      (w1.entities 0).networkTransform = some nt1 ∧
      (w1.entities 0).transform.localPos = ⟨1 / 2, 0, 0⟩ ∧
      (w1.entities 0).transform.localRot = Quaternion.identity ∧
      (w1.entities 0).transform.localScale = Vector3.one ∧
      nt1.posInterpolation = 1 ∧ nt1.rotInterpolation = 1 ∧ nt1.scaleInterpolation = 1 :=
  ⟨demoWorld_receives,
   snap_flag_applies_all demoEngine demoWorld
    { netId := 7, timestamp := 1, snap := true, localPos := ⟨1 / 2, 0, 0⟩,
      localRot := Quaternion.identity, localScale := Vector3.one } 0 demoNT
    demoWorld_receives rfl
    (by norm_num [demoNT, NetworkTransform.Start])
    (by norm_num [demoNT, NetworkTransform.Start])
    (by norm_num [demoNT, NetworkTransform.Start])⟩

/-- C9, the code at the failing input: on the started concrete peer (target position
(0,0,0), last position message 0) the snapping Transform message with timestamp 1 and
position (3,0,0) is accepted on the position channel: the store moves to (3,0,0), the
previous value becomes (3,0,0), the timestamp becomes 1 and the progress is 1, but
targetPos is still (0,0,0).  The same message with snap = false, which snaps through the
threshold test, does set targetPos to (3,0,0). -/
theorem snap_branch_keeps_old_target :
    (transformAfter (transformClientCallback demoEngine demoWorld (demoSnapMessage 1)) 0).map
      (fun t => t.localPos) = some ⟨3, 0, 0⟩ ∧
    (componentAfter (transformClientCallback demoEngine demoWorld (demoSnapMessage 1)) 0).map
      (fun nt => (nt.targetPos, nt.prevPos, nt.posInterpolation, nt.lastPosMessage))
      = some (⟨0, 0, 0⟩, ⟨3, 0, 0⟩, 1, 1) ∧
    (componentAfter (transformClientCallback demoEngine demoWorld
        { demoSnapMessage 1 with snap := false }) 0).map
      (fun nt => (nt.targetPos, nt.prevPos, nt.posInterpolation, nt.lastPosMessage))
      = some (⟨3, 0, 0⟩, ⟨3, 0, 0⟩, 1, 1) := by
  refine ⟨?_, ?_, ?_⟩
  · rw [transformClientCallback_receives demoEngine demoWorld _ 0 demoNT demoWorld_receives]
    norm_num [transformAfter, demoSnapMessage, transformSnapBranch, setEntity_entities_same,
      demoNT, NetworkTransform.Start, demoRawNT, Transform.SetLocalPos, Transform.SetLocalRot,
      Transform.SetLocalScale, Transform.GetLocalPos, Transform.GetLocalRot,
      Transform.GetLocalScale]
  · rw [transformClientCallback_receives demoEngine demoWorld _ 0 demoNT demoWorld_receives]
    norm_num [componentAfter, demoSnapMessage, transformSnapBranch, setEntity_entities_same,
      demoNT, NetworkTransform.Start, demoRawNT, demoEntity0, demoTransform, Vector3.zero,
      Transform.SetLocalPos, Transform.SetLocalRot,
      Transform.SetLocalScale, Transform.GetLocalPos, Transform.GetLocalRot,
      Transform.GetLocalScale]
  · rw [transformClientCallback_receives demoEngine demoWorld _ 0 demoNT demoWorld_receives]
    norm_num [componentAfter, demoSnapMessage, transformBlendBranch, positionBlock_eq,
      rotationBlock_eq, scaleBlock_eq, setEntity_entities_same, demoWorld, demoEngine,
      demoNT, NetworkTransform.Start, demoRawNT, demoEntity0, demoTransform, Vector3.zero,
      Vector3.one, Quaternion.identity, Vector3.Scale, Vector3.sub, Vector3.SqrMagnitude,
      Transform.GetLocalPos, Transform.GetLocalRot, Transform.GetLocalScale]

/-- C10, the code at the failing input: on the concrete peer whose position channel is
mid-blend (store (0,0,0), target (1/2,0,0), progress 0, last position message 10), the
snapping Transform message with timestamp 5 is stale on the position channel and fresh
on the other two.  The position store value, target, previous value and timestamp are
unchanged, and rotation and scale take timestamp 5, but the position progress jumps
from 0 to 1.  The same message with snap = false leaves the position progress at 0. -/
theorem snap_branch_finishes_stale_channel :
    (componentAfter (some demoWorldBlending) 0).map
      (fun nt => (nt.targetPos, nt.prevPos, nt.posInterpolation, nt.lastPosMessage))
      = some (⟨1 / 2, 0, 0⟩, ⟨0, 0, 0⟩, 0, 10) ∧
    (transformAfter (transformClientCallback demoEngine demoWorldBlending
        (demoSnapMessage 5)) 0).map (fun t => t.localPos) = some ⟨0, 0, 0⟩ ∧
    (componentAfter (transformClientCallback demoEngine demoWorldBlending
        (demoSnapMessage 5)) 0).map
      (fun nt => (nt.targetPos, nt.prevPos, nt.posInterpolation, nt.lastPosMessage))
      = some (⟨1 / 2, 0, 0⟩, ⟨0, 0, 0⟩, 1, 10) ∧
    (componentAfter (transformClientCallback demoEngine demoWorldBlending
        (demoSnapMessage 5)) 0).map
      (fun nt => (nt.lastRotMessage, nt.lastScaleMessage)) = some (5, 5) ∧
    (componentAfter (transformClientCallback demoEngine demoWorldBlending
        { demoSnapMessage 5 with snap := false }) 0).map
      (fun nt => (nt.targetPos, nt.prevPos, nt.posInterpolation, nt.lastPosMessage))
      = some (⟨1 / 2, 0, 0⟩, ⟨0, 0, 0⟩, 0, 10) := by
  refine ⟨?_, ?_, ?_, ?_, ?_⟩
  · norm_num [componentAfter, demoWorldBlending, setEntity_entities_same, demoNT,
      NetworkTransform.Start, demoRawNT, demoEntity0, demoTransform, Vector3.zero,
      Transform.GetLocalPos]
  · rw [transformClientCallback_receives demoEngine demoWorldBlending _ 0 _
      demoWorldBlending_receives]
    norm_num [transformAfter, demoSnapMessage, transformSnapBranch, setEntity_entities_same,
      demoWorldBlending, demoNT, NetworkTransform.Start, demoRawNT, demoEntity0,
      demoTransform, Vector3.zero, Transform.SetLocalPos, Transform.SetLocalRot,
      Transform.SetLocalScale, Transform.GetLocalPos, Transform.GetLocalRot,
      Transform.GetLocalScale]
  · rw [transformClientCallback_receives demoEngine demoWorldBlending _ 0 _
      demoWorldBlending_receives]
    norm_num [componentAfter, demoSnapMessage, transformSnapBranch, setEntity_entities_same,
      demoWorldBlending, demoNT, NetworkTransform.Start, demoRawNT, demoEntity0,
      demoTransform, Vector3.zero, Transform.SetLocalPos, Transform.SetLocalRot,
      Transform.SetLocalScale, Transform.GetLocalPos, Transform.GetLocalRot,
      Transform.GetLocalScale]
  · rw [transformClientCallback_receives demoEngine demoWorldBlending _ 0 _
      demoWorldBlending_receives]
    norm_num [componentAfter, demoSnapMessage, transformSnapBranch, setEntity_entities_same,
      demoWorldBlending, demoNT, NetworkTransform.Start, demoRawNT, demoEntity0,
      demoTransform, Vector3.zero, Transform.SetLocalPos, Transform.SetLocalRot,
      Transform.SetLocalScale, Transform.GetLocalPos, Transform.GetLocalRot,
      Transform.GetLocalScale]
  · rw [transformClientCallback_receives demoEngine demoWorldBlending _ 0 _
      demoWorldBlending_receives]
    norm_num [componentAfter, demoSnapMessage, transformBlendBranch, positionBlock_eq,
      rotationBlock_eq, scaleBlock_eq, setEntity_entities_same, demoWorldBlending,
      demoWorld, demoEngine, demoNT, NetworkTransform.Start, demoRawNT, demoEntity0,
      demoTransform, Vector3.zero, Vector3.one, Quaternion.identity, Vector3.Scale,
      Vector3.sub, Vector3.SqrMagnitude, Transform.GetLocalPos, Transform.GetLocalRot,
      Transform.GetLocalScale]

/-! ## The combined message and the methods of the component -/

theorem setEntity_setEntity (w : World) (e : EntityId) (a b : Entity) :
    (w.setEntity e a).setEntity e b = w.setEntity e b := by
  simp [World.setEntity]

theorem setEntity_self (w : World) (e : EntityId) (ent : Entity) (h : w.entities e = ent) :
    w.setEntity e ent = w := by
  subst h
  simp [World.setEntity]

theorem setEntity_entities_other (w : World) (e e1 : EntityId) (ent : Entity) (h : e1 ≠ e) :
    (w.setEntity e ent).entities e1 = w.entities e1 := by
  simp [World.setEntity, Function.update, h]

theorem setEntity_GetNetworkId (w : World) (e : EntityId) (ent : Entity) :
    (w.setEntity e ent).GetNetworkId = w.GetNetworkId :=
  rfl

theorem positionClientCallback_any (E : Engine) (w : World) (m : PositionMessage)
    (e : EntityId) (nt : NetworkTransform) (h : Receives w m.netId e nt) :
    positionClientCallback E w m = some (w.setEntity e
      { (w.entities e) with
        transform := (if nt.lastPosMessage ≤ m.timestamp then
            positionBlock (E.GetWorldScale w e) m.timestamp m.localPos (w.entities e).transform nt
          else ((w.entities e).transform, nt)).1
        networkTransform := some (if nt.lastPosMessage ≤ m.timestamp then
            positionBlock (E.GetWorldScale w e) m.timestamp m.localPos (w.entities e).transform nt
          else ((w.entities e).transform, nt)).2 }) := by
  rw [positionClientCallback_receives E w m e nt h]
  by_cases hts : m.timestamp < nt.lastPosMessage
  · rw [if_pos hts, if_neg (not_le.mpr hts)]
    rw [setEntity_self]
    rw [← h.component]
  · rw [if_neg hts, if_pos (not_lt.mp hts)]

theorem rotationClientCallback_any (E : Engine) (w : World) (m : RotationMessage)
    (e : EntityId) (nt : NetworkTransform) (h : Receives w m.netId e nt) :
    rotationClientCallback E w m = some (w.setEntity e
      { (w.entities e) with
        transform := (if nt.lastRotMessage ≤ m.timestamp then
            rotationBlock E.AngleDeg m.timestamp m.localRot (w.entities e).transform nt
          else ((w.entities e).transform, nt)).1
        networkTransform := some (if nt.lastRotMessage ≤ m.timestamp then
            rotationBlock E.AngleDeg m.timestamp m.localRot (w.entities e).transform nt
          else ((w.entities e).transform, nt)).2 }) := by
  rw [rotationClientCallback_receives E w m e nt h]
  by_cases hts : m.timestamp < nt.lastRotMessage
  · rw [if_pos hts, if_neg (not_le.mpr hts)]
    rw [setEntity_self]
    rw [← h.component]
  · rw [if_neg hts, if_pos (not_lt.mp hts)]

theorem scaleClientCallback_any (w : World) (m : ScaleMessage)
    (e : EntityId) (nt : NetworkTransform) (h : Receives w m.netId e nt) :
    scaleClientCallback w m = some (w.setEntity e
      { (w.entities e) with
        transform := (if nt.lastScaleMessage ≤ m.timestamp then
            scaleBlock m.timestamp m.localScale (w.entities e).transform nt
          else ((w.entities e).transform, nt)).1
        networkTransform := some (if nt.lastScaleMessage ≤ m.timestamp then
            scaleBlock m.timestamp m.localScale (w.entities e).transform nt
          else ((w.entities e).transform, nt)).2 }) := by
  rw [scaleClientCallback_receives w m e nt h]
  by_cases hts : m.timestamp < nt.lastScaleMessage
  · rw [if_pos hts, if_neg (not_le.mpr hts)]
    rw [setEntity_self]
    rw [← h.component]
  · rw [if_neg hts, if_pos (not_lt.mp hts)]

theorem transformBlendBranch_eq (ws : Vector3) (angleDeg : Quaternion → Quaternion → ℚ)
    (m : TransformMessage) (t : Transform) (nt : NetworkTransform) :
    transformBlendBranch ws angleDeg m t nt =
      (fun p : Transform × NetworkTransform =>
        (fun r : Transform × NetworkTransform =>
          if r.2.lastScaleMessage ≤ m.timestamp then
            scaleBlock m.timestamp m.localScale r.1 r.2
          else (r.1, r.2))
        (if p.2.lastRotMessage ≤ m.timestamp then
            rotationBlock angleDeg m.timestamp m.localRot p.1 p.2
          else (p.1, p.2)))
      (if nt.lastPosMessage ≤ m.timestamp then positionBlock ws m.timestamp m.localPos t nt
        else (t, nt)) :=
  rfl

/-- The combined message and the three single messages on timestamps that are
numbers: on a receiving peer (the id resolves, no authority, component present), for
a Transform message with snap = false, a timestamp ts that is a number and values
(p, r, s), the Transform callback returns the state reached by the Position callback
on {ts, p}, then the Rotation callback on {ts, r}, then the Scale callback on
{ts, s}.  On numbers the test `ts >= last` of the combined callback is the negation
of the test `ts < last` of the single callbacks. -/
theorem transform_equals_three_singles (E : Engine) (w : World) (m : TransformMessage)
    (e : EntityId) (nt : NetworkTransform) (h : Receives w m.netId e nt)
    (hsnap : m.snap = false) :
    transformClientCallback E w m =
      (positionClientCallback E w
        { netId := m.netId, timestamp := m.timestamp, localPos := m.localPos }).bind fun w1 =>
      (rotationClientCallback E w1
        { netId := m.netId, timestamp := m.timestamp, localRot := m.localRot }).bind fun w2 =>
      scaleClientCallback w2
        { netId := m.netId, timestamp := m.timestamp, localScale := m.localScale } := by
  rw [transformClientCallback_receives E w m e nt h, hsnap]
  simp only [Bool.false_eq_true, if_false]
  rw [transformBlendBranch_eq]
  rw [positionClientCallback_any E w
    { netId := m.netId, timestamp := m.timestamp, localPos := m.localPos } e nt h]
  rw [Option.some_bind]
  dsimp only
  generalize (if nt.lastPosMessage ≤ m.timestamp then
      positionBlock (E.GetWorldScale w e) m.timestamp m.localPos (w.entities e).transform nt
    else ((w.entities e).transform, nt)) = P
  have hr1 : Receives (w.setEntity e
      { transform := P.1, networkId := (w.entities e).networkId,
        networkTransform := some P.2 }) m.netId e P.2 :=
    receives_setEntity w m.netId e nt P.2 _ h rfl
  rw [rotationClientCallback_any E _
    { netId := m.netId, timestamp := m.timestamp, localRot := m.localRot } e P.2 hr1]
  rw [Option.some_bind]
  simp only [setEntity_setEntity, setEntity_entities_same]
  generalize (if P.2.lastRotMessage ≤ m.timestamp then
      rotationBlock E.AngleDeg m.timestamp m.localRot P.1 P.2
    else (P.1, P.2)) = R
  have hr2 : Receives (w.setEntity e
      { transform := R.1, networkId := (w.entities e).networkId,
        networkTransform := some R.2 }) m.netId e R.2 :=
    receives_setEntity w m.netId e nt R.2 _ h rfl
  rw [scaleClientCallback_any _
    { netId := m.netId, timestamp := m.timestamp, localScale := m.localScale } e R.2 hr2]
  simp only [setEntity_setEntity, setEntity_entities_same]

/-- An instance on the started concrete peer: the non-snapping Transform message
{ts=5,(1/2,0,0),identity,(1,1,1)} acts as its three single messages in a row. -/
theorem transform_equals_three_singles_witness :
    Receives demoWorld 7 0 demoNT ∧
    transformClientCallback demoEngine demoWorld
      { netId := 7, timestamp := 5, snap := false, localPos := ⟨1 / 2, 0, 0⟩,
        localRot := Quaternion.identity, localScale := Vector3.one } =
      (positionClientCallback demoEngine demoWorld
        { netId := 7, timestamp := 5, localPos := ⟨1 / 2, 0, 0⟩ }).bind fun w1 =>
      (rotationClientCallback demoEngine w1
        { netId := 7, timestamp := 5, localRot := Quaternion.identity }).bind fun w2 =>
      scaleClientCallback w2 { netId := 7, timestamp := 5, localScale := Vector3.one } :=
  ⟨demoWorld_receives,
   transform_equals_three_singles demoEngine demoWorld
    { netId := 7, timestamp := 5, snap := false, localPos := ⟨1 / 2, 0, 0⟩,
      localRot := Quaternion.identity, localScale := Vector3.one } 0 demoNT
    demoWorld_receives rfl⟩

theorem Update_idle (F : FrameEnv) (dt : ℚ) (t : Transform) (nt : NetworkTransform)
    (hp : 1 ≤ nt.posInterpolation) (hr : 1 ≤ nt.rotInterpolation)
    (hs : 1 ≤ nt.scaleInterpolation) :
    nt.Update F dt t = some (t, nt) := by
  unfold NetworkTransform.Update
  rw [if_neg]
  rintro (h | h | h)
  · exact absurd hp (not_le.mpr h)
  · exact absurd hr (not_le.mpr h)
  · exact absurd hs (not_le.mpr h)

theorem Update_blending (F : FrameEnv) (dt : ℚ) (t : Transform) (nt : NetworkTransform)
    (netId : NetworkId) (hid : nt.netId = some netId)
    (hb : nt.posInterpolation < 1 ∨ nt.rotInterpolation < 1 ∨ nt.scaleInterpolation < 1) :
    nt.Update F dt t = some
      ({ t with
         localPos := Vector3.Lerp nt.prevPos nt.targetPos
           (min (nt.posInterpolation + blendStep F netId dt) 1)
         localRot := F.Slerp nt.prevRot nt.targetRot
           (min (nt.rotInterpolation + blendStep F netId dt) 1)
         localScale := Vector3.Lerp nt.prevScale nt.targetScale
           (min (nt.scaleInterpolation + blendStep F netId dt) 1) },
       { nt with
         posInterpolation := min (nt.posInterpolation + blendStep F netId dt) 1
         rotInterpolation := min (nt.rotInterpolation + blendStep F netId dt) 1
         scaleInterpolation := min (nt.scaleInterpolation + blendStep F netId dt) 1 }) := by
  unfold NetworkTransform.Update
  rw [if_pos hb]
  simp only [hid]
  rfl

theorem World.Update_keeps_idle_peer (F : FrameEnv) (dt : ℚ) (w : World) (self : EntityId)
    (nt : NetworkTransform) (hnt : (w.entities self).networkTransform = some nt)
    (hp : 1 ≤ nt.posInterpolation) (hr : 1 ≤ nt.rotInterpolation)
    (hs : 1 ≤ nt.scaleInterpolation) :
    w.Update F dt self = some w := by
  unfold World.Update
  simp only [hnt, Isetta.Update_idle F dt _ nt hp hr hs]
  rw [setEntity_self]
  rw [← hnt]

theorem World.updateTicks_idle (F : FrameEnv) (w : World) (self : EntityId)
    (nt : NetworkTransform) (hnt : (w.entities self).networkTransform = some nt)
    (hp : 1 ≤ nt.posInterpolation) (hr : 1 ≤ nt.rotInterpolation)
    (hs : 1 ≤ nt.scaleInterpolation) (dts : List ℚ) :
    w.updateTicks F self dts = some w := by
  induction dts with
  | nil => rfl
  | cons dt dts ih =>
    unfold World.updateTicks
    rw [World.Update_keeps_idle_peer F dt w self nt hnt hp hr hs]
    exact ih

/-- C12 (force-send idempotence under snap): on a receiving peer, after a Transform
message with snap = true that is not stale on any of the three channels, any number
of Update ticks with any frame deltas returns, and leaves the store's position,
rotation and scale equal to the message's values and all three progress values
equal to 1 (the ticks do not change the state at all). -/
theorem snap_then_updates_idle (E : Engine) (F : FrameEnv) (w : World)
    (m : TransformMessage) (e : EntityId) (nt : NetworkTransform)
    (h : Receives w m.netId e nt) (hsnap : m.snap = true)
    (hp : nt.lastPosMessage ≤ m.timestamp) (hr : nt.lastRotMessage ≤ m.timestamp)
    (hs : nt.lastScaleMessage ≤ m.timestamp) (dts : List ℚ) :
    ∃ w1 w2 nt2, transformClientCallback E w m = some w1 ∧
      w1.updateTicks F e dts = some w2 ∧ w2 = w1 ∧
      (w2.entities e).networkTransform = some nt2 ∧
      (w2.entities e).transform.localPos = m.localPos ∧
      (w2.entities e).transform.localRot = m.localRot ∧
      (w2.entities e).transform.localScale = m.localScale ∧
      nt2.posInterpolation = 1 ∧ nt2.rotInterpolation = 1 ∧ nt2.scaleInterpolation = 1 := by
  obtain ⟨w1, nt1, h1, hr1, ht1, hn1⟩ := transform_step E w m e nt h
  rw [hsnap, if_pos rfl, transformSnapBranch_fresh m _ nt hp hr hs] at ht1 hn1
  have hpos : nt1.posInterpolation = 1 := by rw [hn1]
  have hrot : nt1.rotInterpolation = 1 := by rw [hn1]
  have hscale : nt1.scaleInterpolation = 1 := by rw [hn1]
  refine ⟨w1, w1, nt1, h1, ?_, rfl, hr1.component, ?_, ?_, ?_, hpos, hrot, hscale⟩
  · exact World.updateTicks_idle F w1 e nt1 hr1.component (le_of_eq hpos.symm)
      (le_of_eq hrot.symm) (le_of_eq hscale.symm) dts
  · rw [ht1]
  · rw [ht1]
  · rw [ht1]

/-- Witness for C12: the snapping message {ts=1,(3,0,0)} on the started concrete peer,
followed by three ticks with frame deltas 1/60, 1/30 and 5. -/
theorem snap_then_updates_idle_witness :
    Receives demoWorld 7 0 demoNT ∧
    ∃ w1 w2 nt2, transformClientCallback demoEngine demoWorld (demoSnapMessage 1) = some w1 ∧
      w1.updateTicks demoFrameEnv 0 [1 / 60, 1 / 30, 5] = some w2 ∧ w2 = w1 ∧
      (w2.entities 0).networkTransform = some nt2 ∧
      (w2.entities 0).transform.localPos = (demoSnapMessage 1).localPos ∧
      (w2.entities 0).transform.localRot = (demoSnapMessage 1).localRot ∧
      (w2.entities 0).transform.localScale = (demoSnapMessage 1).localScale ∧
      nt2.posInterpolation = 1 ∧ nt2.rotInterpolation = 1 ∧ nt2.scaleInterpolation = 1 :=
  ⟨demoWorld_receives,
   snap_then_updates_idle demoEngine demoFrameEnv demoWorld (demoSnapMessage 1) 0 demoNT
    demoWorld_receives rfl
    (by norm_num [demoNT, NetworkTransform.Start, demoSnapMessage])
    (by norm_num [demoNT, NetworkTransform.Start, demoSnapMessage])
    (by norm_num [demoNT, NetworkTransform.Start, demoSnapMessage])
    [1 / 60, 1 / 30, 5]⟩

/-- C15 (the interpolator is inert when idle): if posInterpolation, rotInterpolation
and scaleInterpolation are all >= 1, an Update tick returns the transform and every
field of the component as they were, and on the peer the whole state is unchanged. -/
theorem update_inert_when_idle (F : FrameEnv) (dt : ℚ) (w : World) (self : EntityId)
    (nt : NetworkTransform) (hnt : (w.entities self).networkTransform = some nt)
    (hp : 1 ≤ nt.posInterpolation) (hr : 1 ≤ nt.rotInterpolation)
    (hs : 1 ≤ nt.scaleInterpolation) :
    nt.Update F dt (w.entities self).transform = some ((w.entities self).transform, nt) ∧
    w.Update F dt self = some w :=
  ⟨Update_idle F dt _ nt hp hr hs, World.Update_keeps_idle_peer F dt w self nt hnt hp hr hs⟩

/-- Witness for C15: the started component of the concrete peer has all three progress
values 1, and a tick of 1/60 changes nothing. -/
theorem update_inert_when_idle_witness :
    (demoWorld.entities 0).networkTransform = some demoNT ∧
    demoNT.Update demoFrameEnv (1 / 60) (demoWorld.entities 0).transform
      = some ((demoWorld.entities 0).transform, demoNT) ∧
    demoWorld.Update demoFrameEnv (1 / 60) 0 = some demoWorld :=
  ⟨rfl, update_inert_when_idle demoFrameEnv (1 / 60) demoWorld 0 demoNT rfl
    (by norm_num [demoNT, NetworkTransform.Start, demoRawNT])
    (by norm_num [demoNT, NetworkTransform.Start, demoRawNT])
    (by norm_num [demoNT, NetworkTransform.Start, demoRawNT])⟩

/-- C13 (interpolator step): on a component whose identity is bound, with a positive
updateInterval and a positive maxFps, when at least one channel has progress < 1 one
Update tick with frame delta dt returns, sets each channel's progress to
min(progress + dt / (updateInterval / maxFps), 1) and writes Lerp(prevPos, targetPos,
posInterpolation), Slerp(prevRot, targetRot, rotInterpolation) and Lerp(prevScale,
targetScale, scaleInterpolation), evaluated at the new progress values, into the
store; consequently for dt >= 0 no channel's progress decreases (a progress is at
most 1 in every state the component reaches). -/
theorem update_tick_formula (F : FrameEnv) (dt : ℚ) (t : Transform) (nt : NetworkTransform)
    (netId : NetworkId) (hid : nt.netId = some netId)
    (hui : 0 < netId.updateInterval) (hfps : 0 < F.maxFps)
    (hb : nt.posInterpolation < 1 ∨ nt.rotInterpolation < 1 ∨ nt.scaleInterpolation < 1) :
    ∃ t1 nt1, nt.Update F dt t = some (t1, nt1) ∧
      nt1.posInterpolation = min (nt.posInterpolation +
        dt / ((netId.updateInterval : ℚ) / (F.maxFps : ℚ))) 1 ∧
      nt1.rotInterpolation = min (nt.rotInterpolation +
        dt / ((netId.updateInterval : ℚ) / (F.maxFps : ℚ))) 1 ∧
      nt1.scaleInterpolation = min (nt.scaleInterpolation +
        dt / ((netId.updateInterval : ℚ) / (F.maxFps : ℚ))) 1 ∧
      t1.localPos = Vector3.Lerp nt.prevPos nt.targetPos nt1.posInterpolation ∧
      t1.localRot = F.Slerp nt.prevRot nt.targetRot nt1.rotInterpolation ∧
      t1.localScale = Vector3.Lerp nt.prevScale nt.targetScale nt1.scaleInterpolation ∧
      (0 ≤ dt →
        (nt.posInterpolation ≤ 1 → nt.posInterpolation ≤ nt1.posInterpolation) ∧
        (nt.rotInterpolation ≤ 1 → nt.rotInterpolation ≤ nt1.rotInterpolation) ∧
        (nt.scaleInterpolation ≤ 1 → nt.scaleInterpolation ≤ nt1.scaleInterpolation)) := by
  refine ⟨_, _, Update_blending F dt t nt netId hid hb, rfl, rfl, rfl, rfl, rfl, rfl, ?_⟩
  intro hdt
  have hstep : 0 ≤ blendStep F netId dt := by
    unfold blendStep
    have h1 : (0 : ℚ) < (netId.updateInterval : ℚ) := by exact_mod_cast hui
    have h2 : (0 : ℚ) < (F.maxFps : ℚ) := by exact_mod_cast hfps
    positivity
  refine ⟨fun h => ?_, fun h => ?_, fun h => ?_⟩ <;>
    exact le_min (le_add_of_nonneg_right hstep) h

/-- Witness for C13: the half-way component of the concrete peer (updateInterval 1,
maxFps 60) under a tick of 1/120. -/
theorem update_tick_formula_witness :
    demoHalfwayNT.netId = some (demoNetId 7 false 0) ∧
    (0 : Int) < (demoNetId 7 false 0).updateInterval ∧ (0 : Int) < demoFrameEnv.maxFps ∧
    demoHalfwayNT.posInterpolation < 1 ∧
    ∃ t1 nt1, demoHalfwayNT.Update demoFrameEnv (1 / 120) demoTransform = some (t1, nt1) ∧
      nt1.posInterpolation = min (demoHalfwayNT.posInterpolation +
        (1 / 120) / (((demoNetId 7 false 0).updateInterval : ℚ) / (demoFrameEnv.maxFps : ℚ))) 1 :=
  ⟨rfl, by decide, by decide, by norm_num [demoHalfwayNT],
   (update_tick_formula demoFrameEnv (1 / 120) demoTransform demoHalfwayNT
      (demoNetId 7 false 0) rfl (by decide) (by decide)
      (Or.inl (by norm_num [demoHalfwayNT]))).imp
    fun _ h1 => h1.imp fun _ h2 => ⟨h2.1, h2.2.1⟩⟩

theorem Update_tick_spec (F : FrameEnv) (dt : ℚ) (t : Transform) (nt : NetworkTransform)
    (netId : NetworkId) (hid : nt.netId = some netId)
    (hb : nt.posInterpolation < 1 ∨ nt.rotInterpolation < 1 ∨ nt.scaleInterpolation < 1) :
    ∃ t1 nt1, nt.Update F dt t = some (t1, nt1) ∧ nt1.netId = some netId ∧
      nt1.posInterpolation = min (nt.posInterpolation + blendStep F netId dt) 1 ∧
      nt1.rotInterpolation = min (nt.rotInterpolation + blendStep F netId dt) 1 ∧
      nt1.scaleInterpolation = min (nt.scaleInterpolation + blendStep F netId dt) 1 ∧
      nt1.targetPos = nt.targetPos ∧ nt1.targetRot = nt.targetRot ∧
      nt1.targetScale = nt.targetScale ∧
      t1.localPos = Vector3.Lerp nt.prevPos nt.targetPos nt1.posInterpolation ∧
      t1.localRot = F.Slerp nt.prevRot nt.targetRot nt1.rotInterpolation ∧
      t1.localScale = Vector3.Lerp nt.prevScale nt.targetScale nt1.scaleInterpolation ∧
      nt1.prevPos = nt.prevPos ∧ nt1.prevRot = nt.prevRot ∧ nt1.prevScale = nt.prevScale :=
  ⟨_, _, Update_blending F dt t nt netId hid hb, hid, rfl, rfl, rfl, rfl, rfl, rfl, rfl, rfl,
    rfl, rfl, rfl, rfl⟩

theorem min_step_in_range (p s : ℚ) (hs : 0 ≤ s) (hp : 0 ≤ p) :
    0 ≤ min (p + s) 1 ∧ min (p + s) 1 ≤ 1 :=
  ⟨le_min (add_nonneg hp hs) zero_le_one, min_le_right _ _⟩

theorem positionBlock_range (ws : Vector3) (ts : ℚ) (p : Vector3) (t : Transform)
    (nt : NetworkTransform) (h : nt.ProgressInRange) :
    (positionBlock ws ts p t nt).2.ProgressInRange := by
  rw [positionBlock_eq]
  split
  · exact ⟨⟨zero_le_one, le_refl _⟩, h.2.1, h.2.2⟩
  · exact ⟨⟨le_refl _, zero_le_one⟩, h.2.1, h.2.2⟩

theorem rotationBlock_range (angleDeg : Quaternion → Quaternion → ℚ) (ts : ℚ) (r : Quaternion)
    (t : Transform) (nt : NetworkTransform) (h : nt.ProgressInRange) :
    (rotationBlock angleDeg ts r t nt).2.ProgressInRange := by
  rw [rotationBlock_eq]
  split
  · exact ⟨h.1, ⟨zero_le_one, le_refl _⟩, h.2.2⟩
  · exact ⟨h.1, ⟨le_refl _, zero_le_one⟩, h.2.2⟩

theorem scaleBlock_range (ts : ℚ) (sc : Vector3) (t : Transform)
    (nt : NetworkTransform) (h : nt.ProgressInRange) :
    (scaleBlock ts sc t nt).2.ProgressInRange := by
  rw [scaleBlock_eq]
  split
  · exact ⟨h.1, h.2.1, ⟨zero_le_one, le_refl _⟩⟩
  · exact ⟨h.1, h.2.1, ⟨le_refl _, zero_le_one⟩⟩

theorem transformSnapBranch_progress (m : TransformMessage) (t : Transform)
    (nt : NetworkTransform) :
    (transformSnapBranch m t nt).2.posInterpolation = 1 ∧
    (transformSnapBranch m t nt).2.rotInterpolation = 1 ∧
    (transformSnapBranch m t nt).2.scaleInterpolation = 1 :=
  ⟨rfl, rfl, rfl⟩

theorem transformSnapBranch_range (m : TransformMessage) (t : Transform)
    (nt : NetworkTransform) : (transformSnapBranch m t nt).2.ProgressInRange := by
  obtain ⟨h1, h2, h3⟩ := transformSnapBranch_progress m t nt
  unfold NetworkTransform.ProgressInRange
  rw [h1, h2, h3]
  exact ⟨⟨zero_le_one, le_refl _⟩, ⟨zero_le_one, le_refl _⟩, ⟨zero_le_one, le_refl _⟩⟩

theorem transformBlendBranch_range (ws : Vector3) (angleDeg : Quaternion → Quaternion → ℚ)
    (m : TransformMessage) (t : Transform) (nt : NetworkTransform) (h : nt.ProgressInRange) :
    (transformBlendBranch ws angleDeg m t nt).2.ProgressInRange := by
  rw [transformBlendBranch_eq]
  dsimp only
  have hP : (if nt.lastPosMessage ≤ m.timestamp then positionBlock ws m.timestamp m.localPos t nt
      else (t, nt)).2.ProgressInRange := by
    split
    · exact positionBlock_range _ _ _ _ _ h
    · exact h
  generalize (if nt.lastPosMessage ≤ m.timestamp then
    positionBlock ws m.timestamp m.localPos t nt else (t, nt)) = P at hP ⊢
  have hR : (if P.2.lastRotMessage ≤ m.timestamp then
      rotationBlock angleDeg m.timestamp m.localRot P.1 P.2 else (P.1, P.2)).2.ProgressInRange := by
    split
    · exact rotationBlock_range _ _ _ _ _ hP
    · exact hP
  generalize (if P.2.lastRotMessage ≤ m.timestamp then
    rotationBlock angleDeg m.timestamp m.localRot P.1 P.2 else (P.1, P.2)) = R at hR ⊢
  split
  · exact scaleBlock_range _ _ _ _ hR
  · exact hR

theorem World.ProgressInRange.setEntity {w : World} (hw : w.ProgressInRange) (e : EntityId)
    (ent : Entity) (h : ∀ nt, ent.networkTransform = some nt → nt.ProgressInRange) :
    (w.setEntity e ent).ProgressInRange := by
  intro e1 nt1 h1
  by_cases he : e1 = e
  · subst he
    rw [setEntity_entities_same] at h1
    exact h nt1 h1
  · rw [setEntity_entities_other w e e1 ent he] at h1
    exact hw e1 nt1 h1

theorem positionClientCallback_range (E : Engine) (w w1 : World) (m : PositionMessage)
    (hw : w.ProgressInRange) (h : positionClientCallback E w m = some w1) :
    w1.ProgressInRange := by
  unfold positionClientCallback at h
  split at h
  · cases h; exact hw
  · split at h
    · cases h; exact hw
    · split at h
      · cases h
      · dsimp only at h
        split at h
        · rename_i nt hnt
          split at h
          · cases h; exact hw
          · cases h
            refine hw.setEntity _ _ ?_
            intro nt1 h1
            cases h1
            exact positionBlock_range _ _ _ _ _ (hw _ nt hnt)
        · cases h

theorem sampleChannels_eq (ws : Vector3) (angleDeg : Quaternion → Quaternion → ℚ)
    (elapsed : ℚ) (id : Int) (t : Transform) (nt : NetworkTransform) :
    NetworkTransform.sampleChannels (some ws) angleDeg elapsed id t nt = some
      ({ nt with
         prevPos := if positionDue ws t nt then t.localPos else nt.prevPos
         prevRot := if rotationDue angleDeg t nt then t.localRot else nt.prevRot
         prevScale := if scaleDue t nt then t.localScale else nt.prevScale },
       (if positionDue ws t nt then
          [Outbound.position { netId := id, timestamp := elapsed, localPos := t.localPos }]
        else []) ++
       (if rotationDue angleDeg t nt then
          [Outbound.rotation { netId := id, timestamp := elapsed, localRot := t.localRot }]
        else []) ++
       (if scaleDue t nt then
          [Outbound.scale { netId := id, timestamp := elapsed, localScale := t.localScale }]
        else [])) := by
  unfold NetworkTransform.sampleChannels
  by_cases hp : positionDue ws t nt <;> by_cases hr : rotationDue angleDeg t nt <;>
    by_cases hs : scaleDue t nt <;>
    simp [hp, hr, hs, Transform.GetLocalPos, Transform.GetLocalRot, Transform.GetLocalScale]

theorem FixedUpdate_eq (pws : Option Vector3) (angleDeg : Quaternion → Quaternion → ℚ)
    (elapsed : ℚ) (t : Transform) (nt : NetworkTransform) (netId : NetworkId)
    (hid : nt.netId = some netId) :
    nt.FixedUpdate pws angleDeg elapsed t =
      if netId.HasClientAuthority = true then
        if netId.updateInterval ≤ nt.updateCounter + 1 then
          NetworkTransform.sampleChannels pws angleDeg elapsed netId.id t
            { nt with updateCounter := 0 }
        else some ({ nt with updateCounter := nt.updateCounter + 1 }, [])
      else some (nt, []) := by
  unfold NetworkTransform.FixedUpdate
  simp only [hid]

theorem sampleChannels_frame (ws : Vector3) (angleDeg : Quaternion → Quaternion → ℚ)
    (elapsed : ℚ) (id : Int) (t : Transform) (nt nt1 : NetworkTransform)
    (out : List Outbound)
    (h : NetworkTransform.sampleChannels (some ws) angleDeg elapsed id t nt = some (nt1, out)) :
    sameReceiverFields nt1 nt ∧ nt1.updateCounter = nt.updateCounter := by
  rw [sampleChannels_eq] at h
  cases h
  exact ⟨⟨rfl, rfl, rfl, rfl, rfl, rfl, rfl, rfl, rfl, rfl⟩, rfl⟩

theorem FixedUpdate_frame (pws : Option Vector3) (angleDeg : Quaternion → Quaternion → ℚ)
    (elapsed : ℚ) (t : Transform) (nt nt1 : NetworkTransform) (out : List Outbound)
    (h : nt.FixedUpdate pws angleDeg elapsed t = some (nt1, out)) :
    sameReceiverFields nt1 nt := by
  cases hid : nt.netId with
  | none =>
    unfold NetworkTransform.FixedUpdate at h
    simp only [hid] at h
    cases h
  | some netId =>
    rw [FixedUpdate_eq pws angleDeg elapsed t nt netId hid] at h
    split at h
    · split at h
      · cases pws with
        | none =>
          unfold NetworkTransform.sampleChannels at h
          cases h
        | some ws =>
          exact (sampleChannels_frame ws angleDeg elapsed netId.id t _ nt1 out h).1
      · cases h
        exact ⟨rfl, rfl, rfl, rfl, rfl, rfl, rfl, rfl, rfl, rfl⟩
    · cases h
      exact ⟨rfl, rfl, rfl, rfl, rfl, rfl, rfl, rfl, rfl, rfl⟩

theorem sameReceiverFields.range {a b : NetworkTransform} (h : sameReceiverFields a b)
    (hb : b.ProgressInRange) : a.ProgressInRange := by
  obtain ⟨_, _, hp, _, _, hr, _, _, hs, _⟩ := h
  unfold NetworkTransform.ProgressInRange
  rw [hp, hr, hs]
  exact hb

theorem ForceSendTransform_eq (elapsed : ℚ) (snap : Bool) (t : Transform)
    (nt : NetworkTransform) (netId : NetworkId) (hid : nt.netId = some netId) :
    nt.ForceSendTransform elapsed snap t =
      if netId.HasClientAuthority = true then
        some ({ nt with prevPos := t.localPos, prevRot := t.localRot, prevScale := t.localScale },
          [Outbound.transform
            { netId := netId.id, timestamp := elapsed, snap := snap, localPos := t.localPos,
              localRot := t.localRot, localScale := t.localScale }])
      else some (nt, []) := by
  unfold NetworkTransform.ForceSendTransform
  simp only [hid]
  rfl

theorem ForceSendTransform_frame (elapsed : ℚ) (snap : Bool) (t : Transform)
    (nt nt1 : NetworkTransform) (out : List Outbound)
    (h : nt.ForceSendTransform elapsed snap t = some (nt1, out)) :
    sameReceiverFields nt1 nt := by
  cases hid : nt.netId with
  | none =>
    unfold NetworkTransform.ForceSendTransform at h
    simp only [hid] at h
    cases h
  | some netId =>
    rw [ForceSendTransform_eq elapsed snap t nt netId hid] at h
    split at h
    · cases h
      exact ⟨rfl, rfl, rfl, rfl, rfl, rfl, rfl, rfl, rfl, rfl⟩
    · cases h
      exact ⟨rfl, rfl, rfl, rfl, rfl, rfl, rfl, rfl, rfl, rfl⟩

theorem Update_range (F : FrameEnv) (dt : ℚ) (t t1 : Transform) (nt nt1 : NetworkTransform)
    (hrange : nt.ProgressInRange) (hdt : 0 ≤ dt) (hfps : 0 < F.maxFps)
    (hui : ∀ netId, nt.netId = some netId → 0 < netId.updateInterval)
    (h : nt.Update F dt t = some (t1, nt1)) : nt1.ProgressInRange := by
  by_cases hb : nt.posInterpolation < 1 ∨ nt.rotInterpolation < 1 ∨ nt.scaleInterpolation < 1
  · cases hid : nt.netId with
    | none =>
      unfold NetworkTransform.Update at h
      rw [if_pos hb] at h
      simp only [hid] at h
      cases h
    | some netId =>
      obtain ⟨t2, nt2, hU, _, hp1, hr1, hs1, _⟩ := Update_tick_spec F dt t nt netId hid hb
      rw [hU] at h
      cases h
      have hstep : 0 ≤ blendStep F netId dt := by
        unfold blendStep
        have h1 : (0 : ℚ) < (netId.updateInterval : ℚ) := by exact_mod_cast hui netId hid
        have h2 : (0 : ℚ) < (F.maxFps : ℚ) := by exact_mod_cast hfps
        positivity
      refine ⟨?_, ?_, ?_⟩
      · rw [hp1]; exact min_step_in_range _ _ hstep hrange.1.1
      · rw [hr1]; exact min_step_in_range _ _ hstep hrange.2.1.1
      · rw [hs1]; exact min_step_in_range _ _ hstep hrange.2.2.1
  · have hall : 1 ≤ nt.posInterpolation ∧ 1 ≤ nt.rotInterpolation ∧
        1 ≤ nt.scaleInterpolation :=
      ⟨not_lt.mp fun h => hb (Or.inl h), not_lt.mp fun h => hb (Or.inr (Or.inl h)),
       not_lt.mp fun h => hb (Or.inr (Or.inr h))⟩
    rw [Update_idle F dt t nt hall.1 hall.2.1 hall.2.2] at h
    cases h
    exact hrange

theorem SnapLocalTransform_eq (t : Transform) (nt : NetworkTransform) :
    nt.SnapLocalTransform t =
      ({ t with localPos := nt.targetPos, localRot := nt.targetRot,
                localScale := nt.targetScale },
       { nt with prevPos := nt.targetPos, prevRot := nt.targetRot, prevScale := nt.targetScale,
                 posInterpolation := 1, rotInterpolation := 1, scaleInterpolation := 1 }) :=
  rfl

theorem rotationClientCallback_range (E : Engine) (w w1 : World) (m : RotationMessage)
    (hw : w.ProgressInRange) (h : rotationClientCallback E w m = some w1) :
    w1.ProgressInRange := by
  unfold rotationClientCallback at h
  split at h
  · cases h; exact hw
  · split at h
    · cases h; exact hw
    · split at h
      · cases h
      · dsimp only at h
        split at h
        · rename_i nt hnt
          split at h
          · cases h; exact hw
          · cases h
            refine hw.setEntity _ _ ?_
            intro nt1 h1
            cases h1
            exact rotationBlock_range _ _ _ _ _ (hw _ nt hnt)
        · cases h

theorem scaleClientCallback_range (w w1 : World) (m : ScaleMessage)
    (hw : w.ProgressInRange) (h : scaleClientCallback w m = some w1) :
    w1.ProgressInRange := by
  unfold scaleClientCallback at h
  split at h
  · cases h; exact hw
  · split at h
    · cases h; exact hw
    · split at h
      · cases h
      · dsimp only at h
        split at h
        · rename_i nt hnt
          split at h
          · cases h; exact hw
          · cases h
            refine hw.setEntity _ _ ?_
            intro nt1 h1
            cases h1
            exact scaleBlock_range _ _ _ _ (hw _ nt hnt)
        · cases h

theorem transformClientCallback_range (E : Engine) (w w1 : World) (m : TransformMessage)
    (hw : w.ProgressInRange) (h : transformClientCallback E w m = some w1) :
    w1.ProgressInRange := by
  unfold transformClientCallback at h
  split at h
  · cases h; exact hw
  · split at h
    · cases h; exact hw
    · split at h
      · cases h
      · dsimp only at h
        split at h
        · cases h; exact hw
        · rename_i nt hnt
          cases h
          refine hw.setEntity _ _ ?_
          intro nt1 h1
          cases h1
          split
          · exact transformSnapBranch_range _ _ _
          · exact transformBlendBranch_range _ _ _ _ _ (hw _ nt hnt)

theorem parentClientCallback_range (w w1 : World) (m : ParentMessage)
    (hw : w.ProgressInRange) (h : parentClientCallback w m = some w1) :
    w1.ProgressInRange := by
  unfold parentClientCallback at h
  split at h
  · cases h; exact hw
  · split at h
    · cases h
    · dsimp only at h
      split at h
      · cases h
        exact hw.setEntity _ _ fun nt1 h1 => hw _ nt1 h1
      · split at h
        · cases h
        · cases h
          exact hw.setEntity _ _ fun nt1 h1 => hw _ nt1 h1

theorem World.Update_keeps_range (F : FrameEnv) (dt : ℚ) (w w1 : World) (self : EntityId)
    (hw : w.ProgressInRange) (hdt : 0 ≤ dt) (hfps : 0 < F.maxFps)
    (hui : ∀ nt netId, (w.entities self).networkTransform = some nt →
      nt.netId = some netId → 0 < netId.updateInterval)
    (h : w.Update F dt self = some w1) : w1.ProgressInRange := by
  unfold World.Update at h
  dsimp only at h
  split at h
  · cases h; exact hw
  · rename_i nt hnt
    split at h
    · cases h
    · rename_i t1 nt1 hU
      cases h
      refine hw.setEntity _ _ ?_
      intro nt2 h2
      cases h2
      exact Isetta.Update_range F dt _ t1 nt nt1 (hw _ nt hnt) hdt hfps (hui nt · hnt) hU

theorem World.FixedUpdate_range (E : Engine) (elapsed : ℚ) (w w1 : World) (self : EntityId)
    (out : List Outbound) (hw : w.ProgressInRange)
    (h : w.FixedUpdate E elapsed self = some (w1, out)) : w1.ProgressInRange := by
  unfold World.FixedUpdate at h
  dsimp only at h
  split at h
  · cases h; exact hw
  · rename_i nt hnt
    split at h
    · cases h
    · rename_i nt1 out1 hU
      cases h
      refine hw.setEntity _ _ ?_
      intro nt2 h2
      cases h2
      exact (FixedUpdate_frame _ _ _ _ nt nt1 out hU).range (hw _ nt hnt)

theorem World.ForceSendTransform_range (elapsed : ℚ) (snap : Bool) (w w1 : World)
    (self : EntityId) (out : List Outbound) (hw : w.ProgressInRange)
    (h : w.ForceSendTransform elapsed snap self = some (w1, out)) : w1.ProgressInRange := by
  unfold World.ForceSendTransform at h
  dsimp only at h
  split at h
  · cases h; exact hw
  · rename_i nt hnt
    split at h
    · cases h
    · rename_i nt1 out1 hU
      cases h
      refine hw.setEntity _ _ ?_
      intro nt2 h2
      cases h2
      exact (ForceSendTransform_frame _ _ _ nt nt1 out hU).range (hw _ nt hnt)

theorem World.SnapLocalTransform_range (w : World) (self : EntityId)
    (hw : w.ProgressInRange) : (w.SnapLocalTransform self).ProgressInRange := by
  unfold World.SnapLocalTransform
  dsimp only
  split
  · exact hw
  · refine hw.setEntity _ _ ?_
    intro nt2 h2
    cases h2
    exact ⟨⟨zero_le_one, le_refl _⟩, ⟨zero_le_one, le_refl _⟩, ⟨zero_le_one, le_refl _⟩⟩

theorem World.SetNetworkedParentToRoot_range (w w1 : World) (self : EntityId)
    (out : List Outbound) (hw : w.ProgressInRange)
    (h : w.SetNetworkedParentToRoot self = some (w1, out)) : w1.ProgressInRange := by
  unfold World.SetNetworkedParentToRoot at h
  dsimp only at h
  split at h
  · cases h; exact hw
  · split at h
    · cases h
    · cases h
      exact hw.setEntity _ _ fun nt1 h1 => hw _ nt1 h1

theorem World.SetNetworkedParent_range (w w1 : World) (self : EntityId) (networkId : Int)
    (out : List Outbound) (b : Bool) (hw : w.ProgressInRange)
    (h : w.SetNetworkedParent self networkId = some (w1, out, b)) : w1.ProgressInRange := by
  unfold World.SetNetworkedParent at h
  dsimp only at h
  split at h
  · cases h; exact hw
  · split at h
    · cases h; exact hw
    · split at h
      · cases h
      · cases h
        exact hw.setEntity _ _ fun nt1 h1 => hw _ nt1 h1

theorem demoWorld_range : demoWorld.ProgressInRange := by
  intro e nt h
  unfold demoWorld at h
  dsimp only at h
  split_ifs at h <;> cases h <;>
    norm_num [NetworkTransform.ProgressInRange, demoNT, NetworkTransform.Start, demoRawNT]

/-- C16 (progress range invariant): from a state in which every component has its three
progress values in [0,1], every operation of the subsystem that returns leaves every
component's progress values in [0,1]: the Position, Rotation, Scale, Transform and
Parent client callbacks, Update (with dt >= 0, positive maxFps and positive
updateInterval of the updated component), FixedUpdate, SnapLocalTransform,
ForceSendTransform, SetNetworkedParent and SetNetworkedParentToRoot. -/
theorem progress_range_invariant (E : Engine) (F : FrameEnv) (w : World)
    (hw : w.ProgressInRange) :
    (∀ m w1, positionClientCallback E w m = some w1 → w1.ProgressInRange) ∧
    (∀ m w1, rotationClientCallback E w m = some w1 → w1.ProgressInRange) ∧
    (∀ m w1, scaleClientCallback w m = some w1 → w1.ProgressInRange) ∧
    (∀ m w1, transformClientCallback E w m = some w1 → w1.ProgressInRange) ∧
    (∀ m w1, parentClientCallback w m = some w1 → w1.ProgressInRange) ∧
    (∀ dt self w1, 0 ≤ dt → 0 < F.maxFps →
      (∀ nt netId, (w.entities self).networkTransform = some nt →
        nt.netId = some netId → 0 < netId.updateInterval) →
      w.Update F dt self = some w1 → w1.ProgressInRange) ∧
    (∀ elapsed self w1 out, w.FixedUpdate E elapsed self = some (w1, out) →
      w1.ProgressInRange) ∧
    (∀ self, (w.SnapLocalTransform self).ProgressInRange) ∧
    (∀ elapsed snap self w1 out, w.ForceSendTransform elapsed snap self = some (w1, out) →
      w1.ProgressInRange) ∧
    (∀ self networkId w1 out b, w.SetNetworkedParent self networkId = some (w1, out, b) →
      w1.ProgressInRange) ∧
    (∀ self w1 out, w.SetNetworkedParentToRoot self = some (w1, out) → w1.ProgressInRange) :=
  ⟨fun m w1 h => positionClientCallback_range E w w1 m hw h,
   fun m w1 h => rotationClientCallback_range E w w1 m hw h,
   fun m w1 h => scaleClientCallback_range w w1 m hw h,
   fun m w1 h => transformClientCallback_range E w w1 m hw h,
   fun m w1 h => parentClientCallback_range w w1 m hw h,
   fun dt self w1 hdt hfps hui h => World.Update_keeps_range F dt w w1 self hw hdt hfps hui h,
   fun elapsed self w1 out h => World.FixedUpdate_range E elapsed w w1 self out hw h,
   fun self => World.SnapLocalTransform_range w self hw,
   fun elapsed snap self w1 out h =>
     World.ForceSendTransform_range elapsed snap w w1 self out hw h,
   fun self networkId w1 out b h => World.SetNetworkedParent_range w w1 self networkId out b hw h,
   fun self w1 out h => World.SetNetworkedParentToRoot_range w w1 self out hw h⟩

/-- Witness for C16: the started concrete peer is in range, and so is the state that
Position{10,(1/2,0,0)} leaves. -/
theorem progress_range_invariant_witness :
    demoWorld.ProgressInRange ∧ demoWorldBlending.ProgressInRange :=
  ⟨demoWorld_range,
   (progress_range_invariant demoEngine demoFrameEnv demoWorld demoWorld_range).1
     { netId := 7, timestamp := 10, localPos := ⟨1 / 2, 0, 0⟩ } demoWorldBlending
     demoWorldBlending_reached⟩

/-- C17, counterexample: on the concrete peer the identity 7 of entity 0 is not under
this peer's authority, yet SetNetworkedParentToRoot sends the Parent message
{netId=7, parentNetId=0} and SetNetworkedParent(8) sends {netId=7, parentNetId=8}. -/
theorem parent_methods_send_without_authority :
    demoNT.netId = some (demoNetId 7 false 0) ∧
    (demoNetId 7 false 0).HasClientAuthority = false ∧
    (demoWorld.entities 0).networkTransform = some demoNT ∧
    ((demoWorld.SetNetworkedParentToRoot 0).map fun r => r.2)
      = some [Outbound.parent { netId := 7, parentNetId := 0 }] ∧
    ((demoWorld.SetNetworkedParent 0 8).map fun r => r.2)
      = some ([Outbound.parent { netId := 7, parentNetId := 8 }], true) :=
  ⟨rfl, rfl, rfl, rfl, rfl⟩

theorem World.FixedUpdate_unfold (E : Engine) (elapsed : ℚ) (w : World) (self : EntityId)
    (nt : NetworkTransform) (hnt : (w.entities self).networkTransform = some nt) :
    w.FixedUpdate E elapsed self =
      (nt.FixedUpdate ((w.entities self).transform.parent.map (E.GetWorldScale w)) E.AngleDeg
          elapsed (w.entities self).transform).map
        fun r => (w.setEntity self { (w.entities self) with networkTransform := some r.1 }, r.2) := by
  unfold World.FixedUpdate
  simp only [hnt, Transform.GetParent]
  cases nt.FixedUpdate ((w.entities self).transform.parent.map (E.GetWorldScale w)) E.AngleDeg
      elapsed (w.entities self).transform <;> rfl

theorem World.ForceSendTransform_unfold (elapsed : ℚ) (snap : Bool) (w : World) (self : EntityId)
    (nt : NetworkTransform) (hnt : (w.entities self).networkTransform = some nt) :
    w.ForceSendTransform elapsed snap self =
      (nt.ForceSendTransform elapsed snap (w.entities self).transform).map
        fun r => (w.setEntity self { (w.entities self) with networkTransform := some r.1 }, r.2) := by
  unfold World.ForceSendTransform
  simp only [hnt]
  cases nt.ForceSendTransform elapsed snap (w.entities self).transform <;> rfl

/-- C17, amended (authority gates sampling and force-send only): on a peer where the
identity of the component has HasClientAuthority() false, FixedUpdate and
ForceSendTransform send no message and leave the state unchanged, for any state and
arguments; SetNetworkedParentToRoot still sends one Parent message {own id, 0}, and
SetNetworkedParent(networkId) sends none when networkId does not resolve and one Parent
message {own id, networkId} when it does: the parent methods do not consult
authority. -/
theorem authority_gates_sampling_only (E : Engine) (w : World) (self : EntityId)
    (nt : NetworkTransform) (netId : NetworkId)
    (hnt : (w.entities self).networkTransform = some nt) (hid : nt.netId = some netId)
    (hauth : netId.HasClientAuthority = false) :
    (∀ elapsed, w.FixedUpdate E elapsed self = some (w, [])) ∧
    (∀ elapsed snap, w.ForceSendTransform elapsed snap self = some (w, [])) ∧
    (∃ w1, w.SetNetworkedParentToRoot self
      = some (w1, [Outbound.parent { netId := netId.id, parentNetId := 0 }])) ∧
    (∀ networkId,
      (w.GetNetworkEntity networkId = none →
        w.SetNetworkedParent self networkId = some (w, [], false)) ∧
      (∀ p, w.GetNetworkEntity networkId = some p →
        ∃ w1, w.SetNetworkedParent self networkId
          = some (w1, [Outbound.parent { netId := netId.id, parentNetId := networkId }],
              true))) := by
  have hself : w.setEntity self { (w.entities self) with networkTransform := some nt } = w := by
    apply setEntity_self
    rw [← hnt]
  refine ⟨?_, ?_, ?_, ?_⟩
  · intro elapsed
    rw [World.FixedUpdate_unfold E elapsed w self nt hnt, FixedUpdate_eq _ _ _ _ nt netId hid,
      if_neg (by rw [hauth]; exact Bool.false_ne_true), Option.map_some', hself]
  · intro elapsed snap
    rw [World.ForceSendTransform_unfold elapsed snap w self nt hnt,
      ForceSendTransform_eq _ _ _ nt netId hid,
      if_neg (by rw [hauth]; exact Bool.false_ne_true), Option.map_some', hself]
  · unfold World.SetNetworkedParentToRoot
    simp only [hnt, hid]
    exact ⟨_, rfl⟩
  · intro networkId
    constructor
    · intro hres
      unfold World.SetNetworkedParent
      simp only [hnt, hres]
    · intro p hres
      unfold World.SetNetworkedParent
      simp only [hnt, hres, hid]
      exact ⟨_, rfl⟩

/-- Witness for the amended C17: entity 0 of the concrete peer, whose identity 7 is not
under this peer's authority; FixedUpdate at elapsed time 3 sends nothing. -/
theorem authority_gates_sampling_only_witness :
    (demoWorld.entities 0).networkTransform = some demoNT ∧
    demoNT.netId = some (demoNetId 7 false 0) ∧
    (demoNetId 7 false 0).HasClientAuthority = false ∧
    demoWorld.FixedUpdate demoEngine 3 0 = some (demoWorld, []) ∧
    demoWorld.ForceSendTransform 3 true 0 = some (demoWorld, []) :=
  have h := authority_gates_sampling_only demoEngine demoWorld 0 demoNT (demoNetId 7 false 0)
    rfl rfl rfl
  ⟨rfl, rfl, rfl, h.1 3, h.2.1 3 true⟩

theorem dvd_succ_iff_mod (k n : Nat) (hk : 0 < k) : k ∣ n + 1 ↔ n % k + 1 = k := by
  have hr := Nat.mod_lt n hk
  have hsplit : n + 1 = k * (n / k) + (n % k + 1) := by
    have := Nat.div_add_mod n k
    omega
  rw [hsplit, Nat.dvd_add_right (Nat.dvd_mul_right k _)]
  constructor
  · intro h
    have := Nat.le_of_dvd (Nat.succ_pos _) h
    omega
  · intro h
    rw [h]

theorem FixedUpdate_authority_step (angleDeg : Quaternion → Quaternion → ℚ) (x : FixedStep)
    (nt : NetworkTransform) (netId : NetworkId) (hid : nt.netId = some netId)
    (hauth : netId.HasClientAuthority = true) :
    ∃ nt1 out, nt.FixedUpdate (some x.parentWorldScale) angleDeg x.elapsedTime x.transform
        = some (nt1, out) ∧ nt1.netId = some netId ∧
      nt1.updateCounter =
        if netId.updateInterval ≤ nt.updateCounter + 1 then 0 else nt.updateCounter + 1 := by
  rw [FixedUpdate_eq _ _ _ _ nt netId hid, if_pos hauth]
  split
  · rw [sampleChannels_eq]
    exact ⟨_, _, rfl, hid, rfl⟩
  · exact ⟨_, _, rfl, hid, rfl⟩

theorem fixedUpdateRun_counter (angleDeg : Quaternion → Quaternion → ℚ) (netId : NetworkId)
    (k : Nat) (hk : 0 < k) (hauth : netId.HasClientAuthority = true)
    (hui : netId.updateInterval = (k : Int)) :
    ∀ (steps : List FixedStep) (nt : NetworkTransform) (c : Nat),
      nt.netId = some netId → nt.updateCounter = (c : Int) → c < k →
      ∃ s, NetworkTransform.fixedUpdateRun angleDeg steps nt = some s ∧
        s.netId = some netId ∧
        s.updateCounter = (((c + steps.length) % k : Nat) : Int) := by
  intro steps
  induction steps with
  | nil =>
    intro nt c hid hc hck
    refine ⟨nt, rfl, hid, ?_⟩
    rw [hc, List.length_nil, Nat.add_zero, Nat.mod_eq_of_lt hck]
  | cons x xs ih =>
    intro nt c hid hc hck
    obtain ⟨nt1, out, hFU, hid1, hc1⟩ := FixedUpdate_authority_step angleDeg x nt netId hid hauth
    rw [hui, hc] at hc1
    have hrun : NetworkTransform.fixedUpdateRun angleDeg (x :: xs) nt
        = NetworkTransform.fixedUpdateRun angleDeg xs nt1 := by
      simp only [NetworkTransform.fixedUpdateRun, hFU]
    rw [hrun, List.length_cons]
    by_cases hs : (k : Int) ≤ (c : Int) + 1
    · rw [if_pos hs] at hc1
      obtain ⟨s, hs1, hs2, hs3⟩ := ih nt1 0 hid1 (by rw [hc1]; rfl) hk
      refine ⟨s, hs1, hs2, ?_⟩
      rw [hs3]
      have hck1 : c + 1 = k := by omega
      have : c + (xs.length + 1) = k + xs.length := by omega
      rw [this, Nat.add_mod_left, Nat.zero_add]
    · rw [if_neg hs] at hc1
      obtain ⟨s, hs1, hs2, hs3⟩ := ih nt1 (c + 1) hid1 (by rw [hc1]; push_cast; rfl)
        (by omega)
      refine ⟨s, hs1, hs2, ?_⟩
      rw [hs3]
      have : c + 1 + xs.length = c + (xs.length + 1) := by omega
      rw [this]

/-- C18 (sampling cadence): on an authoritative component with updateInterval = k >= 1
and updateCounter = 0, any run of n consecutive FixedUpdate calls returns and leaves
updateCounter = n mod k (so in [0,k)); the next call, number n + 1, is a sampling call
(the counter is reset to 0 and the three threshold tests run) exactly when k divides
n + 1, and otherwise it only increments updateCounter, sending nothing and changing no
other field; the sampling calls among the first n are floor(n/k) in number. -/
theorem sampling_cadence (angleDeg : Quaternion → Quaternion → ℚ) (k : Nat) (hk : 1 ≤ k)
    (nt : NetworkTransform) (netId : NetworkId) (hid : nt.netId = some netId)
    (hauth : netId.HasClientAuthority = true) (hui : netId.updateInterval = (k : Int))
    (hc : nt.updateCounter = 0) (steps : List FixedStep) :
    ∃ s, NetworkTransform.fixedUpdateRun angleDeg steps nt = some s ∧
      s.updateCounter = ((steps.length % k : Nat) : Int) ∧
      0 ≤ s.updateCounter ∧ s.updateCounter < (k : Int) ∧
      (∀ x : FixedStep,
        (k ∣ steps.length + 1 →
          s.FixedUpdate (some x.parentWorldScale) angleDeg x.elapsedTime x.transform =
            NetworkTransform.sampleChannels (some x.parentWorldScale) angleDeg x.elapsedTime
              netId.id x.transform { s with updateCounter := 0 }) ∧
        (¬ k ∣ steps.length + 1 →
          s.FixedUpdate (some x.parentWorldScale) angleDeg x.elapsedTime x.transform =
            some ({ s with updateCounter := s.updateCounter + 1 }, []))) ∧
      ((Finset.Ioc 0 steps.length).filter fun j => k ∣ j).card = steps.length / k := by
  obtain ⟨s, hrun, hsid, hsc⟩ :=
    fixedUpdateRun_counter angleDeg netId k hk hauth hui steps nt 0 hid (by rw [hc]; rfl) hk
  rw [Nat.zero_add] at hsc
  have hlt := Nat.mod_lt steps.length hk
  refine ⟨s, hrun, hsc, by rw [hsc]; exact Int.natCast_nonneg _,
    by rw [hsc]; exact_mod_cast hlt, ?_, Nat.Ioc_filter_dvd_card_eq_div _ _⟩
  intro x
  have hiff := dvd_succ_iff_mod k steps.length hk
  constructor
  · intro hdvd
    rw [FixedUpdate_eq _ _ _ _ s netId hsid, if_pos hauth, if_pos]
    rw [hui, hsc]
    have := hiff.mp hdvd
    omega
  · intro hdvd
    rw [FixedUpdate_eq _ _ _ _ s netId hsid, if_pos hauth, if_neg]
    rw [hui, hsc]
    have : ¬ (steps.length % k + 1 = k) := fun h => hdvd (hiff.mpr h)
    omega

/-- Witness for C18: the authoritative component with updateInterval 3 and counter 0
after two fixed steps has counter 2. -/
theorem sampling_cadence_witness :
    demoSlowOwnerNT.updateCounter = 0 ∧
    ∃ s, NetworkTransform.fixedUpdateRun demoEngine.AngleDeg
        [demoFixedStep 1, demoFixedStep 2] demoSlowOwnerNT = some s ∧
      s.updateCounter = (([demoFixedStep 1, demoFixedStep 2].length % 3 : Nat) : Int) :=
  ⟨rfl,
   (sampling_cadence demoEngine.AngleDeg 3 (by decide) demoSlowOwnerNT
      { demoNetId 9 true 2 with updateInterval := 3 } rfl rfl rfl rfl
      [demoFixedStep 1, demoFixedStep 2]).imp fun _ h => ⟨h.1, h.2.1⟩⟩

theorem World.FixedUpdate_sampling (E : Engine) (elapsed : ℚ) (w : World) (self : EntityId)
    (nt : NetworkTransform) (netId : NetworkId) (p : EntityId)
    (hnt : (w.entities self).networkTransform = some nt) (hid : nt.netId = some netId)
    (hauth : netId.HasClientAuthority = true)
    (hpar : (w.entities self).transform.parent = some p)
    (hsample : netId.updateInterval ≤ nt.updateCounter + 1) :
    w.FixedUpdate E elapsed self = some
      (w.setEntity self
        { (w.entities self) with
          networkTransform := some
            { nt with
              updateCounter := 0
              prevPos := if positionDue (E.GetWorldScale w p) (w.entities self).transform nt
                then (w.entities self).transform.localPos else nt.prevPos
              prevRot := if rotationDue E.AngleDeg (w.entities self).transform nt
                then (w.entities self).transform.localRot else nt.prevRot
              prevScale := if scaleDue (w.entities self).transform nt
                then (w.entities self).transform.localScale else nt.prevScale } },
       (if positionDue (E.GetWorldScale w p) (w.entities self).transform nt then
          [Outbound.position { netId := netId.id, timestamp := elapsed,
                               localPos := (w.entities self).transform.localPos }]
        else []) ++
       (if rotationDue E.AngleDeg (w.entities self).transform nt then
          [Outbound.rotation { netId := netId.id, timestamp := elapsed,
                               localRot := (w.entities self).transform.localRot }]
        else []) ++
       (if scaleDue (w.entities self).transform nt then
          [Outbound.scale { netId := netId.id, timestamp := elapsed,
                            localScale := (w.entities self).transform.localScale }]
        else [])) := by
  rw [World.FixedUpdate_unfold E elapsed w self nt hnt, hpar, Option.map_some',
    Isetta.FixedUpdate_eq _ _ _ _ nt netId hid, if_pos hauth, if_pos hsample,
    sampleChannels_eq, Option.map_some']

/-- C19 (position sampling): on a sampling step of an authoritative component whose
transform has a parent, FixedUpdate returns, and a Position message is sent if and
only if the squared magnitude of the component-wise product of the parent's world
scale with (current local position - prevPos) is >= updateDistance * updateDistance;
when it is sent it is the message {netId = the identity's id, timestamp = the elapsed
time, localPos = the current local position}, and prevPos becomes the current local
position. -/
theorem position_sampling (E : Engine) (elapsed : ℚ) (w : World) (self : EntityId)
    (nt : NetworkTransform) (netId : NetworkId) (p : EntityId)
    (hnt : (w.entities self).networkTransform = some nt) (hid : nt.netId = some netId)
    (hauth : netId.HasClientAuthority = true)
    (hpar : (w.entities self).transform.parent = some p)
    (hsample : netId.updateInterval ≤ nt.updateCounter + 1) :
    ∃ w1 nt1 out, w.FixedUpdate E elapsed self = some (w1, out) ∧
      (w1.entities self).networkTransform = some nt1 ∧
      ((∃ pm, Outbound.position pm ∈ out) ↔
        (Vector3.Scale (E.GetWorldScale w p)
          (Vector3.sub (w.entities self).transform.localPos nt.prevPos)).SqrMagnitude
            ≥ nt.updateDistance * nt.updateDistance) ∧
      ((∃ pm, Outbound.position pm ∈ out) →
        (∀ pm, Outbound.position pm ∈ out ↔
          pm = { netId := netId.id, timestamp := elapsed,
                 localPos := (w.entities self).transform.localPos }) ∧
        nt1.prevPos = (w.entities self).transform.localPos) := by
  refine ⟨_, _, _, World.FixedUpdate_sampling E elapsed w self nt netId p hnt hid hauth hpar
    hsample, by rw [setEntity_entities_same], ?_, ?_⟩
  · by_cases hp : positionDue (E.GetWorldScale w p) (w.entities self).transform nt <;>
      by_cases hr : rotationDue E.AngleDeg (w.entities self).transform nt <;>
      by_cases hs : scaleDue (w.entities self).transform nt <;>
      simp [hp, hr, hs]
  · by_cases hp : positionDue (E.GetWorldScale w p) (w.entities self).transform nt <;>
      by_cases hr : rotationDue E.AngleDeg (w.entities self).transform nt <;>
      by_cases hs : scaleDue (w.entities self).transform nt <;>
      simp [hp, hr, hs]

theorem demoOwnerWorld_component : (demoOwnerWorld.entities 2).networkTransform = some demoOwnerNT := by
  simp [demoOwnerWorld, setEntity_entities_same]

theorem demoOwnerWorld_parent : (demoOwnerWorld.entities 2).transform.parent = some 1 := by
  simp [demoOwnerWorld, setEntity_entities_same, demoOwnerTransform]

/-- Witness for C19: the authoritative entity of the concrete peer (updateInterval 1,
counter 0, moved from the origin to (1,0,0), updateDistance 1/100) at elapsed time 3. -/
theorem position_sampling_witness :
    (demoOwnerWorld.entities 2).networkTransform = some demoOwnerNT ∧
    demoOwnerNT.netId = some (demoNetId 9 true 2) ∧
    (demoOwnerWorld.entities 2).transform.parent = some 1 ∧
    ∃ w1 nt1 out, demoOwnerWorld.FixedUpdate demoEngine 3 2 = some (w1, out) ∧
      (w1.entities 2).networkTransform = some nt1 ∧
      ((∃ pm, Outbound.position pm ∈ out) ↔
        (Vector3.Scale (demoEngine.GetWorldScale demoOwnerWorld 1)
          (Vector3.sub (demoOwnerWorld.entities 2).transform.localPos
            demoOwnerNT.prevPos)).SqrMagnitude
            ≥ demoOwnerNT.updateDistance * demoOwnerNT.updateDistance) ∧
      ((∃ pm, Outbound.position pm ∈ out) →
        (∀ pm, Outbound.position pm ∈ out ↔
          pm = { netId := (demoNetId 9 true 2).id, timestamp := 3,
                 localPos := (demoOwnerWorld.entities 2).transform.localPos }) ∧
        nt1.prevPos = (demoOwnerWorld.entities 2).transform.localPos) :=
  ⟨demoOwnerWorld_component, rfl, demoOwnerWorld_parent,
   position_sampling demoEngine 3 demoOwnerWorld 2 demoOwnerNT (demoNetId 9 true 2) 1
    demoOwnerWorld_component rfl rfl demoOwnerWorld_parent (by decide)⟩

/-- C20 (per-channel independence of the sampler): FixedUpdate never writes the
transform of any entity nor any target, progress or last-message timestamp of the
component; and on a sampling step of an authoritative component whose transform has a
parent it returns, the kinds of the messages sent are exactly the channels (position,
rotation, scale) whose own delta meets its own threshold, no message of another kind is
sent, and a channel below its threshold keeps its previous sample unchanged. -/
theorem sampler_channels_independent (E : Engine) (elapsed : ℚ) (w : World) (self : EntityId)
    (nt : NetworkTransform) (hnt : (w.entities self).networkTransform = some nt) :
    (∀ w1 out, w.FixedUpdate E elapsed self = some (w1, out) →
      (∀ e, (w1.entities e).transform = (w.entities e).transform) ∧
      ∃ nt1, (w1.entities self).networkTransform = some nt1 ∧ sameReceiverFields nt1 nt) ∧
    (∀ netId p, nt.netId = some netId → netId.HasClientAuthority = true →
      (w.entities self).transform.parent = some p →
      netId.updateInterval ≤ nt.updateCounter + 1 →
      ∃ w1 nt1 out, w.FixedUpdate E elapsed self = some (w1, out) ∧
        (w1.entities self).networkTransform = some nt1 ∧
        ((∃ m, Outbound.position m ∈ out) ↔
          positionDue (E.GetWorldScale w p) (w.entities self).transform nt) ∧
        ((∃ m, Outbound.rotation m ∈ out) ↔
          rotationDue E.AngleDeg (w.entities self).transform nt) ∧
        ((∃ m, Outbound.scale m ∈ out) ↔ scaleDue (w.entities self).transform nt) ∧
        (∀ m, Outbound.transform m ∉ out) ∧ (∀ m, Outbound.parent m ∉ out) ∧
        (¬ positionDue (E.GetWorldScale w p) (w.entities self).transform nt →
          nt1.prevPos = nt.prevPos) ∧
        (¬ rotationDue E.AngleDeg (w.entities self).transform nt → nt1.prevRot = nt.prevRot) ∧
        (¬ scaleDue (w.entities self).transform nt → nt1.prevScale = nt.prevScale)) := by
  constructor
  · intro w1 out h
    rw [World.FixedUpdate_unfold E elapsed w self nt hnt] at h
    cases hFU : nt.FixedUpdate ((w.entities self).transform.parent.map (E.GetWorldScale w))
        E.AngleDeg elapsed (w.entities self).transform with
    | none => rw [hFU] at h; cases h
    | some r =>
      obtain ⟨nt1, out1⟩ := r
      rw [hFU, Option.map_some'] at h
      cases h
      constructor
      · intro e
        by_cases he : e = self
        · subst he
          rw [setEntity_entities_same]
        · rw [setEntity_entities_other w self e _ he]
      · exact ⟨nt1, by rw [setEntity_entities_same], FixedUpdate_frame _ _ _ _ nt nt1 out1 hFU⟩
  · intro netId p hid hauth hpar hsample
    refine ⟨_, _, _, World.FixedUpdate_sampling E elapsed w self nt netId p hnt hid hauth hpar
      hsample, by rw [setEntity_entities_same], ?_⟩
    by_cases hp : positionDue (E.GetWorldScale w p) (w.entities self).transform nt <;>
      by_cases hr : rotationDue E.AngleDeg (w.entities self).transform nt <;>
      by_cases hs : scaleDue (w.entities self).transform nt <;>
      simp [hp, hr, hs]

/-- Witness for C20: the authoritative entity of the concrete peer at elapsed time 3;
its FixedUpdate call is a sampling step and returns. -/
theorem sampler_channels_independent_witness :
    (demoOwnerWorld.entities 2).networkTransform = some demoOwnerNT ∧
    ∃ w1 nt1 out, demoOwnerWorld.FixedUpdate demoEngine 3 2 = some (w1, out) ∧
      (w1.entities 2).networkTransform = some nt1 ∧
      ((∃ m, Outbound.position m ∈ out) ↔
        positionDue (demoEngine.GetWorldScale demoOwnerWorld 1)
          (demoOwnerWorld.entities 2).transform demoOwnerNT) :=
  ⟨demoOwnerWorld_component,
   ((sampler_channels_independent demoEngine 3 demoOwnerWorld 2 demoOwnerNT
      demoOwnerWorld_component).2 (demoNetId 9 true 2) 1 rfl rfl demoOwnerWorld_parent
      (by decide)).imp
    fun _ h1 => h1.imp fun _ h2 => h2.imp fun _ h3 => ⟨h3.1, h3.2.1, h3.2.2.1⟩⟩

/-! ## Force-send, reparenting and the Parent callback -/

theorem setEntity_transform_frame (w : World) (self : EntityId) (ent : Entity)
    (h : ent.transform = (w.entities self).transform) (e : EntityId) :
    ((w.setEntity self ent).entities e).transform = (w.entities e).transform := by
  by_cases he : e = self
  · subst he
    rw [setEntity_entities_same, h]
  · rw [setEntity_entities_other w self e ent he]

/-- C21 (ForceSendTransform): with the identity of the component bound, on an
authoritative peer ForceSendTransform(snap) returns and sends exactly one message, the
Transform message whose localPos, localRot and localScale are the store's current
local values, whose snap field is the argument, whose timestamp is the elapsed time
and whose netId is the identity's id, whatever the update thresholds and the counter;
prevPos, prevRot and prevScale become the store's values, and the transform of every
entity, updateCounter, the targets, the progress values and the last-message
timestamps are unchanged.  On a non-authoritative peer it sends nothing and changes
nothing. -/
theorem force_send_transform (elapsed : ℚ) (snap : Bool) (w : World) (self : EntityId)
    (nt : NetworkTransform) (netId : NetworkId)
    (hnt : (w.entities self).networkTransform = some nt) (hid : nt.netId = some netId) :
    (netId.HasClientAuthority = true →
      ∃ w1 nt1, w.ForceSendTransform elapsed snap self = some (w1,
          [Outbound.transform
            { netId := netId.id, timestamp := elapsed, snap := snap,
              localPos := (w.entities self).transform.localPos,
              localRot := (w.entities self).transform.localRot,
              localScale := (w.entities self).transform.localScale }]) ∧
        (w1.entities self).networkTransform = some nt1 ∧
        nt1.prevPos = (w.entities self).transform.localPos ∧
        nt1.prevRot = (w.entities self).transform.localRot ∧
        nt1.prevScale = (w.entities self).transform.localScale ∧
        (∀ e, (w1.entities e).transform = (w.entities e).transform) ∧
        nt1.updateCounter = nt.updateCounter ∧ sameReceiverFields nt1 nt) ∧
    (netId.HasClientAuthority = false →
      w.ForceSendTransform elapsed snap self = some (w, [])) := by
  constructor
  · intro hauth
    rw [World.ForceSendTransform_unfold elapsed snap w self nt hnt,
      ForceSendTransform_eq _ _ _ nt netId hid, if_pos hauth, Option.map_some']
    refine ⟨_, { nt with prevPos := (w.entities self).transform.localPos,
                         prevRot := (w.entities self).transform.localRot,
                         prevScale := (w.entities self).transform.localScale },
      rfl, by rw [setEntity_entities_same], rfl, rfl, rfl, ?_, rfl,
      ⟨rfl, rfl, rfl, rfl, rfl, rfl, rfl, rfl, rfl, rfl⟩⟩
    exact setEntity_transform_frame w self _ rfl
  · intro hauth
    rw [World.ForceSendTransform_unfold elapsed snap w self nt hnt,
      ForceSendTransform_eq _ _ _ nt netId hid,
      if_neg (by rw [hauth]; exact Bool.false_ne_true), Option.map_some', setEntity_self]
    rw [← hnt]

/-- Witness for C21: the authoritative entity of the concrete peer force-sends at
elapsed time 3 with snap = true. -/
theorem force_send_transform_witness :
    (demoOwnerWorld.entities 2).networkTransform = some demoOwnerNT ∧
    demoOwnerNT.netId = some (demoNetId 9 true 2) ∧
    ∃ w1 nt1, demoOwnerWorld.ForceSendTransform 3 true 2 = some (w1,
        [Outbound.transform
          { netId := (demoNetId 9 true 2).id, timestamp := 3, snap := true,
            localPos := (demoOwnerWorld.entities 2).transform.localPos,
            localRot := (demoOwnerWorld.entities 2).transform.localRot,
            localScale := (demoOwnerWorld.entities 2).transform.localScale }]) ∧
      (w1.entities 2).networkTransform = some nt1 ∧
      nt1.prevPos = (demoOwnerWorld.entities 2).transform.localPos :=
  ⟨demoOwnerWorld_component, rfl,
   ((force_send_transform 3 true demoOwnerWorld 2 demoOwnerNT (demoNetId 9 true 2)
      demoOwnerWorld_component rfl).1 rfl).imp
    fun _ h1 => h1.imp fun _ h2 => ⟨h2.1, h2.2.1, h2.2.2.1⟩⟩

/-- C22 (SetNetworkedParent and SetNetworkedParentToRoot): with the identity of the
component bound, SetNetworkedParent(networkId) returns false when networkId does not
resolve to an entity, and then sends nothing and leaves the whole state (the parent
included) unchanged; when networkId resolves to an entity it returns true, sends
exactly the Parent message {netId = own id, parentNetId = networkId} and the entity's
parent is the resolved entity when it returns; so it returns false if and only if
networkId does not resolve.  SetNetworkedParentToRoot sends exactly the Parent message
{netId = own id, parentNetId = 0} and the entity's parent is null when it returns. -/
theorem set_networked_parent (w : World) (self : EntityId) (nt : NetworkTransform)
    (netId : NetworkId) (hnt : (w.entities self).networkTransform = some nt)
    (hid : nt.netId = some netId) :
    (∀ networkId,
      (w.GetNetworkEntity networkId = none →
        w.SetNetworkedParent self networkId = some (w, [], false)) ∧
      (∀ p, w.GetNetworkEntity networkId = some p →
        ∃ w1, w.SetNetworkedParent self networkId
            = some (w1, [Outbound.parent { netId := netId.id, parentNetId := networkId }],
                true) ∧
          (w1.entities self).transform.parent = some p) ∧
      (∃ w1 out b, w.SetNetworkedParent self networkId = some (w1, out, b) ∧
        (b = false ↔ w.GetNetworkEntity networkId = none))) ∧
    (∃ w1, w.SetNetworkedParentToRoot self
        = some (w1, [Outbound.parent { netId := netId.id, parentNetId := 0 }]) ∧
      (w1.entities self).transform.parent = none) := by
  constructor
  · intro networkId
    have hnone : w.GetNetworkEntity networkId = none →
        w.SetNetworkedParent self networkId = some (w, [], false) := by
      intro hres
      unfold World.SetNetworkedParent
      simp only [hnt, hres]
    have hsome : ∀ p, w.GetNetworkEntity networkId = some p →
        ∃ w1, w.SetNetworkedParent self networkId
            = some (w1, [Outbound.parent { netId := netId.id, parentNetId := networkId }],
                true) ∧
          (w1.entities self).transform.parent = some p := by
      intro p hres
      unfold World.SetNetworkedParent
      simp only [hnt, hres, hid]
      exact ⟨_, rfl, by rw [setEntity_entities_same]; rfl⟩
    refine ⟨hnone, hsome, ?_⟩
    cases hres : w.GetNetworkEntity networkId with
    | none => exact ⟨_, _, _, hnone hres, by simp⟩
    | some p =>
      obtain ⟨w1, h1, _⟩ := hsome p hres
      exact ⟨_, _, _, h1, by simp⟩
  · unfold World.SetNetworkedParentToRoot
    simp only [hnt, hid]
    exact ⟨_, rfl, by rw [setEntity_entities_same]; rfl⟩

/-- Witness for C22: entity 0 of the concrete peer is reparented to the entity of
identity 8, and detached to the root. -/
theorem set_networked_parent_witness :
    (demoWorld.entities 0).networkTransform = some demoNT ∧
    demoNT.netId = some (demoNetId 7 false 0) ∧
    demoWorld.GetNetworkEntity 8 = some 1 ∧
    (∃ w1, demoWorld.SetNetworkedParent 0 8
        = some (w1, [Outbound.parent { netId := (demoNetId 7 false 0).id, parentNetId := 8 }],
            true) ∧
      (w1.entities 0).transform.parent = some 1) ∧
    (∃ w1, demoWorld.SetNetworkedParentToRoot 0
        = some (w1, [Outbound.parent { netId := (demoNetId 7 false 0).id, parentNetId := 0 }]) ∧
      (w1.entities 0).transform.parent = none) :=
  have h := set_networked_parent demoWorld 0 demoNT (demoNetId 7 false 0) rfl rfl
  ⟨rfl, rfl, rfl, (h.1 8).2.1 1 rfl, h.2⟩

/-- C23, the code at the failing input: on the concrete peer identity 7 resolves and
network id 5 does not.  The Parent client callback on {netId=7, parentNetId=5}
dereferences the null result of GetNetworkEntity (the run faults), while
SetNetworkedParent(5), which tests the result first, returns false with the state
unchanged. -/
theorem parent_callback_faults_on_unknown_parent :
    demoWorld.GetNetworkId 7 = some (demoNetId 7 false 0) ∧
    demoWorld.GetNetworkEntity 5 = none ∧
    parentClientCallback demoWorld { netId := 7, parentNetId := 5 } = none ∧
    demoWorld.SetNetworkedParent 0 5 = some (demoWorld, [], false) :=
  ⟨rfl, rfl, rfl, rfl⟩

/-- C24 (Parent message application): for a Parent message whose netId resolves to an
identity with an entity, if parentNetId = 0 the callback returns and the entity's
parent is null, and if parentNetId is not 0 and resolves to entity P the callback
returns and the entity's parent is P; in both cases the components of every entity
(targets, previous values, progress, timestamps) and the local position, rotation and
scale of every entity are as before.  If netId does not resolve the callback returns
the state unchanged. -/
theorem parent_message_applied (w : World) (m : ParentMessage) :
    (w.GetNetworkId m.netId = none → parentClientCallback w m = some w) ∧
    (∀ netId e, w.GetNetworkId m.netId = some netId → netId.entity = some e →
      (m.parentNetId = 0 →
        ∃ w1, parentClientCallback w m = some w1 ∧
          (w1.entities e).transform.parent = none ∧
          ∀ e1, (w1.entities e1).networkTransform = (w.entities e1).networkTransform ∧
            (w1.entities e1).transform.localPos = (w.entities e1).transform.localPos ∧
            (w1.entities e1).transform.localRot = (w.entities e1).transform.localRot ∧
            (w1.entities e1).transform.localScale = (w.entities e1).transform.localScale) ∧
      (∀ p, m.parentNetId ≠ 0 → w.GetNetworkEntity m.parentNetId = some p →
        ∃ w1, parentClientCallback w m = some w1 ∧
          (w1.entities e).transform.parent = some p ∧
          ∀ e1, (w1.entities e1).networkTransform = (w.entities e1).networkTransform ∧
            (w1.entities e1).transform.localPos = (w.entities e1).transform.localPos ∧
            (w1.entities e1).transform.localRot = (w.entities e1).transform.localRot ∧
            (w1.entities e1).transform.localScale = (w.entities e1).transform.localScale)) := by
  have hframe : ∀ (e : EntityId) (par : Option EntityId) (e1 : EntityId),
      ((w.setEntity e { (w.entities e) with
          transform := (w.entities e).transform.SetParent par }).entities e1).networkTransform
        = (w.entities e1).networkTransform ∧
      ((w.setEntity e { (w.entities e) with
          transform := (w.entities e).transform.SetParent par }).entities e1).transform.localPos
        = (w.entities e1).transform.localPos ∧
      ((w.setEntity e { (w.entities e) with
          transform := (w.entities e).transform.SetParent par }).entities e1).transform.localRot
        = (w.entities e1).transform.localRot ∧
      ((w.setEntity e { (w.entities e) with
          transform := (w.entities e).transform.SetParent par }).entities e1).transform.localScale
        = (w.entities e1).transform.localScale := by
    intro e par e1
    by_cases he : e1 = e
    · subst he
      rw [setEntity_entities_same]
      exact ⟨rfl, rfl, rfl, rfl⟩
    · rw [setEntity_entities_other w e e1 _ he]
      exact ⟨rfl, rfl, rfl, rfl⟩
  constructor
  · intro hres
    unfold parentClientCallback
    simp only [hres]
  · intro netId e hres hent
    constructor
    · intro hzero
      unfold parentClientCallback
      simp only [hres, hent, hzero, if_true]
      exact ⟨_, rfl, by rw [setEntity_entities_same]; rfl, hframe e none⟩
    · intro p hnz hpar
      unfold parentClientCallback
      simp only [hres, hent, hnz, if_false, hpar]
      exact ⟨_, rfl, by rw [setEntity_entities_same]; rfl, hframe e (some p)⟩

/-- Witness for C24: the Parent message {netId=7, parentNetId=0} on the concrete peer,
where identity 7 resolves to entity 0: the parent of entity 0 is null afterwards. -/
theorem parent_message_applied_witness :
    demoWorld.GetNetworkId 7 = some (demoNetId 7 false 0) ∧
    ∃ w1, parentClientCallback demoWorld { netId := 7, parentNetId := 0 } = some w1 ∧
      (w1.entities 0).transform.parent = none ∧
      ∀ e1, (w1.entities e1).networkTransform = (demoWorld.entities e1).networkTransform ∧
        (w1.entities e1).transform.localPos = (demoWorld.entities e1).transform.localPos ∧
        (w1.entities e1).transform.localRot = (demoWorld.entities e1).transform.localRot ∧
        (w1.entities e1).transform.localScale = (demoWorld.entities e1).transform.localScale :=
  ⟨rfl,
   ((parent_message_applied demoWorld { netId := 7, parentNetId := 0 }).2
      (demoNetId 7 false 0) 0 rfl rfl).1 rfl⟩

/-! ## Server relay -/

/-- C25, the code at the failing input: from the empty relay state, the Position
callback on {netId=7, ts=5} relays the message but leaves the position map's entry
for 7 at 0 and stores 5 in the scale map; a following Scale message {netId=7, ts=3},
although no Scale message was relayed for 7 before (last relayed 0 <= 3), is
withheld. -/
theorem position_relay_writes_scale_map :
    (positionServerCallback ServerState.initial 0 (demoPositionMessage 5)).2
      = [Relayed.toAll (Outbound.position (demoPositionMessage 5))] ∧
    (positionServerCallback ServerState.initial 0 (demoPositionMessage 5)).1.serverPosTimestamps 7
      = 0 ∧
    (positionServerCallback ServerState.initial 0 (demoPositionMessage 5)).1.serverScaleTimestamps 7
      = 5 ∧
    (serverRun ServerState.initial
      [(0, Outbound.position (demoPositionMessage 5)),
       (0, Outbound.scale (demoScaleMessage 3))]).2
      = [Relayed.toAll (Outbound.position (demoPositionMessage 5))] := by
  refine ⟨?_, ?_, ?_, ?_⟩ <;>
    norm_num [serverRun, serverCallback, positionServerCallback, scaleServerCallback,
      ServerState.initial, demoPositionMessage, demoScaleMessage, Function.update]

/-- C26, the code at the failing input: from the empty relay state, after the Scale
message {netId=7, ts=10} was relayed the Position message {netId=7, ts=5} is withheld,
and likewise after the Rotation message {netId=7, ts=10}; no Position message was
relayed before in either run. -/
theorem position_withheld_after_other_channel :
    (serverRun ServerState.initial
      [(0, Outbound.scale (demoScaleMessage 10)),
       (0, Outbound.position (demoPositionMessage 5))]).2
      = [Relayed.toAll (Outbound.scale (demoScaleMessage 10))] ∧
    (serverRun ServerState.initial
      [(0, Outbound.rotation (demoRotationMessage 10)),
       (0, Outbound.position (demoPositionMessage 5))]).2
      = [Relayed.toAll (Outbound.rotation (demoRotationMessage 10))] := by
  refine ⟨?_, ?_⟩ <;>
    norm_num [serverRun, serverCallback, positionServerCallback, scaleServerCallback,
      rotationServerCallback, ServerState.initial, demoPositionMessage, demoScaleMessage,
      demoRotationMessage, Function.update]

/-- C27, counterexample: from the empty relay state the Scale message {netId=7, ts=5}
arrives twice, and the server relays it both times. -/
theorem duplicate_timestamp_relayed_twice :
    (serverRun ServerState.initial
      [(0, Outbound.scale (demoScaleMessage 5)),
       (0, Outbound.scale (demoScaleMessage 5))]).2
      = [Relayed.toAll (Outbound.scale (demoScaleMessage 5)),
         Relayed.toAll (Outbound.scale (demoScaleMessage 5))] := by
  norm_num [serverRun, serverCallback, scaleServerCallback, ServerState.initial,
    demoScaleMessage, Function.update]

/-- C27, amended (only strictly older timestamps are withheld): in any relay state,
when the server has just relayed a Position (resp. Rotation, Scale) message, a message
of the same kind and network id that arrives next with the same timestamp is relayed
again, and one with a strictly smaller timestamp is withheld with the relay state
unchanged. -/
theorem equal_timestamp_relayed_again (s : ServerState) (c c1 : Int) :
    (∀ m m1 : PositionMessage, m1.netId = m.netId →
      (positionServerCallback s c m).2 ≠ [] →
      (m1.timestamp = m.timestamp →
        (positionServerCallback (positionServerCallback s c m).1 c1 m1).2
          = [Relayed.toAll (Outbound.position m1)]) ∧
      (m1.timestamp < m.timestamp →
        positionServerCallback (positionServerCallback s c m).1 c1 m1
          = ((positionServerCallback s c m).1, []))) ∧
    (∀ m m1 : RotationMessage, m1.netId = m.netId →
      (rotationServerCallback s c m).2 ≠ [] →
      (m1.timestamp = m.timestamp →
        (rotationServerCallback (rotationServerCallback s c m).1 c1 m1).2
          = [Relayed.toAll (Outbound.rotation m1)]) ∧
      (m1.timestamp < m.timestamp →
        rotationServerCallback (rotationServerCallback s c m).1 c1 m1
          = ((rotationServerCallback s c m).1, []))) ∧
    (∀ m m1 : ScaleMessage, m1.netId = m.netId →
      (scaleServerCallback s c m).2 ≠ [] →
      (m1.timestamp = m.timestamp →
        (scaleServerCallback (scaleServerCallback s c m).1 c1 m1).2
          = [Relayed.toAll (Outbound.scale m1)]) ∧
      (m1.timestamp < m.timestamp →
        scaleServerCallback (scaleServerCallback s c m).1 c1 m1
          = ((scaleServerCallback s c m).1, []))) := by
  refine ⟨?_, ?_, ?_⟩
  · intro m m1 hid hrel
    by_cases h : s.serverScaleTimestamps m.netId ≤ m.timestamp
    · constructor
      · intro hts
        simp [positionServerCallback, h, hid, hts]
      · intro hts
        simp [positionServerCallback, h, hid, not_le.mpr hts]
    · exact absurd (by simp [positionServerCallback, h]) hrel
  · intro m m1 hid hrel
    by_cases h : s.serverScaleTimestamps m.netId ≤ m.timestamp
    · constructor
      · intro hts
        simp [rotationServerCallback, h, hid, hts]
      · intro hts
        simp [rotationServerCallback, h, hid, not_le.mpr hts]
    · exact absurd (by simp [rotationServerCallback, h]) hrel
  · intro m m1 hid hrel
    by_cases h : s.serverScaleTimestamps m.netId ≤ m.timestamp
    · constructor
      · intro hts
        simp [scaleServerCallback, h, hid, hts]
      · intro hts
        simp [scaleServerCallback, h, hid, not_le.mpr hts]
    · exact absurd (by simp [scaleServerCallback, h]) hrel

/-- Witness for the amended C27: from the empty relay state the Scale message
{netId=7, ts=5} is relayed, and the same message arriving next is relayed again. -/
theorem equal_timestamp_relayed_again_witness :
    (scaleServerCallback ServerState.initial 0 (demoScaleMessage 5)).2 ≠ [] ∧
    (scaleServerCallback (scaleServerCallback ServerState.initial 0 (demoScaleMessage 5)).1 1
        (demoScaleMessage 5)).2
      = [Relayed.toAll (Outbound.scale (demoScaleMessage 5))] :=
  have hrel : (scaleServerCallback ServerState.initial 0 (demoScaleMessage 5)).2 ≠ [] := by
    norm_num [scaleServerCallback, ServerState.initial, demoScaleMessage]
  ⟨hrel,
   ((equal_timestamp_relayed_again ServerState.initial 0 1).2.2 (demoScaleMessage 5)
      (demoScaleMessage 5) rfl hrel).1 rfl⟩

theorem serverCallback_ordered (s : ServerState) (c : Int) (m : Outbound)
    (hm : m.isSingleChannel = true) (id : Int) :
    s.serverScaleTimestamps id ≤ (serverCallback s c m).1.serverScaleTimestamps id ∧
    (serverCallback s c m).1.serverPosTimestamps = s.serverPosTimestamps ∧
    (serverCallback s c m).1.serverRotTimestamps = s.serverRotTimestamps ∧
    (relayedTimestamps id (serverCallback s c m).2).length ≤ 1 ∧
    ∀ t ∈ relayedTimestamps id (serverCallback s c m).2,
      s.serverScaleTimestamps id ≤ t ∧ t ≤ (serverCallback s c m).1.serverScaleTimestamps id := by
  cases m with
  | position pm =>
    simp only [serverCallback, positionServerCallback]
    by_cases h : s.serverScaleTimestamps pm.netId ≤ pm.timestamp
    · rw [if_pos h]
      by_cases hid : pm.netId = id
      · subst hid
        simp [relayedTimestamps, Relayed.channelTimestamp, h]
      · have hne : id ≠ pm.netId := Ne.symm hid
        simp [relayedTimestamps, Relayed.channelTimestamp, hid, hne, Function.update]
    · rw [if_neg h]
      simp [relayedTimestamps]
  | rotation rm =>
    simp only [serverCallback, rotationServerCallback]
    by_cases h : s.serverScaleTimestamps rm.netId ≤ rm.timestamp
    · rw [if_pos h]
      by_cases hid : rm.netId = id
      · subst hid
        simp [relayedTimestamps, Relayed.channelTimestamp, h]
      · have hne : id ≠ rm.netId := Ne.symm hid
        simp [relayedTimestamps, Relayed.channelTimestamp, hid, hne, Function.update]
    · rw [if_neg h]
      simp [relayedTimestamps]
  | scale sm =>
    simp only [serverCallback, scaleServerCallback]
    by_cases h : s.serverScaleTimestamps sm.netId ≤ sm.timestamp
    · rw [if_pos h]
      by_cases hid : sm.netId = id
      · subst hid
        simp [relayedTimestamps, Relayed.channelTimestamp, h]
      · have hne : id ≠ sm.netId := Ne.symm hid
        simp [relayedTimestamps, Relayed.channelTimestamp, hid, hne, Function.update]
    · rw [if_neg h]
      simp [relayedTimestamps]
  | transform tm => cases hm
  | parent pm => cases hm

theorem relayedTimestamps_append (id : Int) (a b : List Relayed) :
    relayedTimestamps id (a ++ b) = relayedTimestamps id a ++ relayedTimestamps id b := by
  simp [relayedTimestamps, List.filterMap_append]

theorem serverRun_ordered (msgs : List (Int × Outbound)) :
    ∀ s : ServerState, (∀ x ∈ msgs, x.2.isSingleChannel = true) → ∀ id : Int,
      s.serverScaleTimestamps id ≤ (serverRun s msgs).1.serverScaleTimestamps id ∧
      (serverRun s msgs).1.serverPosTimestamps = s.serverPosTimestamps ∧
      (serverRun s msgs).1.serverRotTimestamps = s.serverRotTimestamps ∧
      (∀ t ∈ relayedTimestamps id (serverRun s msgs).2,
        s.serverScaleTimestamps id ≤ t ∧
        t ≤ (serverRun s msgs).1.serverScaleTimestamps id) ∧
      List.Pairwise (fun a b => a ≤ b) (relayedTimestamps id (serverRun s msgs).2) := by
  induction msgs with
  | nil =>
    intro s _ id
    simp [serverRun, relayedTimestamps]
  | cons x rest ih =>
    intro s hall id
    obtain ⟨c, m⟩ := x
    have hm : m.isSingleChannel = true := hall (c, m) (List.mem_cons_self _ _)
    have hrest : ∀ y ∈ rest, y.2.isSingleChannel = true :=
      fun y hy => hall y (List.mem_cons_of_mem _ hy)
    obtain ⟨h1, h2, h3, _, h5⟩ := serverCallback_ordered s c m hm id
    obtain ⟨g1, g2, g3, g4, g5⟩ := ih (serverCallback s c m).1 hrest id
    simp only [serverRun]
    rw [relayedTimestamps_append]
    refine ⟨le_trans h1 g1, g2.trans h2, g3.trans h3, ?_, ?_⟩
    · intro t ht
      rcases List.mem_append.mp ht with ht | ht
      · exact ⟨(h5 t ht).1, le_trans (h5 t ht).2 g1⟩
      · exact ⟨le_trans h1 (g4 t ht).1, (g4 t ht).2⟩
    · rw [List.pairwise_append]
      refine ⟨?_, g5, ?_⟩
      · have hlen := (serverCallback_ordered s c m hm id).2.2.2.1
        match hl : relayedTimestamps id (serverCallback s c m).2 with
        | [] => exact List.Pairwise.nil
        | [a] => exact List.pairwise_singleton _ _
        | a :: b :: l => rw [hl] at hlen; simp at hlen
      · intro a ha b hb
        exact le_trans (h5 a ha).2 (g4 b hb).1

/-- C30 (relayed timestamps are ordered): for every network id and every sequence of
Position, Rotation and Scale messages arriving at the server, from any relay state
each stored last-relayed timestamp for the id is at least what it was before the
sequence, the timestamps of the messages relayed for the id form a non-decreasing
sequence, and from the empty relay state (a missing entry reads as 0) every relayed
message has a timestamp >= 0, so a message with a negative timestamp is never
relayed. -/
theorem relayed_timestamps_ordered (msgs : List (Int × Outbound))
    (hall : ∀ x ∈ msgs, x.2.isSingleChannel = true) (id : Int) :
    (∀ s : ServerState,
      s.serverPosTimestamps id ≤ (serverRun s msgs).1.serverPosTimestamps id ∧
      s.serverRotTimestamps id ≤ (serverRun s msgs).1.serverRotTimestamps id ∧
      s.serverScaleTimestamps id ≤ (serverRun s msgs).1.serverScaleTimestamps id) ∧
    (∀ s : ServerState,
      List.Pairwise (fun a b => a ≤ b) (relayedTimestamps id (serverRun s msgs).2)) ∧
    (∀ t ∈ relayedTimestamps id (serverRun ServerState.initial msgs).2, 0 ≤ t) := by
  refine ⟨?_, ?_, ?_⟩
  · intro s
    obtain ⟨h1, h2, h3, _, _⟩ := serverRun_ordered msgs s hall id
    exact ⟨by rw [h2], by rw [h3], h1⟩
  · intro s
    exact (serverRun_ordered msgs s hall id).2.2.2.2
  · intro t ht
    exact ((serverRun_ordered msgs ServerState.initial hall id).2.2.2.1 t ht).1

/-- Witness for C30: Scale{ts=10}, Position{ts=5} and Rotation{ts=12} for identity 7
arrive at the server in this order; the relayed timestamps for 7 are ordered. -/
theorem relayed_timestamps_ordered_witness :
    List.Pairwise (fun a b => a ≤ b)
      (relayedTimestamps 7 (serverRun ServerState.initial
        [(0, Outbound.scale (demoScaleMessage 10)),
         (1, Outbound.position (demoPositionMessage 5)),
         (0, Outbound.rotation (demoRotationMessage 12))]).2) :=
  (relayed_timestamps_ordered
    [(0, Outbound.scale (demoScaleMessage 10)),
     (1, Outbound.position (demoPositionMessage 5)),
     (0, Outbound.rotation (demoRotationMessage 12))]
    (by decide) 7).2.1 ServerState.initial

/-! ## Histories -/

theorem World.Update_unfold (F : FrameEnv) (dt : ℚ) (w : World) (self : EntityId)
    (nt : NetworkTransform) (hnt : (w.entities self).networkTransform = some nt) :
    w.Update F dt self =
      (nt.Update F dt (w.entities self).transform).map
        fun r => w.setEntity self
          { (w.entities self) with transform := r.1, networkTransform := some r.2 } := by
  unfold World.Update
  simp only [hnt]
  cases nt.Update F dt (w.entities self).transform <;> rfl

theorem World.Update_blending_step (F : FrameEnv) (dt : ℚ) (w : World) (self : EntityId)
    (nt : NetworkTransform) (netId : NetworkId)
    (hnt : (w.entities self).networkTransform = some nt) (hid : nt.netId = some netId)
    (hb : nt.posInterpolation < 1 ∨ nt.rotInterpolation < 1 ∨ nt.scaleInterpolation < 1) :
    ∃ w1 t1 nt1, w.Update F dt self = some w1 ∧ (w1.entities self).transform = t1 ∧
      (w1.entities self).networkTransform = some nt1 ∧
      nt.Update F dt (w.entities self).transform = some (t1, nt1) := by
  rw [World.Update_unfold F dt w self nt hnt,
    Isetta.Update_blending F dt _ nt netId hid hb, Option.map_some']
  exact ⟨_, _, _, rfl, by rw [setEntity_entities_same], by rw [setEntity_entities_same], rfl⟩

theorem finished_channel_trace_runs :
    ∃ w3, run demoGentleEngine demoFrameEnv demoWorld demoDisturbingHistory = some w3 := by
  obtain ⟨w1, nt1, h1, hr1, ht1, hn1⟩ :=
    transform_step demoGentleEngine demoWorld (demoSnapMessage 1) 0 demoNT demoWorld_receives
  have hsnap : (demoSnapMessage 1).snap = true := rfl
  rw [hsnap, if_pos rfl, transformSnapBranch_fresh (demoSnapMessage 1) _ demoNT
    (by norm_num [demoNT, NetworkTransform.Start, demoSnapMessage])
    (by norm_num [demoNT, NetworkTransform.Start, demoSnapMessage])
    (by norm_num [demoNT, NetworkTransform.Start, demoSnapMessage])] at ht1 hn1
  obtain ⟨w2, nt2, h2, hr2, _, hn2⟩ :=
    rotation_step demoGentleEngine w1 (demoRotationMessage 2) 0 nt1 hr1
      (by rw [hn1]; norm_num [demoSnapMessage, demoRotationMessage])
  have hblend : ¬ (abs (demoGentleEngine.AngleDeg (w1.entities 0).transform.localRot
      (demoRotationMessage 2).localRot) ≥ nt1.snapRotation) := by
    rw [ht1, hn1]
    norm_num [demoGentleEngine, demoSnapMessage, demoRotationMessage, Quaternion.identity,
      demoNT, NetworkTransform.Start, demoRawNT]
  rw [rotationBlock_eq, if_neg hblend] at hn2
  dsimp only at hn2
  have hid2 : nt2.netId = some (demoNetId 7 false 0) := by rw [hn2, hn1]; rfl
  have hb2 : nt2.posInterpolation < 1 ∨ nt2.rotInterpolation < 1 ∨
      nt2.scaleInterpolation < 1 := Or.inr (Or.inl (by rw [hn2]; norm_num))
  obtain ⟨w3, _, _, h3, _⟩ :=
    World.Update_blending_step demoFrameEnv (1 / 60) w2 0 nt2 (demoNetId 7 false 0)
      hr2.component hid2 hb2
  exact ⟨w3, by simp only [demoDisturbingHistory, run, step, clientCallback, h1, h2, h3]⟩

/-- C28, the code at the failing input: the started concrete peer is settled (every
progress 1, store = target = previous).  After the snapping Transform message
{ts=1,(3,0,0)} and the Rotation message {ts=2} that blends (angle 10 < 30), the
position channel has progress 1 and its store value (3,0,0) differs from its target
(0,0,0); the Update tick that the rotation blend triggers then writes the position
store back to (0,0,0). -/
theorem finished_channel_disturbed :
    demoNT.ProgressInRange ∧ demoNT.posInterpolation = 1 ∧
    (demoWorld.entities 0).transform.localPos = demoNT.targetPos ∧
    demoNT.prevPos = demoNT.targetPos ∧
    ∃ w2 nt2 w3,
      run demoGentleEngine demoFrameEnv demoWorld
        [Event.message (ClientMessage.transform (demoSnapMessage 1)),
         Event.message (ClientMessage.rotation (demoRotationMessage 2))] = some w2 ∧
      (w2.entities 0).networkTransform = some nt2 ∧
      nt2.posInterpolation = 1 ∧ nt2.rotInterpolation = 0 ∧
      (w2.entities 0).transform.localPos = ⟨3, 0, 0⟩ ∧ nt2.targetPos = ⟨0, 0, 0⟩ ∧
      step demoGentleEngine demoFrameEnv w2 (Event.update 0 (1 / 60)) = some w3 ∧
      (w3.entities 0).transform.localPos = ⟨0, 0, 0⟩ ∧
      run demoGentleEngine demoFrameEnv demoWorld demoDisturbingHistory = some w3 := by
  refine ⟨by norm_num [NetworkTransform.ProgressInRange, demoNT, NetworkTransform.Start,
      demoRawNT], rfl, rfl, rfl, ?_⟩
  -- the snapping message
  obtain ⟨w1, nt1, h1, hr1, ht1, hn1⟩ :=
    transform_step demoGentleEngine demoWorld (demoSnapMessage 1) 0 demoNT demoWorld_receives
  have hsnap : (demoSnapMessage 1).snap = true := rfl
  rw [hsnap, if_pos rfl, transformSnapBranch_fresh (demoSnapMessage 1) _ demoNT
    (by norm_num [demoNT, NetworkTransform.Start, demoSnapMessage])
    (by norm_num [demoNT, NetworkTransform.Start, demoSnapMessage])
    (by norm_num [demoNT, NetworkTransform.Start, demoSnapMessage])] at ht1 hn1
  -- the blending rotation message
  obtain ⟨w2, nt2, h2, hr2, ht2, hn2⟩ :=
    rotation_step demoGentleEngine w1 (demoRotationMessage 2) 0 nt1 hr1
      (by rw [hn1]; norm_num [demoSnapMessage, demoRotationMessage])
  have hblend : ¬ (abs (demoGentleEngine.AngleDeg (w1.entities 0).transform.localRot
      (demoRotationMessage 2).localRot) ≥ nt1.snapRotation) := by
    rw [ht1, hn1]
    norm_num [demoGentleEngine, demoSnapMessage, demoRotationMessage, Quaternion.identity,
      demoNT, NetworkTransform.Start, demoRawNT]
  rw [rotationBlock_eq, if_neg hblend] at ht2 hn2
  dsimp only at ht2 hn2
  -- the tick
  have hid2 : nt2.netId = some (demoNetId 7 false 0) := by rw [hn2, hn1]; rfl
  have hb2 : nt2.posInterpolation < 1 ∨ nt2.rotInterpolation < 1 ∨
      nt2.scaleInterpolation < 1 := Or.inr (Or.inl (by rw [hn2]; norm_num))
  obtain ⟨w3, t3, nt3, h3, ht3, _, hU⟩ :=
    World.Update_blending_step demoFrameEnv (1 / 60) w2 0 nt2 (demoNetId 7 false 0)
      hr2.component hid2 hb2
  obtain ⟨t4, nt4, hU4, _, hp4, _, _, _, _, _, hlp4, _⟩ :=
    Update_tick_spec demoFrameEnv (1 / 60) (w2.entities 0).transform nt2
      (demoNetId 7 false 0) hid2 hb2
  rw [hU4] at hU
  cases hU
  have hstep : step demoGentleEngine demoFrameEnv w2 (Event.update 0 (1 / 60)) = some w3 := h3
  have hrun2 : run demoGentleEngine demoFrameEnv demoWorld
      [Event.message (ClientMessage.transform (demoSnapMessage 1)),
       Event.message (ClientMessage.rotation (demoRotationMessage 2))] = some w2 := by
    simp only [run, step, clientCallback, h1, h2]
  refine ⟨w2, nt2, w3, hrun2, hr2.component, by rw [hn2, hn1], by rw [hn2],
    by rw [ht2, ht1]; rfl, by rw [hn2, hn1]; rfl, hstep, ?_, ?_⟩
  · rw [ht3, hlp4, hp4, hn2, hn1]
    norm_num [Vector3.Lerp, blendStep, demoFrameEnv, demoNetId, demoSnapMessage, demoNT,
      NetworkTransform.Start, demoRawNT, demoEntity0, demoTransform, Vector3.zero,
      Transform.GetLocalPos]
  · simp only [demoDisturbingHistory, run, step, clientCallback, h1, h2, h3]

theorem positionClientCallback_other (E : Engine) (w w1 : World) (m : PositionMessage) (e : EntityId)
    (h : positionClientCallback E w m = some w1) (hno : ∀ nt, ¬ Receives w m.netId e nt) :
    w1.entities e = w.entities e := by
  unfold positionClientCallback at h
  split at h
  · cases h; rfl
  · rename_i netId hreg
    split at h
    · cases h; rfl
    · rename_i hauth
      split at h
      · cases h
      · rename_i e1 hent
        dsimp only at h
        split at h
        · rename_i nt1 hnt1
          split at h
          · cases h; rfl
          · cases h
            by_cases he : e = e1
            · subst he
              exact absurd ⟨netId, hreg, by simpa using hauth, hent, hnt1⟩ (hno nt1)
            · rw [setEntity_entities_other _ _ _ _ he]
        · cases h

theorem rotationClientCallback_other (E : Engine) (w w1 : World) (m : RotationMessage) (e : EntityId)
    (h : rotationClientCallback E w m = some w1) (hno : ∀ nt, ¬ Receives w m.netId e nt) :
    w1.entities e = w.entities e := by
  unfold rotationClientCallback at h
  split at h
  · cases h; rfl
  · rename_i netId hreg
    split at h
    · cases h; rfl
    · rename_i hauth
      split at h
      · cases h
      · rename_i e1 hent
        dsimp only at h
        split at h
        · rename_i nt1 hnt1
          split at h
          · cases h; rfl
          · cases h
            by_cases he : e = e1
            · subst he
              exact absurd ⟨netId, hreg, by simpa using hauth, hent, hnt1⟩ (hno nt1)
            · rw [setEntity_entities_other _ _ _ _ he]
        · cases h

theorem scaleClientCallback_other (w w1 : World) (m : ScaleMessage) (e : EntityId)
    (h : scaleClientCallback w m = some w1) (hno : ∀ nt, ¬ Receives w m.netId e nt) :
    w1.entities e = w.entities e := by
  unfold scaleClientCallback at h
  split at h
  · cases h; rfl
  · rename_i netId hreg
    split at h
    · cases h; rfl
    · rename_i hauth
      split at h
      · cases h
      · rename_i e1 hent
        dsimp only at h
        split at h
        · rename_i nt1 hnt1
          split at h
          · cases h; rfl
          · cases h
            by_cases he : e = e1
            · subst he
              exact absurd ⟨netId, hreg, by simpa using hauth, hent, hnt1⟩ (hno nt1)
            · rw [setEntity_entities_other _ _ _ _ he]
        · cases h

theorem transformClientCallback_other (E : Engine) (w w1 : World) (m : TransformMessage) (e : EntityId)
    (h : transformClientCallback E w m = some w1) (hno : ∀ nt, ¬ Receives w m.netId e nt) :
    w1.entities e = w.entities e := by
  unfold transformClientCallback at h
  split at h
  · cases h; rfl
  · rename_i netId hreg
    split at h
    · cases h; rfl
    · rename_i hauth
      split at h
      · cases h
      · rename_i e1 hent
        dsimp only at h
        split at h
        · cases h; rfl
        · rename_i nt1 hnt1
          cases h
          by_cases he : e = e1
          · subst he
            exact absurd ⟨netId, hreg, by simpa using hauth, hent, hnt1⟩ (hno nt1)
          · rw [setEntity_entities_other _ _ _ _ he]

theorem positionBlock_last (ws : Vector3) (ts : ℚ) (p : Vector3) (t : Transform)
    (nt : NetworkTransform) :
    (positionBlock ws ts p t nt).2.lastPosMessage = ts ∧
    (positionBlock ws ts p t nt).2.lastRotMessage = nt.lastRotMessage ∧
    (positionBlock ws ts p t nt).2.lastScaleMessage = nt.lastScaleMessage := by
  rw [positionBlock_eq]
  split <;> exact ⟨rfl, rfl, rfl⟩

theorem rotationBlock_last (angleDeg : Quaternion → Quaternion → ℚ) (ts : ℚ) (r : Quaternion)
    (t : Transform) (nt : NetworkTransform) :
    (rotationBlock angleDeg ts r t nt).2.lastPosMessage = nt.lastPosMessage ∧
    (rotationBlock angleDeg ts r t nt).2.lastRotMessage = ts ∧
    (rotationBlock angleDeg ts r t nt).2.lastScaleMessage = nt.lastScaleMessage := by
  rw [rotationBlock_eq]
  split <;> exact ⟨rfl, rfl, rfl⟩

theorem scaleBlock_last (ts : ℚ) (sc : Vector3) (t : Transform) (nt : NetworkTransform) :
    (scaleBlock ts sc t nt).2.lastPosMessage = nt.lastPosMessage ∧
    (scaleBlock ts sc t nt).2.lastRotMessage = nt.lastRotMessage ∧
    (scaleBlock ts sc t nt).2.lastScaleMessage = ts := by
  rw [scaleBlock_eq]
  split <;> exact ⟨rfl, rfl, rfl⟩

theorem transformSnapBranch_last (m : TransformMessage) (t : Transform)
    (nt : NetworkTransform) :
    (transformSnapBranch m t nt).2.lastPosMessage
      = (if nt.lastPosMessage ≤ m.timestamp then m.timestamp else nt.lastPosMessage) ∧
    (transformSnapBranch m t nt).2.lastRotMessage
      = (if nt.lastRotMessage ≤ m.timestamp then m.timestamp else nt.lastRotMessage) ∧
    (transformSnapBranch m t nt).2.lastScaleMessage
      = (if nt.lastScaleMessage ≤ m.timestamp then m.timestamp else nt.lastScaleMessage) := by
  unfold transformSnapBranch
  by_cases hp : nt.lastPosMessage ≤ m.timestamp <;>
    by_cases hr : nt.lastRotMessage ≤ m.timestamp <;>
    by_cases hs : nt.lastScaleMessage ≤ m.timestamp <;>
    simp [hp, hr, hs]

theorem transformBlendBranch_last (ws : Vector3) (angleDeg : Quaternion → Quaternion → ℚ)
    (m : TransformMessage) (t : Transform) (nt : NetworkTransform) :
    (transformBlendBranch ws angleDeg m t nt).2.lastPosMessage
      = (if nt.lastPosMessage ≤ m.timestamp then m.timestamp else nt.lastPosMessage) ∧
    (transformBlendBranch ws angleDeg m t nt).2.lastRotMessage
      = (if nt.lastRotMessage ≤ m.timestamp then m.timestamp else nt.lastRotMessage) ∧
    (transformBlendBranch ws angleDeg m t nt).2.lastScaleMessage
      = (if nt.lastScaleMessage ≤ m.timestamp then m.timestamp else nt.lastScaleMessage) := by
  rw [transformBlendBranch_eq]
  dsimp only
  have hP : (if nt.lastPosMessage ≤ m.timestamp then positionBlock ws m.timestamp m.localPos t nt
        else (t, nt)).2.lastPosMessage
        = (if nt.lastPosMessage ≤ m.timestamp then m.timestamp else nt.lastPosMessage) ∧
      (if nt.lastPosMessage ≤ m.timestamp then positionBlock ws m.timestamp m.localPos t nt
        else (t, nt)).2.lastRotMessage = nt.lastRotMessage ∧
      (if nt.lastPosMessage ≤ m.timestamp then positionBlock ws m.timestamp m.localPos t nt
        else (t, nt)).2.lastScaleMessage = nt.lastScaleMessage := by
    split
    · exact positionBlock_last _ _ _ _ _
    · exact ⟨rfl, rfl, rfl⟩
  generalize (if nt.lastPosMessage ≤ m.timestamp then
    positionBlock ws m.timestamp m.localPos t nt else (t, nt)) = P at hP ⊢
  obtain ⟨hP1, hP2, hP3⟩ := hP
  have hR : (if P.2.lastRotMessage ≤ m.timestamp then
        rotationBlock angleDeg m.timestamp m.localRot P.1 P.2 else (P.1, P.2)).2.lastPosMessage
        = P.2.lastPosMessage ∧
      (if P.2.lastRotMessage ≤ m.timestamp then
        rotationBlock angleDeg m.timestamp m.localRot P.1 P.2 else (P.1, P.2)).2.lastRotMessage
        = (if P.2.lastRotMessage ≤ m.timestamp then m.timestamp else P.2.lastRotMessage) ∧
      (if P.2.lastRotMessage ≤ m.timestamp then
        rotationBlock angleDeg m.timestamp m.localRot P.1 P.2 else (P.1, P.2)).2.lastScaleMessage
        = P.2.lastScaleMessage := by
    split
    · exact rotationBlock_last _ _ _ _ _
    · exact ⟨rfl, rfl, rfl⟩
  generalize (if P.2.lastRotMessage ≤ m.timestamp then
    rotationBlock angleDeg m.timestamp m.localRot P.1 P.2 else (P.1, P.2)) = R at hR ⊢
  obtain ⟨hR1, hR2, hR3⟩ := hR
  have hS : (if R.2.lastScaleMessage ≤ m.timestamp then
        scaleBlock m.timestamp m.localScale R.1 R.2 else (R.1, R.2)).2.lastPosMessage
        = R.2.lastPosMessage ∧
      (if R.2.lastScaleMessage ≤ m.timestamp then
        scaleBlock m.timestamp m.localScale R.1 R.2 else (R.1, R.2)).2.lastRotMessage
        = R.2.lastRotMessage ∧
      (if R.2.lastScaleMessage ≤ m.timestamp then
        scaleBlock m.timestamp m.localScale R.1 R.2 else (R.1, R.2)).2.lastScaleMessage
        = (if R.2.lastScaleMessage ≤ m.timestamp then m.timestamp else R.2.lastScaleMessage) := by
    split
    · exact scaleBlock_last _ _ _ _
    · exact ⟨rfl, rfl, rfl⟩
  obtain ⟨hS1, hS2, hS3⟩ := hS
  refine ⟨?_, ?_, ?_⟩
  · rw [hS1, hR1, hP1]
  · rw [hS2, hR2, hP2]
  · rw [hS3, hR3, hP3]

theorem accepts_iff (w : World) (e : EntityId) (ch : Channel) (m : ClientMessage)
    (nt : NetworkTransform) (hR : Receives w m.netId e nt) :
    accepts w e ch m ↔ m.carries ch = true ∧ nt.lastMessage ch ≤ m.timestamp := by
  constructor
  · rintro ⟨hc, nt1, hR1, hle⟩
    have : nt1 = nt := Option.some.inj (hR1.component.symm.trans hR.component)
    subst this
    exact ⟨hc, hle⟩
  · rintro ⟨hc, hle⟩
    exact ⟨hc, nt, hR, hle⟩

theorem clientCallback_last_receives (E : Engine) (w w1 : World) (m : ClientMessage)
    (e : EntityId) (nt : NetworkTransform) (hR : Receives w m.netId e nt)
    (h : clientCallback E w m = some w1) :
    ∃ nt1, (w1.entities e).networkTransform = some nt1 ∧
      ∀ ch, nt1.lastMessage ch =
        if m.carries ch = true ∧ nt.lastMessage ch ≤ m.timestamp then m.timestamp
        else nt.lastMessage ch := by
  cases m with
  | position pm =>
    have hR1 : Receives w pm.netId e nt := hR
    rw [show clientCallback E w (ClientMessage.position pm) = positionClientCallback E w pm
      from rfl, positionClientCallback_any E w pm e nt hR1] at h
    cases h
    refine ⟨_, by rw [setEntity_entities_same], ?_⟩
    intro ch
    by_cases hg : nt.lastPosMessage ≤ pm.timestamp <;> cases ch <;>
      simp [hg, ClientMessage.carries, ClientMessage.timestamp, NetworkTransform.lastMessage,
        positionBlock_last]
  | rotation rm =>
    have hR1 : Receives w rm.netId e nt := hR
    rw [show clientCallback E w (ClientMessage.rotation rm) = rotationClientCallback E w rm
      from rfl, rotationClientCallback_any E w rm e nt hR1] at h
    cases h
    refine ⟨_, by rw [setEntity_entities_same], ?_⟩
    intro ch
    by_cases hg : nt.lastRotMessage ≤ rm.timestamp <;> cases ch <;>
      simp [hg, ClientMessage.carries, ClientMessage.timestamp, NetworkTransform.lastMessage,
        rotationBlock_last]
  | scale sm =>
    have hR1 : Receives w sm.netId e nt := hR
    rw [show clientCallback E w (ClientMessage.scale sm) = scaleClientCallback w sm
      from rfl, scaleClientCallback_any w sm e nt hR1] at h
    cases h
    refine ⟨_, by rw [setEntity_entities_same], ?_⟩
    intro ch
    by_cases hg : nt.lastScaleMessage ≤ sm.timestamp <;> cases ch <;>
      simp [hg, ClientMessage.carries, ClientMessage.timestamp, NetworkTransform.lastMessage,
        scaleBlock_last]
  | transform tm =>
    have hR1 : Receives w tm.netId e nt := hR
    rw [show clientCallback E w (ClientMessage.transform tm) = transformClientCallback E w tm
      from rfl, transformClientCallback_receives E w tm e nt hR1] at h
    cases h
    refine ⟨_, by rw [setEntity_entities_same], ?_⟩
    intro ch
    cases hsnap : tm.snap <;> cases ch <;>
      simp [ClientMessage.carries, ClientMessage.timestamp, NetworkTransform.lastMessage,
        transformSnapBranch_last, transformBlendBranch_last]

theorem clientCallback_other (E : Engine) (w w1 : World) (m : ClientMessage) (e : EntityId)
    (h : clientCallback E w m = some w1) (hno : ∀ nt, ¬ Receives w m.netId e nt) :
    w1.entities e = w.entities e := by
  cases m with
  | position pm => exact positionClientCallback_other E w w1 pm e h hno
  | rotation rm => exact rotationClientCallback_other E w w1 rm e h hno
  | scale sm => exact scaleClientCallback_other w w1 sm e h hno
  | transform tm => exact transformClientCallback_other E w w1 tm e h hno

theorem clientCallback_last (E : Engine) (w w1 : World) (m : ClientMessage) (e : EntityId)
    (nt : NetworkTransform) (hnt : (w.entities e).networkTransform = some nt)
    (h : clientCallback E w m = some w1) :
    ∃ nt1, (w1.entities e).networkTransform = some nt1 ∧
      ∀ ch, (accepts w e ch m →
          nt1.lastMessage ch = m.timestamp ∧ nt.lastMessage ch ≤ m.timestamp) ∧
        (¬ accepts w e ch m → nt1.lastMessage ch = nt.lastMessage ch) := by
  by_cases hR : ∃ nt1, Receives w m.netId e nt1
  · obtain ⟨nt0, hR0⟩ := hR
    have : nt0 = nt := Option.some.inj (hR0.component.symm.trans hnt)
    subst this
    obtain ⟨nt1, hc1, hl⟩ := clientCallback_last_receives E w w1 m e nt0 hR0 h
    refine ⟨nt1, hc1, fun ch => ⟨fun hacc => ?_, fun hacc => ?_⟩⟩
    · have hcond := (accepts_iff w e ch m nt0 hR0).mp hacc
      rw [hl ch, if_pos hcond]
      exact ⟨rfl, hcond.2⟩
    · have hcond : ¬ (m.carries ch = true ∧ nt0.lastMessage ch ≤ m.timestamp) :=
        fun hc => hacc ((accepts_iff w e ch m nt0 hR0).mpr hc)
      rw [hl ch, if_neg hcond]
  · have hno : ∀ nt1, ¬ Receives w m.netId e nt1 := fun nt1 h1 => hR ⟨nt1, h1⟩
    have hsame := clientCallback_other E w w1 m e h hno
    refine ⟨nt, by rw [hsame]; exact hnt, fun ch => ⟨fun hacc => ?_, fun _ => rfl⟩⟩
    obtain ⟨_, nt1, hR1, _⟩ := hacc
    exact absurd hR1 (hno nt1)

theorem parentClientCallback_component (w w1 : World) (m : ParentMessage)
    (h : parentClientCallback w m = some w1) (e : EntityId) :
    (w1.entities e).networkTransform = (w.entities e).networkTransform := by
  have hset : ∀ (e1 : EntityId) (t : Transform),
      ((w.setEntity e1 { (w.entities e1) with transform := t }).entities e).networkTransform
        = (w.entities e).networkTransform := by
    intro e1 t
    by_cases he : e = e1
    · subst he
      rw [setEntity_entities_same]
    · rw [setEntity_entities_other _ _ _ _ he]
  unfold parentClientCallback at h
  split at h
  · cases h; rfl
  · split at h
    · cases h
    · dsimp only at h
      split at h
      · cases h
        exact hset _ _
      · split at h
        · cases h
        · cases h
          exact hset _ _

theorem Update_last (F : FrameEnv) (dt : ℚ) (t t1 : Transform) (nt nt1 : NetworkTransform)
    (h : nt.Update F dt t = some (t1, nt1)) (ch : Channel) :
    nt1.lastMessage ch = nt.lastMessage ch := by
  by_cases hb : nt.posInterpolation < 1 ∨ nt.rotInterpolation < 1 ∨ nt.scaleInterpolation < 1
  · cases hid : nt.netId with
    | none =>
      unfold NetworkTransform.Update at h
      rw [if_pos hb] at h
      simp only [hid] at h
      cases h
    | some netId =>
      rw [Update_blending F dt t nt netId hid hb] at h
      cases h
      cases ch <;> rfl
  · have hall : 1 ≤ nt.posInterpolation ∧ 1 ≤ nt.rotInterpolation ∧
        1 ≤ nt.scaleInterpolation :=
      ⟨not_lt.mp fun h => hb (Or.inl h), not_lt.mp fun h => hb (Or.inr (Or.inl h)),
       not_lt.mp fun h => hb (Or.inr (Or.inr h))⟩
    rw [Update_idle F dt t nt hall.1 hall.2.1 hall.2.2] at h
    cases h
    rfl

theorem sameReceiverFields.last {a b : NetworkTransform} (h : sameReceiverFields a b)
    (ch : Channel) : a.lastMessage ch = b.lastMessage ch := by
  obtain ⟨_, _, _, hp, _, _, hr, _, _, hs⟩ := h
  cases ch
  · exact hp
  · exact hr
  · exact hs

theorem World.Update_last_kept (F : FrameEnv) (dt : ℚ) (w w1 : World) (self e : EntityId)
    (nt : NetworkTransform) (hnt : (w.entities e).networkTransform = some nt)
    (h : w.Update F dt self = some w1) :
    ∃ nt1, (w1.entities e).networkTransform = some nt1 ∧
      ∀ ch, nt1.lastMessage ch = nt.lastMessage ch := by
  by_cases he : e = self
  · subst he
    rw [World.Update_unfold F dt w e nt hnt] at h
    cases hU : nt.Update F dt (w.entities e).transform with
    | none => rw [hU] at h; cases h
    | some r =>
      obtain ⟨t1, nt1⟩ := r
      rw [hU, Option.map_some'] at h
      cases h
      exact ⟨nt1, by rw [setEntity_entities_same], Isetta.Update_last F dt _ t1 nt nt1 hU⟩
  · unfold World.Update at h
    dsimp only at h
    split at h
    · cases h; exact ⟨nt, hnt, fun _ => rfl⟩
    · split at h
      · cases h
      · cases h
        exact ⟨nt, by rw [setEntity_entities_other _ _ _ _ he]; exact hnt, fun _ => rfl⟩

theorem World.FixedUpdate_last_kept (E : Engine) (elapsed : ℚ) (w w1 : World)
    (self e : EntityId) (out : List Outbound) (nt : NetworkTransform)
    (hnt : (w.entities e).networkTransform = some nt)
    (h : w.FixedUpdate E elapsed self = some (w1, out)) :
    ∃ nt1, (w1.entities e).networkTransform = some nt1 ∧
      ∀ ch, nt1.lastMessage ch = nt.lastMessage ch := by
  by_cases he : e = self
  · subst he
    rw [World.FixedUpdate_unfold E elapsed w e nt hnt] at h
    cases hU : nt.FixedUpdate ((w.entities e).transform.parent.map (E.GetWorldScale w))
        E.AngleDeg elapsed (w.entities e).transform with
    | none => rw [hU] at h; cases h
    | some r =>
      obtain ⟨nt1, out1⟩ := r
      rw [hU, Option.map_some'] at h
      cases h
      exact ⟨nt1, by rw [setEntity_entities_same],
        (FixedUpdate_frame _ _ _ _ nt nt1 out1 hU).last⟩
  · unfold World.FixedUpdate at h
    dsimp only at h
    split at h
    · cases h; exact ⟨nt, hnt, fun _ => rfl⟩
    · split at h
      · cases h
      · cases h
        exact ⟨nt, by rw [setEntity_entities_other _ _ _ _ he]; exact hnt, fun _ => rfl⟩

theorem World.SnapLocalTransform_last_kept (w : World) (self e : EntityId)
    (nt : NetworkTransform) (hnt : (w.entities e).networkTransform = some nt) :
    ∃ nt1, ((w.SnapLocalTransform self).entities e).networkTransform = some nt1 ∧
      ∀ ch, nt1.lastMessage ch = nt.lastMessage ch := by
  unfold World.SnapLocalTransform
  dsimp only
  by_cases he : e = self
  · subst he
    simp only [hnt]
    refine ⟨_, by rw [setEntity_entities_same], ?_⟩
    intro ch
    cases ch <;> rfl
  · split
    · exact ⟨nt, hnt, fun _ => rfl⟩
    · exact ⟨nt, by rw [setEntity_entities_other _ _ _ _ he]; exact hnt, fun _ => rfl⟩

theorem step_last (E : Engine) (F : FrameEnv) (w w1 : World) (ev : Event) (e : EntityId)
    (nt : NetworkTransform) (hnt : (w.entities e).networkTransform = some nt)
    (h : step E F w ev = some w1) :
    ∃ nt1, (w1.entities e).networkTransform = some nt1 ∧
      ∀ ch, (∀ m, ev = Event.message m → accepts w e ch m →
          nt1.lastMessage ch = m.timestamp ∧ nt.lastMessage ch ≤ m.timestamp) ∧
        ((∀ m, ev = Event.message m → ¬ accepts w e ch m) →
          nt1.lastMessage ch = nt.lastMessage ch) := by
  have hkept : (∃ nt1, (w1.entities e).networkTransform = some nt1 ∧
      ∀ ch, nt1.lastMessage ch = nt.lastMessage ch) → (∀ m, ev ≠ Event.message m) →
      ∃ nt1, (w1.entities e).networkTransform = some nt1 ∧
      ∀ ch, (∀ m, ev = Event.message m → accepts w e ch m →
          nt1.lastMessage ch = m.timestamp ∧ nt.lastMessage ch ≤ m.timestamp) ∧
        ((∀ m, ev = Event.message m → ¬ accepts w e ch m) →
          nt1.lastMessage ch = nt.lastMessage ch) := by
    rintro ⟨nt1, hc, hl⟩ hne
    exact ⟨nt1, hc, fun ch => ⟨fun m hm _ => absurd hm (hne m), fun _ => hl ch⟩⟩
  cases ev with
  | message m =>
    obtain ⟨nt1, hc, hl⟩ := clientCallback_last E w w1 m e nt hnt h
    refine ⟨nt1, hc, fun ch => ⟨fun m1 hm hacc => ?_, fun hno => ?_⟩⟩
    · cases hm
      exact (hl ch).1 hacc
    · exact (hl ch).2 (hno m rfl)
  | parentMessage m =>
    refine hkept ⟨nt, ?_, fun _ => rfl⟩ (fun m1 hm => by cases hm)
    rw [parentClientCallback_component w w1 m h e]
    exact hnt
  | update self dt =>
    exact hkept (World.Update_last_kept F dt w w1 self e nt hnt h) (fun m1 hm => by cases hm)
  | fixedUpdate self elapsed =>
    have hFU : ∃ out, w.FixedUpdate E elapsed self = some (w1, out) := by
      simp only [step] at h
      split at h
      · cases h
      · rename_i w2 out hw
        cases h
        exact ⟨out, hw⟩
    obtain ⟨out, hFU⟩ := hFU
    exact hkept (World.FixedUpdate_last_kept E elapsed w w1 self e out nt hnt hFU)
      (fun m1 hm => by cases hm)
  | snapLocalTransform self =>
    simp only [step] at h
    cases h
    exact hkept (World.SnapLocalTransform_last_kept w self e nt hnt) (fun m1 hm => by cases hm)

theorem run_last_aux (E : Engine) (F : FrameEnv) (e : EntityId) :
    ∀ (evs : List Event) (w w1 : World) (nt : NetworkTransform),
      run E F w evs = some w1 → (w.entities e).networkTransform = some nt →
      ∃ nt1, (w1.entities e).networkTransform = some nt1 ∧
        ∀ ch, nt.lastMessage ch ≤ nt1.lastMessage ch ∧
          (∃ A, AcceptedAlong E F e ch w evs A) ∧
          ∀ A, AcceptedAlong E F e ch w evs A →
            (∀ t ∈ A, t ≤ nt1.lastMessage ch) ∧
            (A ≠ [] → nt1.lastMessage ch ∈ A) ∧
            (A = [] → nt1.lastMessage ch = nt.lastMessage ch) := by
  intro evs
  induction evs with
  | nil =>
    intro w w1 nt hrun hnt
    cases hrun
    refine ⟨nt, hnt, fun ch => ⟨le_refl _, ⟨[], AcceptedAlong.nil w⟩, ?_⟩⟩
    intro A hA
    cases hA
    exact ⟨fun t ht => absurd ht (List.not_mem_nil t), fun h => absurd rfl h, fun _ => rfl⟩
  | cons ev evs ih =>
    intro w w1 nt hrun hnt
    cases hstep : step E F w ev with
    | none =>
      simp only [run, hstep] at hrun
      cases hrun
    | some wm =>
      simp only [run, hstep] at hrun
      obtain ⟨ntm, hcm, hm⟩ := step_last E F w wm ev e nt hnt hstep
      obtain ⟨nt1, hc1, h1⟩ := ih wm w1 ntm hrun hcm
      refine ⟨nt1, hc1, fun ch => ?_⟩
      obtain ⟨hle, ⟨A0, hA0⟩, hprops⟩ := h1 ch
      have hmid : nt.lastMessage ch ≤ ntm.lastMessage ch := by
        by_cases hacc : ∃ m, ev = Event.message m ∧ accepts w e ch m
        · obtain ⟨m, hev, ha⟩ := hacc
          obtain ⟨h2, h3⟩ := (hm ch).1 m hev ha
          rw [h2]
          exact h3
        · have hno : ∀ m, ev = Event.message m → ¬ accepts w e ch m :=
            fun m hev ha => hacc ⟨m, hev, ha⟩
          rw [(hm ch).2 hno]
      refine ⟨le_trans hmid hle, ?_, ?_⟩
      · by_cases hacc : ∃ m, ev = Event.message m ∧ accepts w e ch m
        · obtain ⟨m, hev, ha⟩ := hacc
          subst hev
          exact ⟨m.timestamp :: A0, AcceptedAlong.accepted w wm m evs A0 ha hstep hA0⟩
        · have hno : ∀ m, ev = Event.message m → ¬ accepts w e ch m :=
            fun m hev ha => hacc ⟨m, hev, ha⟩
          exact ⟨A0, AcceptedAlong.other w wm ev evs A0 hno hstep hA0⟩
      · intro A hA
        cases hA with
        | accepted _ w2 m _ A1 ha hstep2 hrest =>
          rw [hstep] at hstep2
          cases hstep2
          obtain ⟨p1, p2, p3⟩ := hprops A1 hrest
          obtain ⟨h2, _⟩ := (hm ch).1 m rfl ha
          refine ⟨?_, ?_, fun h => absurd h (List.cons_ne_nil _ _)⟩
          · intro t ht
            rcases List.mem_cons.mp ht with ht | ht
            · rw [ht, ← h2]
              exact hle
            · exact p1 t ht
          · intro _
            by_cases hA1 : A1 = []
            · rw [p3 hA1, h2]
              exact List.mem_cons_self _ _
            · exact List.mem_cons_of_mem _ (p2 hA1)
        | other _ w2 _ _ _ hno hstep2 hrest =>
          rw [hstep] at hstep2
          cases hstep2
          obtain ⟨p1, p2, p3⟩ := hprops A hrest
          exact ⟨p1, p2, fun h => by rw [p3 h, (hm ch).2 hno]⟩

/-- Applied timestamps that are numbers never go backwards: for every channel of the
component of an entity and every history of Position, Rotation, Scale, Transform and
Parent messages with timestamps that are numbers, Update ticks, FixedUpdate steps and
SnapLocalTransform calls that runs without fault, starting from last-message
timestamps that are numbers, the component is still attached, the channel's
last-message timestamp
after the history is at least what it was before, every timestamp accepted on the
channel along the history is at most the final last-message timestamp, and when at
least one message was accepted the final last-message timestamp is one of the accepted
timestamps (hence their maximum); when none was accepted it is unchanged. -/
theorem timestamps_never_go_back (E : Engine) (F : FrameEnv) (e : EntityId)
    (evs : List Event) (w w1 : World) (nt : NetworkTransform)
    (hrun : run E F w evs = some w1) (hnt : (w.entities e).networkTransform = some nt) :
    ∃ nt1, (w1.entities e).networkTransform = some nt1 ∧
      ∀ ch, nt.lastMessage ch ≤ nt1.lastMessage ch ∧
        (∃ A, AcceptedAlong E F e ch w evs A) ∧
        ∀ A, AcceptedAlong E F e ch w evs A →
          (∀ t ∈ A, t ≤ nt1.lastMessage ch) ∧
          (A ≠ [] → nt1.lastMessage ch ∈ A) ∧
          (A = [] → nt1.lastMessage ch = nt.lastMessage ch) :=
  run_last_aux E F e evs w w1 nt hrun hnt

/-- An instance: the history of the counter-trace of C28 on the started concrete peer
runs without fault; the last-message timestamps of entity 0 did not go back. -/
theorem timestamps_never_go_back_witness :
    ∃ w3, run demoGentleEngine demoFrameEnv demoWorld demoDisturbingHistory = some w3 ∧
      ∃ nt1, (w3.entities 0).networkTransform = some nt1 ∧
        ∀ ch, demoNT.lastMessage ch ≤ nt1.lastMessage ch :=
  match finished_channel_trace_runs with
  | ⟨w3, hrun⟩ =>
    ⟨w3, hrun,
     (timestamps_never_go_back demoGentleEngine demoFrameEnv 0 demoDisturbingHistory
        demoWorld w3 demoNT hrun rfl).imp fun _ h => ⟨h.1, fun ch => (h.2 ch).1⟩⟩

/-! ## Timestamps that are NaN -/

namespace FloatTimestamp

/-- C11 (combined message equals the three single messages), the code at a failing
input.  On the started peer identity 7 resolves, without authority, to entity 0,
which carries the component with the three last-message timestamps 0.  The
Transform message {snap = false, timestamp = NaN, (1/2,0,0), `demoTurn`, (3/2,1,1)}
returns with the transform and the component of the entity as they were: each of
the tests `timestamp >= last*Message` (lines 225, 242, 258) is false.  The Position,
Rotation and Scale messages with the same timestamp and values are all three
applied, since each of the tests `timestamp < last*Message` (lines 40, 91, 140) is
false as well: every target is the value of the message, the rotation is snapped
into the store, and the three last-message timestamps are NaN.  The two end states
differ. -/
theorem nan_timestamp_splits_combined_from_singles :
    demoWorld.GetNetworkId 7 = some (demoNetId 7 false 0) ∧
    (demoWorld.entities 0).transform = demoTransform ∧
    (demoWorld.entities 0).networkTransform = some demoNT ∧
    demoNT.lastPosMessage = Timestamp.num 0 ∧ demoNT.lastRotMessage = Timestamp.num 0 ∧
    demoNT.lastScaleMessage = Timestamp.num 0 ∧
    Timestamp.ge Timestamp.nan (Timestamp.num 0) = false ∧
    Timestamp.lt Timestamp.nan (Timestamp.num 0) = false ∧
    entityAfter
        (transformClientCallback demoEngine demoWorld (demoTransformMessage Timestamp.nan)) 0
      = some (demoTransform, demoNT) ∧
    entityAfter
        (deliver demoEngine demoWorld (singles (demoTransformMessage Timestamp.nan))) 0
      = some ({ demoTransform with localRot := demoTurn },
          { demoNT with
            targetPos := ⟨1 / 2, 0, 0⟩, posInterpolation := 0,
            lastPosMessage := Timestamp.nan,
            targetRot := demoTurn, prevRot := demoTurn, rotInterpolation := 1,
            lastRotMessage := Timestamp.nan,
            targetScale := ⟨3 / 2, 1, 1⟩, scaleInterpolation := 0,
            lastScaleMessage := Timestamp.nan }) ∧
    entityAfter
        (transformClientCallback demoEngine demoWorld (demoTransformMessage Timestamp.nan)) 0
      ≠ entityAfter
        (deliver demoEngine demoWorld (singles (demoTransformMessage Timestamp.nan))) 0 := by
  have hsingles : entityAfter
        (deliver demoEngine demoWorld (singles (demoTransformMessage Timestamp.nan))) 0
      = some ({ demoTransform with localRot := demoTurn },
          { demoNT with
            targetPos := ⟨1 / 2, 0, 0⟩, posInterpolation := 0,
            lastPosMessage := Timestamp.nan,
            targetRot := demoTurn, prevRot := demoTurn, rotInterpolation := 1,
            lastRotMessage := Timestamp.nan,
            targetScale := ⟨3 / 2, 1, 1⟩, scaleInterpolation := 0,
            lastScaleMessage := Timestamp.nan }) := by
    simp [entityAfter, deliver, singles, clientCallback, positionClientCallback,
      rotationClientCallback, scaleClientCallback, demoWorld, demoEngine,
      demoTransformMessage, Timestamp.lt, demoNetId, World.setEntity, positionBlock,
      rotationBlock, scaleBlock, demoNT, NetworkTransform.Start, demoRawNT, demoEntity0,
      demoTransform, demoTurn, Vector3.Scale, Vector3.sub, Vector3.SqrMagnitude,
      Vector3.one, Vector3.zero, Quaternion.identity, Transform.GetLocalPos,
      Transform.GetLocalRot, Transform.GetLocalScale, Transform.SetLocalPos,
      Transform.SetLocalRot, Transform.SetLocalScale]
    norm_num
  refine ⟨rfl, rfl, rfl, rfl, rfl, rfl, rfl, rfl, rfl, hsingles, ?_⟩
  rw [hsingles]
  intro h
  have h1 := congrArg (fun r => r.map fun p => p.2.lastPosMessage) h
  exact absurd h1 (by decide)

/-- C29 (applied timestamps never go backwards), the code at a failing input.  On
the started peer the Position message {timestamp = 10, (1/4,0,0)} is applied and
leaves the last position timestamp 10; the Position message {timestamp = 1,
(3/4,0,0)} that arrives next is dropped.  When the Position message
{timestamp = NaN, (1/2,0,0)} arrives in between, it passes the test
`timestamp < lastPosMessage` (line 40), is applied, and line 58 stores NaN as the
last position timestamp; the message with timestamp 1 then passes the same test and
is applied: the last position timestamp goes 10, NaN, 1, and the target of the
channel is the value (3/4,0,0) of the message that is older than the one applied
first. -/
theorem nan_timestamp_lets_older_message_in :
    Timestamp.lt Timestamp.nan (Timestamp.num 10) = false ∧
    Timestamp.lt (Timestamp.num 1) Timestamp.nan = false ∧
    Timestamp.lt (Timestamp.num 1) (Timestamp.num 10) = true ∧
    posChannelAfter (some demoWorld) 0 = some (Timestamp.num 0, ⟨0, 0, 0⟩) ∧
    posChannelAfter (deliver demoEngine demoWorld
        [ClientMessage.position (demoPositionMessage (Timestamp.num 10) (1 / 4))]) 0
      = some (Timestamp.num 10, ⟨1 / 4, 0, 0⟩) ∧
    posChannelAfter (deliver demoEngine demoWorld
        [ClientMessage.position (demoPositionMessage (Timestamp.num 10) (1 / 4)),
         ClientMessage.position (demoPositionMessage (Timestamp.num 1) (3 / 4))]) 0
      = some (Timestamp.num 10, ⟨1 / 4, 0, 0⟩) ∧
    posChannelAfter (deliver demoEngine demoWorld
        [ClientMessage.position (demoPositionMessage (Timestamp.num 10) (1 / 4)),
         ClientMessage.position (demoPositionMessage Timestamp.nan (1 / 2))]) 0
      = some (Timestamp.nan, ⟨1 / 2, 0, 0⟩) ∧
    posChannelAfter (deliver demoEngine demoWorld
        [ClientMessage.position (demoPositionMessage (Timestamp.num 10) (1 / 4)),
         ClientMessage.position (demoPositionMessage Timestamp.nan (1 / 2)),
         ClientMessage.position (demoPositionMessage (Timestamp.num 1) (3 / 4))]) 0
      = some (Timestamp.num 1, ⟨3 / 4, 0, 0⟩) := by
  refine ⟨rfl, rfl, ?_, rfl, ?_, ?_, ?_, ?_⟩
  · simp [Timestamp.lt]
  all_goals
    simp [posChannelAfter, deliver, clientCallback, positionClientCallback, demoWorld,
      demoEngine, demoPositionMessage, Timestamp.lt, demoNetId, World.setEntity,
      positionBlock, demoNT, NetworkTransform.Start, demoRawNT, demoEntity0, demoTransform,
      Vector3.Scale, Vector3.sub, Vector3.SqrMagnitude, Vector3.one, Vector3.zero,
      Transform.GetLocalPos, Transform.SetLocalPos]
    try norm_num

end FloatTimestamp

/-! ## Relay of the combined and the Parent message -/

theorem serverRun_append (s : ServerState) (a b : List (Int × Outbound)) :
    serverRun s (a ++ b) =
      ((serverRun (serverRun s a).1 b).1,
       (serverRun s a).2 ++ (serverRun (serverRun s a).1 b).2) := by
  induction a generalizing s with
  | nil => simp [serverRun]
  | cons x rest ih =>
    obtain ⟨c, m⟩ := x
    rw [List.cons_append]
    simp only [serverRun]
    rw [ih, List.append_assoc]

/-- C31 (combined and Parent messages bypass relay dedup): after any history of
messages, from any relay state, a Transform message is relayed to all peers and a
Parent message to all peers except the sending client, whatever its timestamp, and
the relay state after it is the relay state before it; the handlers' results do not
depend on the relay state and the handlers return the state they got.  In particular
a Transform message older than a Position message for the same id that was just
relayed is still relayed. -/
theorem transform_and_parent_bypass_dedup (s : ServerState) (history : List (Int × Outbound))
    (clientIdx : Int) (tm : TransformMessage) (pm : ParentMessage) :
    serverRun s (history ++ [(clientIdx, Outbound.transform tm)]) =
      ((serverRun s history).1,
       (serverRun s history).2 ++ [Relayed.toAll (Outbound.transform tm)]) ∧
    serverRun s (history ++ [(clientIdx, Outbound.parent pm)]) =
      ((serverRun s history).1,
       (serverRun s history).2 ++ [Relayed.toAllButClient clientIdx (Outbound.parent pm)]) ∧
    (∀ s1 : ServerState,
      (transformServerCallback s1 clientIdx tm).1 = s1 ∧
      (transformServerCallback s1 clientIdx tm).2 = (transformServerCallback s clientIdx tm).2 ∧
      (parentServerCallback s1 clientIdx pm).1 = s1 ∧
      (parentServerCallback s1 clientIdx pm).2 = (parentServerCallback s clientIdx pm).2) ∧
    (∀ (c1 : Int) (m : PositionMessage), m.netId = tm.netId → tm.timestamp < m.timestamp →
      s.serverScaleTimestamps m.netId ≤ m.timestamp →
      (serverRun s [(c1, Outbound.position m), (clientIdx, Outbound.transform tm)]).2 =
        [Relayed.toAll (Outbound.position m), Relayed.toAll (Outbound.transform tm)]) := by
  refine ⟨?_, ?_, ?_, ?_⟩
  · rw [serverRun_append]
    simp [serverRun, serverCallback, transformServerCallback]
  · rw [serverRun_append]
    simp [serverRun, serverCallback, parentServerCallback]
  · intro s1
    exact ⟨rfl, rfl, rfl, rfl⟩
  · intro c1 m _ _ hrel
    simp [serverRun, serverCallback, transformServerCallback, positionServerCallback, hrel]

/-- Witness for C31: on the empty relay state the Position message {id 7, ts=10} of
client 1 is relayed, and the Transform message {id 7, ts=5} that client 2 sends after
it is relayed as well. -/
theorem transform_and_parent_bypass_dedup_witness :
    (serverRun ServerState.initial
        [(1, Outbound.position (demoPositionMessage 10)),
         (2, Outbound.transform (demoSnapMessage 5))]).2 =
      [Relayed.toAll (Outbound.position (demoPositionMessage 10)),
       Relayed.toAll (Outbound.transform (demoSnapMessage 5))] :=
  (transform_and_parent_bypass_dedup ServerState.initial [] 2 (demoSnapMessage 5)
      { netId := 7, parentNetId := 0 }).2.2.2 1 (demoPositionMessage 10) rfl
    (by norm_num [demoSnapMessage, demoPositionMessage])
    (by norm_num [ServerState.initial, demoPositionMessage])

/-! ## Snapping to the targets -/

theorem World.SnapLocalTransform_unfold (w : World) (self : EntityId) (nt : NetworkTransform)
    (hnt : (w.entities self).networkTransform = some nt) :
    w.SnapLocalTransform self =
      w.setEntity self
        { (w.entities self) with
          transform := (nt.SnapLocalTransform (w.entities self).transform).1
          networkTransform := some (nt.SnapLocalTransform (w.entities self).transform).2 } := by
  unfold World.SnapLocalTransform
  simp only [hnt]

/-- C32 (SnapLocalTransform post-state and idempotence): after SnapLocalTransform the
store's position, rotation and scale equal targetPos, targetRot and targetScale (the
parent link is kept), previous equals target on every channel, every progress is 1,
and the targets, the last-message timestamps and updateCounter are unchanged; a second
call returns the same transform and component, and a following Update tick with any
frame delta returns them unchanged; the same holds for the whole peer. -/
theorem snap_local_transform_idempotent (F : FrameEnv) (dt : ℚ) (t : Transform)
    (nt : NetworkTransform) (w : World) (self : EntityId) :
    ((nt.SnapLocalTransform t).1.GetLocalPos = nt.targetPos ∧
     (nt.SnapLocalTransform t).1.GetLocalRot = nt.targetRot ∧
     (nt.SnapLocalTransform t).1.GetLocalScale = nt.targetScale ∧
     (nt.SnapLocalTransform t).1.parent = t.parent) ∧
    ((nt.SnapLocalTransform t).2.prevPos = nt.targetPos ∧
     (nt.SnapLocalTransform t).2.prevRot = nt.targetRot ∧
     (nt.SnapLocalTransform t).2.prevScale = nt.targetScale) ∧
    ((nt.SnapLocalTransform t).2.posInterpolation = 1 ∧
     (nt.SnapLocalTransform t).2.rotInterpolation = 1 ∧
     (nt.SnapLocalTransform t).2.scaleInterpolation = 1) ∧
    ((nt.SnapLocalTransform t).2.targetPos = nt.targetPos ∧
     (nt.SnapLocalTransform t).2.targetRot = nt.targetRot ∧
     (nt.SnapLocalTransform t).2.targetScale = nt.targetScale ∧
     (nt.SnapLocalTransform t).2.lastPosMessage = nt.lastPosMessage ∧
     (nt.SnapLocalTransform t).2.lastRotMessage = nt.lastRotMessage ∧
     (nt.SnapLocalTransform t).2.lastScaleMessage = nt.lastScaleMessage ∧
     (nt.SnapLocalTransform t).2.updateCounter = nt.updateCounter) ∧
    (nt.SnapLocalTransform t).2.SnapLocalTransform (nt.SnapLocalTransform t).1 =
      nt.SnapLocalTransform t ∧
    (nt.SnapLocalTransform t).2.Update F dt (nt.SnapLocalTransform t).1 =
      some (nt.SnapLocalTransform t) ∧
    (w.SnapLocalTransform self).SnapLocalTransform self = w.SnapLocalTransform self ∧
    (w.SnapLocalTransform self).Update F dt self = some (w.SnapLocalTransform self) := by
  refine ⟨⟨rfl, rfl, rfl, rfl⟩, ⟨rfl, rfl, rfl⟩, ⟨rfl, rfl, rfl⟩,
    ⟨rfl, rfl, rfl, rfl, rfl, rfl, rfl⟩, rfl, ?_, ?_, ?_⟩
  · exact Update_idle F dt _ _ (le_of_eq rfl) (le_of_eq rfl) (le_of_eq rfl)
  · cases hnt : (w.entities self).networkTransform with
    | none =>
      have h : w.SnapLocalTransform self = w := by
        unfold World.SnapLocalTransform
        simp only [hnt]
      rw [h, h]
    | some nt0 =>
      rw [World.SnapLocalTransform_unfold w self nt0 hnt]
      rw [World.SnapLocalTransform_unfold _ self
        (nt0.SnapLocalTransform (w.entities self).transform).2
        (by rw [setEntity_entities_same])]
      rw [setEntity_setEntity]
      simp only [setEntity_entities_same]
      rfl
  · cases hnt : (w.entities self).networkTransform with
    | none =>
      have h : w.SnapLocalTransform self = w := by
        unfold World.SnapLocalTransform
        simp only [hnt]
      rw [h]
      unfold World.Update
      simp only [hnt]
    | some nt0 =>
      rw [World.SnapLocalTransform_unfold w self nt0 hnt]
      exact World.Update_keeps_idle_peer F dt _ self
        (nt0.SnapLocalTransform (w.entities self).transform).2
        (by rw [setEntity_entities_same]) (le_of_eq rfl) (le_of_eq rfl) (le_of_eq rfl)

/-! ## Slots, blocks and the loops over them -/

theorem Block.write_of_lt {T : Type} (b : Block T) (i : Nat) (v : Option T)
    (h : i < b.length) : Block.write b i v = some (b.set i v) := by
  unfold Block.write
  rw [if_pos h]

theorem Block.write_some {T : Type} {b r : Block T} {i : Nat} {v : Option T}
    (h : Block.write b i v = some r) : i < b.length ∧ r = b.set i v := by
  unfold Block.write at h
  split at h
  · exact ⟨‹_›, (Option.some.inj h).symm⟩
  · cases h

theorem Block.write_length {T : Type} {b r : Block T} {i : Nat} {v : Option T}
    (h : Block.write b i v = some r) : r.length = b.length := by
  rw [(Block.write_some h).2, List.length_set]

theorem Block.read_of_lt {T : Type} (b : Block T) (i : Nat) (h : i < b.length) :
    Block.read b i = some b[i] := by
  unfold Block.read
  exact List.getElem?_eq_getElem h

theorem NewArrOnFreeList_length (T : Type) (n : Nat) : (NewArrOnFreeList T n).length = n := by
  simp [NewArrOnFreeList]

theorem NewArrOnFreeList_slot (T : Type) (n j : Nat) :
    (NewArrOnFreeList T n)[j]? = if j < n then some none else none := by
  simp [NewArrOnFreeList, List.getElem?_replicate]

theorem stepsUp_of_le {it last : Nat} (h : it ≤ last) : stepsUp it last = some (last - it) := by
  unfold stepsUp
  rw [if_pos h]

theorem stepsUp_some {it last n : Nat} (h : stepsUp it last = some n) :
    it ≤ last ∧ n = last - it := by
  unfold stepsUp at h
  split at h
  · exact ⟨‹_›, (Option.some.inj h).symm⟩
  · cases h

theorem stepsDown_of_le {it last : Nat} (h : last ≤ it) :
    stepsDown it last = some (it - last) := by
  unfold stepsDown
  rw [if_pos h]

theorem stepsDown_some {it last n : Nat} (h : stepsDown it last = some n) :
    last ≤ it ∧ n = it - last := by
  unfold stepsDown at h
  split at h
  · exact ⟨‹_›, (Option.some.inj h).symm⟩
  · cases h

theorem Block.copyRun_length {T : Type} (src : Block T) :
    ∀ (k : Nat) (dst r : Block T) (s d : Nat),
      Block.copyRun src dst s d k = some r → r.length = dst.length := by
  intro k
  induction k with
  | zero =>
    intro dst r s d h
    simp only [Block.copyRun] at h
    rw [← Option.some.inj h]
  | succ k ih =>
    intro dst r s d h
    simp only [Block.copyRun] at h
    split at h
    · cases h
    · split at h
      · cases h
      · rename_i hw
        rw [ih _ _ _ _ h, Block.write_length hw]

theorem Block.copyRun_spec {T : Type} (src : Block T) :
    ∀ (k : Nat) (dst : Block T) (s d : Nat),
      s + k ≤ src.length → d + k ≤ dst.length →
      ∃ r, Block.copyRun src dst s d k = some r ∧ r.length = dst.length ∧
        ∀ j, r[j]? = if d ≤ j ∧ j < d + k then src[s + (j - d)]? else dst[j]? := by
  intro k
  induction k with
  | zero =>
    intro dst s d _ _
    refine ⟨dst, rfl, rfl, ?_⟩
    intro j
    rw [if_neg]
    omega
  | succ k ih =>
    intro dst s d hs hd
    have hs1 : s < src.length := by omega
    have hd1 : d < dst.length := by omega
    obtain ⟨r, hr, hlen, hget⟩ := ih (dst.set d src[s]) (s + 1) (d + 1) (by omega)
      (by rw [List.length_set]; omega)
    refine ⟨r, ?_, ?_, ?_⟩
    · simp only [Block.copyRun, Block.read_of_lt src s hs1, Block.write_of_lt dst d _ hd1]
      exact hr
    · rw [hlen, List.length_set]
    · intro j
      rw [hget j, List.getElem?_set]
      by_cases hj : j = d
      · subst hj
        rw [if_neg (by omega), if_pos rfl, if_pos hd1, if_pos (by omega)]
        simp only [Nat.sub_self, Nat.add_zero]
        exact (List.getElem?_eq_getElem hs1).symm
      · by_cases hin : d + 1 ≤ j ∧ j < d + 1 + k
        · rw [if_pos hin, if_pos (by omega)]
          congr 1
          omega
        · rw [if_neg hin, if_neg (fun h => hj h.symm), if_neg (by omega)]

theorem Block.moveRun_length {T : Type} :
    ∀ (k : Nat) (b r : Block T) (s d : Nat),
      Block.moveRun b s d k = some r → r.length = b.length := by
  intro k
  induction k with
  | zero =>
    intro b r s d h
    simp only [Block.moveRun] at h
    rw [← Option.some.inj h]
  | succ k ih =>
    intro b r s d h
    simp only [Block.moveRun] at h
    split at h
    · cases h
    · split at h
      · cases h
      · rename_i hw
        rw [ih _ _ _ _ h, Block.write_length hw]

theorem Block.moveRun_spec {T : Type} :
    ∀ (k : Nat) (b : Block T) (s d : Nat),
      d ≤ s → s + k ≤ b.length →
      ∃ r, Block.moveRun b s d k = some r ∧ r.length = b.length ∧
        ∀ j, r[j]? = if d ≤ j ∧ j < d + k then b[s + (j - d)]? else b[j]? := by
  intro k
  induction k with
  | zero =>
    intro b s d _ _
    refine ⟨b, rfl, rfl, ?_⟩
    intro j
    rw [if_neg]
    omega
  | succ k ih =>
    intro b s d hds hs
    have hs1 : s < b.length := by omega
    have hd1 : d < b.length := by omega
    obtain ⟨r, hr, hlen, hget⟩ := ih (b.set d b[s]) (s + 1) (d + 1) (by omega)
      (by rw [List.length_set]; omega)
    refine ⟨r, ?_, ?_, ?_⟩
    · simp only [Block.moveRun, Block.read_of_lt b s hs1, Block.write_of_lt b d _ hd1]
      exact hr
    · rw [hlen, List.length_set]
    · intro j
      rw [hget j]
      by_cases hj : j = d
      · subst hj
        rw [if_neg (by omega), if_pos (by omega), List.getElem?_set, if_pos rfl, if_pos hd1]
        simp only [Nat.sub_self, Nat.add_zero]
        exact (List.getElem?_eq_getElem hs1).symm
      · by_cases hin : d + 1 ≤ j ∧ j < d + 1 + k
        · rw [if_pos hin, if_pos (by omega), List.getElem?_set, if_neg (by omega)]
          congr 1
          omega
        · rw [if_neg hin, if_neg (by omega), List.getElem?_set, if_neg (fun h => hj h.symm)]

theorem Block.shiftRun_length {T : Type} :
    ∀ (k : Nat) (b r : Block T) (it : Nat),
      Block.shiftRun b it k = some r → r.length = b.length := by
  intro k
  induction k with
  | zero =>
    intro b r it h
    simp only [Block.shiftRun] at h
    rw [← Option.some.inj h]
  | succ k ih =>
    intro b r it h
    simp only [Block.shiftRun] at h
    split at h
    · cases h
    · split at h
      · cases h
      · split at h
        · cases h
        · rename_i hw
          rw [ih _ _ _ h, Block.write_length hw]

theorem Block.shiftRun_spec {T : Type} :
    ∀ (k : Nat) (b : Block T) (it : Nat),
      k ≤ it → (0 < k → it < b.length) →
      ∃ r, Block.shiftRun b it k = some r ∧ r.length = b.length ∧
        ∀ j, r[j]? = if it - k < j ∧ j ≤ it then b[j - 1]? else b[j]? := by
  intro k
  induction k with
  | zero =>
    intro b it _ _
    refine ⟨b, rfl, rfl, ?_⟩
    intro j
    rw [if_neg]
    omega
  | succ k ih =>
    intro b it hk hlt
    have hit : it < b.length := hlt (Nat.succ_pos k)
    have hpos : it ≠ 0 := by omega
    have hprev : it - 1 < b.length := by omega
    obtain ⟨r, hr, hlen, hget⟩ := ih (b.set it b[it - 1]) (it - 1) (by omega)
      (by intro _; rw [List.length_set]; omega)
    refine ⟨r, ?_, ?_, ?_⟩
    · simp only [Block.shiftRun, if_neg hpos, Block.read_of_lt b (it - 1) hprev,
        Block.write_of_lt b it _ hit]
      exact hr
    · rw [hlen, List.length_set]
    · intro j
      rw [hget j]
      by_cases hj : j = it
      · subst hj
        rw [if_neg (by omega), if_pos (by omega), List.getElem?_set, if_pos rfl, if_pos hit]
        exact (List.getElem?_eq_getElem hprev).symm
      · by_cases hin : it - 1 - k < j ∧ j ≤ it - 1
        · rw [if_pos hin, if_pos (by omega), List.getElem?_set, if_neg (by omega)]
        · rw [if_neg hin, if_neg (by omega), List.getElem?_set, if_neg (fun h => hj h.symm)]

theorem Block.fillRun_length {T : Type} (val : T) :
    ∀ (k : Nat) (b r : Block T) (i : Nat),
      Block.fillRun val b i k = some r → r.length = b.length := by
  intro k
  induction k with
  | zero =>
    intro b r i h
    simp only [Block.fillRun] at h
    rw [← Option.some.inj h]
  | succ k ih =>
    intro b r i h
    simp only [Block.fillRun] at h
    split at h
    · cases h
    · rename_i hw
      rw [ih _ _ _ h, Block.write_length hw]

theorem Block.fillRun_spec {T : Type} (val : T) :
    ∀ (k : Nat) (b : Block T) (i : Nat),
      i + k ≤ b.length →
      ∃ r, Block.fillRun val b i k = some r ∧ r.length = b.length ∧
        ∀ j, r[j]? = if i ≤ j ∧ j < i + k then some (some val) else b[j]? := by
  intro k
  induction k with
  | zero =>
    intro b i _
    refine ⟨b, rfl, rfl, ?_⟩
    intro j
    rw [if_neg]
    omega
  | succ k ih =>
    intro b i hi
    have hi1 : i < b.length := by omega
    obtain ⟨r, hr, hlen, hget⟩ := ih (b.set i (some val)) (i + 1)
      (by rw [List.length_set]; omega)
    refine ⟨r, ?_, ?_, ?_⟩
    · simp only [Block.fillRun, Block.write_of_lt b i _ hi1]
      exact hr
    · rw [hlen, List.length_set]
    · intro j
      rw [hget j]
      by_cases hj : j = i
      · subst hj
        rw [if_neg (by omega), if_pos (by omega), List.getElem?_set, if_pos rfl, if_pos hi1]
      · by_cases hin : i + 1 ≤ j ∧ j < i + 1 + k
        · rw [if_pos hin, if_pos (by omega)]
        · rw [if_neg hin, if_neg (by omega), List.getElem?_set, if_neg (fun h => hj h.symm)]

theorem Block.destroyRun_length {T : Type} :
    ∀ (k : Nat) (b r : Block T) (i : Nat),
      Block.destroyRun b i k = some r → r.length = b.length := by
  intro k
  induction k with
  | zero =>
    intro b r i h
    simp only [Block.destroyRun] at h
    rw [← Option.some.inj h]
  | succ k ih =>
    intro b r i h
    simp only [Block.destroyRun] at h
    split at h
    · cases h
    · rename_i hw
      rw [ih _ _ _ h, Block.write_length hw]

theorem Block.destroyRun_spec {T : Type} :
    ∀ (k : Nat) (b : Block T) (i : Nat),
      i + k ≤ b.length →
      ∃ r, Block.destroyRun b i k = some r ∧ r.length = b.length ∧
        ∀ j, r[j]? = if i ≤ j ∧ j < i + k then some none else b[j]? := by
  intro k
  induction k with
  | zero =>
    intro b i _
    refine ⟨b, rfl, rfl, ?_⟩
    intro j
    rw [if_neg]
    omega
  | succ k ih =>
    intro b i hi
    have hi1 : i < b.length := by omega
    obtain ⟨r, hr, hlen, hget⟩ := ih (b.set i none) (i + 1)
      (by rw [List.length_set]; omega)
    refine ⟨r, ?_, ?_, ?_⟩
    · simp only [Block.destroyRun, Block.destroy, Block.write_of_lt b i _ hi1]
      exact hr
    · rw [hlen, List.length_set]
    · intro j
      rw [hget j]
      by_cases hj : j = i
      · subst hj
        rw [if_neg (by omega), if_pos (by omega), List.getElem?_set, if_pos rfl, if_pos hi1]
      · by_cases hin : i + 1 ≤ j ∧ j < i + 1 + k
        · rw [if_pos hin, if_pos (by omega)]
        · rw [if_neg hin, if_neg (by omega), List.getElem?_set, if_neg (fun h => hj h.symm)]

theorem Block.assignRun_eq_copyRun {T : Type} (src : Block T) :
    ∀ (k : Nat) (dst : Block T) (s d : Nat),
      Block.assignRun src dst s d k = Block.copyRun src dst s d k := by
  intro k
  induction k with
  | zero =>
    intro dst s d
    rfl
  | succ k ih =>
    intro dst s d
    simp only [Block.assignRun, Block.copyRun, Block.destroy]
    by_cases hd : d < dst.length
    · rw [Block.write_of_lt dst d none hd]
      cases hv : Block.read src s with
      | none => rfl
      | some v =>
        simp only []
        rw [Block.write_of_lt _ d v (by rw [List.length_set]; exact hd),
          Block.write_of_lt dst d v hd, List.set_set]
        exact ih _ _ _
    · have hw : ∀ v, Block.write dst d v = none := by
        intro v
        unfold Block.write
        rw [if_neg hd]
      rw [hw none]
      cases hv : Block.read src s with
      | none => rfl
      | some v =>
        simp only []
        rw [hw v]

/-! ## Contents of an array -/

theorem Array.Holds.slot {T : Type} {a : Array T} {xs : List T} (h : a.Holds xs)
    (j : Nat) (hj : j < xs.length) : a.data[j]? = (xs.map some)[j]? := by
  obtain ⟨_, hsize, hc⟩ := h
  rw [← hc]
  unfold Array.contents
  rw [List.getElem?_take, if_pos]
  unfold Array.Size at hsize
  omega

theorem Array.holds_of_slots {T : Type} {a : Array T} {xs : List T} (hv : a.Valid)
    (hsize : a.size_ = xs.length)
    (hget : ∀ j, j < xs.length → a.data[j]? = (xs.map some)[j]?) : a.Holds xs := by
  refine ⟨hv, hsize, ?_⟩
  unfold Array.contents
  apply List.ext_getElem?
  intro j
  rw [List.getElem?_take]
  by_cases hj : j < a.size_
  · rw [if_pos hj]
    exact hget j (by omega)
  · rw [if_neg hj]
    symm
    apply List.getElem?_eq_none
    rw [List.length_map]
    omega

/-! ## Growing the block -/

theorem toSizeType_natCast (n : Nat) : toSizeType (n : Int) = n := by
  unfold toSizeType
  rw [if_pos (Int.ofNat_nonneg n), Int.toNat_ofNat]

theorem toSizeType_of_nonneg {i : Int} (h : 0 ≤ i) : toSizeType i = i.toNat := by
  unfold toSizeType
  rw [if_pos h]

theorem toSizeType_of_neg {i : Int} (h : i < 0) :
    toSizeType i = (18446744073709551616 + i).toNat := by
  unfold toSizeType
  rw [if_neg (by omega)]

theorem le_toSizeType {c : Nat} {i : Int} (h : (c : Int) ≤ i) : c ≤ toSizeType i := by
  rw [toSizeType_of_nonneg (by omega)]
  omega

theorem Array.ReservePow2_spec {T : Type} (NextPowerOfTwo : Int → Int) (a : Array T)
    (c : Int) (hv : a.Valid) :
    ∃ a1, a.ReservePow2 NextPowerOfTwo c = some a1 ∧ a1.Valid ∧ a1.size_ = a.size_ ∧
      a.capacity ≤ a1.capacity ∧
      (a.capacity ≤ toSizeType (NextPowerOfTwo c) →
        a1.capacity = toSizeType (NextPowerOfTwo c)) ∧
      ∀ j, j < a.size_ → a1.data[j]? = a.data[j]? := by
  obtain ⟨hlen, hle⟩ := hv
  unfold Array.Size Array.Capacity at hle
  unfold Array.ReservePow2
  dsimp only
  by_cases hc : toSizeType (NextPowerOfTwo c) < a.capacity
  · rw [if_pos hc]
    exact ⟨a, rfl, ⟨hlen, hle⟩, rfl, le_refl _, fun h => absurd hc (by omega), fun _ _ => rfl⟩
  · rw [if_neg hc]
    obtain ⟨r, hr, hrlen, hget⟩ := Block.copyRun_spec a.data a.size_
      (NewArrOnFreeList T (toSizeType (NextPowerOfTwo c))) 0 0 (by omega)
      (by rw [NewArrOnFreeList_length]; omega)
    rw [hr]
    simp only [Option.bind_eq_bind, Option.some_bind]
    refine ⟨_, rfl, ⟨?_, ?_⟩, rfl, ?_, fun _ => rfl, ?_⟩
    · rw [hrlen, NewArrOnFreeList_length]
    · show a.size_ ≤ toSizeType (NextPowerOfTwo c)
      omega
    · show a.capacity ≤ toSizeType (NextPowerOfTwo c)
      omega
    · intro j hj
      show r[j]? = a.data[j]?
      rw [hget j, if_pos (by omega)]
      simp

theorem Array.ReservePow2_valid {T : Type} (NextPowerOfTwo : Int → Int) (a a1 : Array T)
    (c : Int) (hv : a.Valid) (h : a.ReservePow2 NextPowerOfTwo c = some a1) : a1.Valid := by
  obtain ⟨a2, h2, hv2, _⟩ := Array.ReservePow2_spec NextPowerOfTwo a c hv
  rw [h] at h2
  rw [Option.some.inj h2]
  exact hv2

/-- The guarded call `if (c > capacity) ReservePow2(c);` that opens `Resize`, `Assign`,
`PushBack` and `EmplaceBack`, for a `c` that is not negative. -/
theorem Array.grow_spec {T : Type} (NextPowerOfTwo : Int → Int)
    (hNPT : ∀ n, n ≤ NextPowerOfTwo n) (a : Array T) (c : Nat) (hv : a.Valid) :
    ∃ a1, (if c > a.capacity then a.ReservePow2 NextPowerOfTwo (c : Nat) else some a) = some a1 ∧
      a1.Valid ∧ a1.size_ = a.size_ ∧ c ≤ a1.capacity ∧ a.capacity ≤ a1.capacity ∧
      (c ≤ a.capacity → a1 = a) ∧
      ∀ j, j < a.size_ → a1.data[j]? = a.data[j]? := by
  by_cases hc : c > a.capacity
  · rw [if_pos hc]
    obtain ⟨a1, h1, hv1, hs1, hcap, hcap1, hget⟩ :=
      Array.ReservePow2_spec NextPowerOfTwo a (c : Nat) hv
    have hn := le_toSizeType (hNPT (c : Nat))
    refine ⟨a1, h1, hv1, hs1, ?_, hcap, fun h => absurd h (by omega), hget⟩
    rw [hcap1 (by omega)]
    exact hn
  · rw [if_neg hc]
    exact ⟨a, rfl, hv, rfl, by omega, le_refl _, fun _ => rfl, fun _ _ => rfl⟩

theorem Array.Reserve_spec {T : Type} (a : Array T) (c : Int) (hv : a.Valid) :
    ∃ a1, a.Reserve c = some a1 ∧ a1.Valid ∧ a1.size_ = a.size_ ∧
      a1.capacity = max a.capacity (toSizeType c) ∧
      ∀ j, j < a.size_ → a1.data[j]? = a.data[j]? := by
  obtain ⟨hlen, hle⟩ := hv
  unfold Array.Size Array.Capacity at hle
  unfold Array.Reserve
  by_cases hc : toSizeType c < a.capacity
  · rw [if_pos hc]
    exact ⟨a, rfl, ⟨hlen, hle⟩, rfl, by omega, fun _ _ => rfl⟩
  · rw [if_neg hc]
    obtain ⟨r, hr, hrlen, hget⟩ := Block.copyRun_spec a.data a.size_
      (NewArrOnFreeList T (toSizeType c)) 0 0 (by omega)
      (by rw [NewArrOnFreeList_length]; omega)
    rw [hr]
    simp only [Option.bind_eq_bind, Option.some_bind]
    refine ⟨_, rfl, ⟨?_, ?_⟩, rfl, ?_, ?_⟩
    · rw [hrlen, NewArrOnFreeList_length]
    · show a.size_ ≤ toSizeType c
      omega
    · show toSizeType c = max a.capacity (toSizeType c)
      omega
    · intro j hj
      show r[j]? = a.data[j]?
      rw [hget j, if_pos (by omega)]
      simp

theorem Array.Shrink_spec {T : Type} (a : Array T) (hv : a.Valid) :
    ∃ a1, a.Shrink = some a1 ∧ a1.Valid ∧ a1.size_ = a.size_ ∧
      a1.capacity = a.size_ ∧ ∀ j, j < a.size_ → a1.data[j]? = a.data[j]? := by
  obtain ⟨hlen, hle⟩ := hv
  unfold Array.Size Array.Capacity at hle
  unfold Array.Shrink
  by_cases hc : a.size_ = a.capacity
  · rw [if_pos hc]
    exact ⟨a, rfl, ⟨hlen, hle⟩, rfl, hc.symm, fun _ _ => rfl⟩
  · rw [if_neg hc]
    obtain ⟨r, hr, hrlen, hget⟩ := Block.copyRun_spec a.data a.size_
      (NewArrOnFreeList T a.size_) 0 0 (by omega) (by rw [NewArrOnFreeList_length]; omega)
    rw [hr]
    simp only [Option.bind_eq_bind, Option.some_bind]
    refine ⟨_, rfl, ⟨?_, ?_⟩, rfl, rfl, ?_⟩
    · rw [hrlen, NewArrOnFreeList_length]
    · exact le_refl _
    · intro j hj
      show r[j]? = a.data[j]?
      rw [hget j, if_pos (by omega)]
      simp

/-! ## PushBack and PopBack -/

theorem Array.PushBack_spec {T : Type} (NextPowerOfTwo : Int → Int)
    (hNPT : ∀ n, n ≤ NextPowerOfTwo n) (a : Array T) (val : T) (hv : a.Valid) :
    ∃ a1, a.PushBack NextPowerOfTwo val = some a1 ∧ a1.Valid ∧ a1.size_ = a.size_ + 1 ∧
      a.capacity ≤ a1.capacity ∧ (a.size_ + 1 ≤ a.capacity → a1.capacity = a.capacity) ∧
      a1.data[a.size_]? = some (some val) ∧
      ∀ j, j < a.size_ → a1.data[j]? = a.data[j]? := by
  obtain ⟨a0, h0, hv0, hs0, hc0, hcap0, hsame0, hget0⟩ :=
    Array.grow_spec NextPowerOfTwo hNPT a (a.size_ + 1) hv
  obtain ⟨hlen0, hle0⟩ := hv0
  unfold Array.Size Array.Capacity at hle0
  have hw : a0.size_ < a0.data.length := by omega
  unfold Array.PushBack
  rw [h0]
  simp only [Option.bind_eq_bind, Option.some_bind, Block.write_of_lt _ _ _ hw]
  refine ⟨_, rfl, ⟨?_, ?_⟩, ?_, hcap0, ?_, ?_, ?_⟩
  · show (a0.data.set a0.size_ (some val)).length = a0.capacity
    rw [List.length_set, hlen0]
  · show a0.size_ + 1 ≤ a0.capacity
    omega
  · show a0.size_ + 1 = a.size_ + 1
    omega
  · intro h
    show a0.capacity = a.capacity
    rw [hsame0 h]
  · show (a0.data.set a0.size_ (some val))[a.size_]? = some (some val)
    rw [hs0, List.getElem?_set, if_pos rfl, if_pos (by omega)]
  · intro j hj
    show (a0.data.set a0.size_ (some val))[j]? = a.data[j]?
    rw [List.getElem?_set, if_neg (by omega)]
    exact hget0 j hj

theorem Array.PushBack_appends {T : Type} (NextPowerOfTwo : Int → Int)
    (hNPT : ∀ n, n ≤ NextPowerOfTwo n) (a : Array T) (xs : List T) (val : T)
    (h : a.Holds xs) :
    ∃ a1, a.PushBack NextPowerOfTwo val = some a1 ∧ a1.Holds (xs ++ [val]) ∧
      a1.Size = xs.length + 1 ∧ a1.Back = some (some val) ∧
      ∀ i, i < xs.length → a1.At i = a.At i := by
  obtain ⟨a1, h1, hv1, hs1, _, _, hlast, hget⟩ :=
    Array.PushBack_spec NextPowerOfTwo hNPT a val h.1
  have hsize : a.size_ = xs.length := h.2.1
  refine ⟨a1, h1, ?_, ?_, ?_, ?_⟩
  · apply Array.holds_of_slots hv1
    · rw [hs1, hsize, List.length_append, List.length_singleton]
    · intro j hj
      rw [List.length_append, List.length_singleton] at hj
      by_cases hjl : j < xs.length
      · rw [hget j (by omega), h.slot j hjl, List.map_append,
          List.getElem?_append_left (by rw [List.length_map]; exact hjl)]
      · have hje : j = a.size_ := by omega
        rw [hje, hlast, hsize, List.map_append,
          List.getElem?_append_right (by rw [List.length_map])]
        simp
  · show a1.size_ = xs.length + 1
    omega
  · unfold Array.Back
    rw [if_neg (by omega), hs1]
    show a1.data[a.size_ + 1 - 1]? = some (some val)
    rw [Nat.add_sub_cancel]
    exact hlast
  · intro i hi
    unfold Array.At
    rw [if_neg (by omega), if_neg (by omega)]
    exact hget i (by omega)

theorem Array.PopBack_spec {T : Type} (a : Array T) (hv : a.Valid) (hpos : 0 < a.size_)
    (hroom : a.size_ < a.capacity) :
    ∃ a1, a.PopBack = some a1 ∧ a1.Valid ∧ a1.size_ = a.size_ - 1 ∧
      a1.capacity = a.capacity ∧ ∀ j, j < a.size_ → a1.data[j]? = a.data[j]? := by
  obtain ⟨hlen, hle⟩ := hv
  unfold Array.PopBack Block.destroy
  rw [if_neg (by omega), Block.write_of_lt _ _ _ (by omega)]
  simp only [Option.bind_eq_bind, Option.some_bind]
  refine ⟨_, rfl, ⟨?_, ?_⟩, rfl, rfl, ?_⟩
  · show (a.data.set a.size_ none).length = a.capacity
    rw [List.length_set, hlen]
  · show a.size_ - 1 ≤ a.capacity
    omega
  · intro j hj
    show (a.data.set a.size_ none)[j]? = a.data[j]?
    rw [List.getElem?_set, if_neg (by omega)]

theorem Array.PopBack_full {T : Type} (a : Array T) (hv : a.Valid)
    (hfull : a.size_ = a.capacity) : a.PopBack = none := by
  obtain ⟨hlen, _⟩ := hv
  unfold Array.PopBack Block.destroy Block.write
  split
  · rfl
  · rw [if_neg (by omega)]
    rfl

theorem Array.PopBack_valid {T : Type} (a a1 : Array T) (hv : a.Valid)
    (h : a.PopBack = some a1) : a1.Valid ∧ a1.size_ = a.size_ - 1 := by
  obtain ⟨hlen, hle⟩ := hv
  unfold Array.Size Array.Capacity at hle
  unfold Array.PopBack at h
  split at h
  · cases h
  · simp only [Option.bind_eq_bind, Option.bind_eq_some, Option.some.injEq] at h
    obtain ⟨d1, hw, rfl⟩ := h
    refine ⟨⟨?_, ?_⟩, rfl⟩
    · show d1.length = a.capacity
      rw [Block.write_length hw, hlen]
    · show a.size_ - 1 ≤ a.capacity
      omega

/-! ## Erase -/

theorem Array.Erase_spec {T : Type} (a : Array T) (position : Nat) (hv : a.Valid)
    (hp : position < a.size_) :
    ∃ a1, a.Erase position = some a1 ∧ a1.Valid ∧ a1.size_ = a.size_ - 1 ∧
      a1.capacity = a.capacity ∧
      ∀ j, j < a.size_ - 1 →
        a1.data[j]? = if j < position then a.data[j]? else a.data[j + 1]? := by
  obtain ⟨hlen, hle⟩ := hv
  unfold Array.Size Array.Capacity at hle
  obtain ⟨r, hr, hrlen, hget⟩ := Block.moveRun_spec (a.size_ - (position + 1))
    (a.data.set position none) (position + 1) position (by omega)
    (by rw [List.length_set]; omega)
  unfold Array.Erase Block.destroy
  rw [Block.write_of_lt _ _ _ (by omega)]
  simp only [Option.bind_eq_bind, Option.some_bind]
  rw [stepsUp_of_le (by omega)]
  simp only [Option.some_bind]
  rw [hr]
  simp only [Option.some_bind]
  refine ⟨_, rfl, ⟨?_, ?_⟩, rfl, rfl, ?_⟩
  · show r.length = a.capacity
    rw [hrlen, List.length_set, hlen]
  · show a.size_ - 1 ≤ a.capacity
    omega
  · intro j hj
    show r[j]? = _
    rw [hget j]
    by_cases hjp : j < position
    · rw [if_neg (by omega), if_pos hjp, List.getElem?_set, if_neg (by omega)]
    · rw [if_pos (by omega), if_neg hjp, List.getElem?_set, if_neg (by omega)]
      congr 1
      omega

theorem Array.Erase_range_spec {T : Type} (a : Array T) (beginIter endIter : Nat)
    (hv : a.Valid) (hbe : beginIter ≤ endIter) (he : endIter ≤ a.size_) :
    ∃ a1, a.Erase_range beginIter endIter = some a1 ∧ a1.Valid ∧
      a1.size_ = a.size_ - (endIter - beginIter) ∧ a1.capacity = a.capacity ∧
      ∀ j, j < a.size_ - (endIter - beginIter) →
        a1.data[j]? =
          if j < beginIter then a.data[j]? else a.data[j + (endIter - beginIter)]? := by
  obtain ⟨hlen, hle⟩ := hv
  unfold Array.Size Array.Capacity at hle
  obtain ⟨b1, hb1, hb1len, hb1get⟩ := Block.destroyRun_spec (endIter - beginIter) a.data
    beginIter (by omega)
  obtain ⟨r, hr, hrlen, hget⟩ := Block.moveRun_spec (a.size_ - endIter) b1 endIter beginIter
    hbe (by omega)
  unfold Array.Erase_range
  rw [stepsUp_of_le hbe]
  simp only [Option.bind_eq_bind, Option.some_bind]
  rw [hb1]
  simp only [Option.some_bind]
  rw [stepsUp_of_le he]
  simp only [Option.some_bind]
  rw [hr]
  simp only [Option.some_bind]
  refine ⟨_, rfl, ⟨?_, ?_⟩, rfl, rfl, ?_⟩
  · show r.length = a.capacity
    rw [hrlen, hb1len, hlen]
  · show a.size_ - (endIter - beginIter) ≤ a.capacity
    omega
  · intro j hj
    show r[j]? = _
    rw [hget j]
    by_cases hjp : j < beginIter
    · rw [if_neg (by omega), if_pos hjp, hb1get j, if_neg (by omega)]
    · rw [if_pos (by omega), if_neg hjp, hb1get, if_neg (by omega)]
      congr 1
      omega

theorem demoArray_holds : demoArray.Holds [1, 2, 3] :=
  ⟨⟨rfl, by decide⟩, rfl, rfl⟩

/-- C35 (Erase removes exactly the requested range): for an array whose contents are
`xs` and offsets `i <= j <= |xs|`, `Erase(begin()+i, begin()+j)` returns and leaves
the contents `xs[0..i)` followed by `xs[j..|xs|)` with `Size() = |xs| - (j - i)`; and
for `i < |xs|`, `Erase(begin()+i)` returns and leaves `xs` without the element at
index `i`.  The capacity is unchanged by both. -/
theorem erase_removes_range {T : Type} (a : Array T) (xs : List T) (h : a.Holds xs) :
    (∀ i j, i ≤ j → j ≤ xs.length →
      ∃ a1, a.Erase_range i j = some a1 ∧ a1.Holds (xs.take i ++ xs.drop j) ∧
        a1.Size = xs.length - (j - i) ∧ a1.Capacity = a.Capacity) ∧
    (∀ i, i < xs.length →
      ∃ a1, a.Erase i = some a1 ∧ a1.Holds (xs.eraseIdx i) ∧
        a1.Size = xs.length - 1 ∧ a1.Capacity = a.Capacity) := by
  have hsize : a.size_ = xs.length := h.2.1
  constructor
  · intro i j hij hj
    obtain ⟨a1, h1, hv1, hs1, hc1, hget⟩ :=
      Array.Erase_range_spec a i j h.1 hij (by omega)
    have hlen : (xs.take i ++ xs.drop j).length = xs.length - (j - i) := by
      rw [List.length_append, List.length_take, List.length_drop]
      omega
    refine ⟨a1, h1, ?_, ?_, hc1⟩
    · apply Array.holds_of_slots hv1
      · rw [hs1, hsize, hlen]
      · intro k hk
        rw [hlen] at hk
        rw [hget k (by omega), List.map_append, List.getElem?_append, List.length_map,
          List.length_take, Nat.min_eq_left (by omega)]
        by_cases hki : k < i
        · rw [if_pos hki, if_pos hki, h.slot k (by omega), List.getElem?_map,
            List.getElem?_map, List.getElem?_take, if_pos hki]
        · rw [if_neg hki, if_neg hki, h.slot _ (by omega), List.getElem?_map,
            List.getElem?_map, List.getElem?_drop]
          congr 2
          omega
    · show a1.size_ = xs.length - (j - i)
      omega
  · intro i hi
    obtain ⟨a1, h1, hv1, hs1, hc1, hget⟩ := Array.Erase_spec a i h.1 (by omega)
    have hlen : (xs.eraseIdx i).length = xs.length - 1 := by
      rw [List.length_eraseIdx, if_pos hi]
    refine ⟨a1, h1, ?_, ?_, hc1⟩
    · apply Array.holds_of_slots hv1
      · rw [hs1, hsize, hlen]
      · intro k hk
        rw [hlen] at hk
        rw [hget k (by omega), List.getElem?_map, List.getElem?_eraseIdx]
        by_cases hki : k < i
        · rw [if_pos hki, if_pos hki, h.slot k (by omega), List.getElem?_map]
        · rw [if_neg hki, if_neg hki, h.slot _ (by omega), List.getElem?_map]
    · show a1.size_ = xs.length - 1
      omega

/-- Witness for C35: on the array [1,2,3] with capacity 8, erasing the offsets [0,2)
leaves [3] and erasing offset 1 leaves [1,3]. -/
theorem erase_removes_range_witness :
    demoArray.Holds [1, 2, 3] ∧
    (∃ a1, demoArray.Erase_range 0 2 = some a1 ∧ a1.Holds [3] ∧ a1.Size = 1 ∧
      a1.Capacity = 8) ∧
    (∃ a1, demoArray.Erase 1 = some a1 ∧ a1.Holds [1, 3] ∧ a1.Size = 2 ∧
      a1.Capacity = 8) :=
  ⟨demoArray_holds,
   (erase_removes_range demoArray [1, 2, 3] demoArray_holds).1 0 2 (by decide) (by decide),
   (erase_removes_range demoArray [1, 2, 3] demoArray_holds).2 1 (by decide)⟩

/-! ## Every member function keeps the representation sound -/

theorem Array.grow_valid {T : Type} (NextPowerOfTwo : Int → Int)
    (hNPT : ∀ n, n ≤ NextPowerOfTwo n) (a a1 : Array T) (c : Nat) (hv : a.Valid)
    (h : (if c > a.capacity then a.ReservePow2 NextPowerOfTwo c else some a) = some a1) :
    a1.Valid ∧ a1.size_ = a.size_ ∧ c ≤ a1.capacity := by
  obtain ⟨a2, h2, hv2, hs2, hc2, _⟩ := Array.grow_spec NextPowerOfTwo hNPT a c hv
  rw [h] at h2
  rw [Option.some.inj h2]
  exact ⟨hv2, hs2, hc2⟩

theorem Array.Reserve_valid {T : Type} (a a1 : Array T) (c : Int) (hv : a.Valid)
    (h : a.Reserve c = some a1) : a1.Valid := by
  obtain ⟨a2, h2, hv2, _⟩ := Array.Reserve_spec a c hv
  rw [h] at h2
  rw [Option.some.inj h2]
  exact hv2

theorem Array.Shrink_valid {T : Type} (a a1 : Array T) (hv : a.Valid)
    (h : a.Shrink = some a1) : a1.Valid := by
  obtain ⟨a2, h2, hv2, _⟩ := Array.Shrink_spec a hv
  rw [h] at h2
  rw [Option.some.inj h2]
  exact hv2

theorem Array.PushBack_valid {T : Type} (NextPowerOfTwo : Int → Int)
    (hNPT : ∀ n, n ≤ NextPowerOfTwo n) (a a1 : Array T) (val : T) (hv : a.Valid)
    (h : a.PushBack NextPowerOfTwo val = some a1) : a1.Valid := by
  obtain ⟨a2, h2, hv2, _⟩ := Array.PushBack_spec NextPowerOfTwo hNPT a val hv
  rw [h] at h2
  rw [Option.some.inj h2]
  exact hv2

theorem Array.Resize_valid {T : Type} (NextPowerOfTwo : Int → Int)
    (hNPT : ∀ n, n ≤ NextPowerOfTwo n) (a a1 : Array T) (inSize : Int) (val : T)
    (hv : a.Valid) (hpos : 0 ≤ inSize)
    (h : a.Resize NextPowerOfTwo inSize val = some a1) : a1.Valid := by
  obtain ⟨c, rfl⟩ := Int.eq_ofNat_of_zero_le hpos
  unfold Array.Resize at h
  rw [toSizeType_natCast] at h
  simp only [Option.bind_eq_bind, Option.bind_eq_some, Option.some.injEq] at h
  obtain ⟨a0, h0, d1, h1, d2, h2, rfl⟩ := h
  obtain ⟨⟨hlen0, _⟩, _, hc0⟩ := Array.grow_valid NextPowerOfTwo hNPT a a0 c hv h0
  refine ⟨?_, ?_⟩
  · show d2.length = a0.capacity
    rw [Block.fillRun_length _ _ _ _ _ h2, Block.destroyRun_length _ _ _ _ h1, hlen0]
  · exact hc0

theorem Array.Assign_valid {T : Type} (NextPowerOfTwo : Int → Int)
    (hNPT : ∀ n, n ≤ NextPowerOfTwo n) (a a1 : Array T) (cnt : Nat) (val : T)
    (hv : a.Valid) (h : a.Assign NextPowerOfTwo cnt val = some a1) : a1.Valid := by
  unfold Array.Assign at h
  simp only [Option.bind_eq_bind, Option.bind_eq_some, Option.some.injEq] at h
  obtain ⟨a0, h0, d1, h1, d2, h2, rfl⟩ := h
  obtain ⟨⟨hlen0, _⟩, _, hc0⟩ := Array.grow_valid NextPowerOfTwo hNPT a a0 cnt hv h0
  refine ⟨?_, ?_⟩
  · show d2.length = a0.capacity
    rw [Block.fillRun_length _ _ _ _ _ h2, Block.destroyRun_length _ _ _ _ h1, hlen0]
  · exact hc0

theorem Array.Assign_range_valid {T : Type} (NextPowerOfTwo : Int → Int)
    (hNPT : ∀ n, n ≤ NextPowerOfTwo n) (a a1 : Array T) (ys : List T)
    (hv : a.Valid) (h : a.Assign_range NextPowerOfTwo ys = some a1) : a1.Valid := by
  unfold Array.Assign_range at h
  simp only [Option.bind_eq_bind, Option.bind_eq_some, Option.some.injEq] at h
  obtain ⟨a0, h0, d1, h1, n, _, d2, h2, rfl⟩ := h
  obtain ⟨⟨hlen0, _⟩, _, hc0⟩ := Array.grow_valid NextPowerOfTwo hNPT a a0 ys.length hv h0
  rw [Block.assignRun_eq_copyRun] at h1
  refine ⟨?_, ?_⟩
  · show d2.length = a0.capacity
    rw [Block.destroyRun_length _ _ _ _ h2, Block.copyRun_length _ _ _ _ _ _ h1, hlen0]
  · exact hc0

theorem Array.Insert_valid {T : Type} (NextPowerOfTwo : Int → Int)
    (hNPT : ∀ n, n ≤ NextPowerOfTwo n) (a a1 : Array T) (position : Nat) (val : T)
    (hv : a.Valid) (h : a.Insert NextPowerOfTwo position val = some a1) : a1.Valid := by
  obtain ⟨hlen, hle⟩ := hv
  unfold Array.Insert at h
  dsimp only at h
  split at h
  · simp only [Option.bind_eq_bind, Option.bind_eq_some, Option.some.injEq] at h
    obtain ⟨n1, _, t1, h1, t2, h2, n2, _, t3, h3, rfl⟩ := h
    refine ⟨?_, le_toSizeType (hNPT _)⟩
    show t3.length = _
    rw [Block.copyRun_length _ _ _ _ _ _ h3, Block.write_length h2,
      Block.copyRun_length _ _ _ _ _ _ h1, NewArrOnFreeList_length]
  · rename_i hfit
    simp only [Option.bind_eq_bind, Option.bind_eq_some, Option.some.injEq] at h
    obtain ⟨n, _, d1, h1, d2, h2, rfl⟩ := h
    refine ⟨?_, ?_⟩
    · show d2.length = a.capacity
      rw [Block.write_length h2, Block.shiftRun_length _ _ _ _ h1, hlen]
    · show a.size_ + 1 ≤ a.capacity
      omega

theorem Array.Insert_cnt_valid {T : Type} (NextPowerOfTwo : Int → Int)
    (hNPT : ∀ n, n ≤ NextPowerOfTwo n) (a a1 : Array T) (position cnt : Nat) (val : T)
    (hv : a.Valid) (h : a.Insert_cnt NextPowerOfTwo position cnt val = some a1) :
    a1.Valid := by
  obtain ⟨hlen, hle⟩ := hv
  unfold Array.Insert_cnt at h
  dsimp only at h
  split at h
  · simp only [Option.bind_eq_bind, Option.bind_eq_some, Option.some.injEq] at h
    obtain ⟨n1, _, t1, h1, t2, h2, n2, _, t3, h3, rfl⟩ := h
    refine ⟨?_, le_toSizeType (hNPT _)⟩
    show t3.length = _
    rw [Block.copyRun_length _ _ _ _ _ _ h3, Block.fillRun_length _ _ _ _ _ h2,
      Block.copyRun_length _ _ _ _ _ _ h1, NewArrOnFreeList_length]
  · rename_i hfit
    simp only [Option.bind_eq_bind, Option.bind_eq_some, Option.some.injEq] at h
    obtain ⟨n, _, d1, h1, d2, h2, rfl⟩ := h
    refine ⟨?_, ?_⟩
    · show d2.length = a.capacity
      rw [Block.fillRun_length _ _ _ _ _ h2, Block.shiftRun_length _ _ _ _ h1, hlen]
    · show a.size_ + cnt ≤ a.capacity
      omega

theorem Array.Insert_range_valid {T : Type} (NextPowerOfTwo : Int → Int)
    (hNPT : ∀ n, n ≤ NextPowerOfTwo n) (a a1 : Array T) (position : Nat) (ys : List T)
    (hv : a.Valid) (h : a.Insert_range NextPowerOfTwo position ys = some a1) :
    a1.Valid := by
  obtain ⟨hlen, hle⟩ := hv
  unfold Array.Insert_range at h
  dsimp only at h
  split at h
  · simp only [Option.bind_eq_bind, Option.bind_eq_some, Option.some.injEq] at h
    obtain ⟨n1, _, t1, h1, t2, h2, n2, _, t3, h3, rfl⟩ := h
    refine ⟨?_, le_toSizeType (hNPT _)⟩
    show t3.length = _
    rw [Block.copyRun_length _ _ _ _ _ _ h3, Block.copyRun_length _ _ _ _ _ _ h2,
      Block.copyRun_length _ _ _ _ _ _ h1, NewArrOnFreeList_length]
  · rename_i hfit
    simp only [Option.bind_eq_bind, Option.bind_eq_some, Option.some.injEq] at h
    obtain ⟨n, _, d1, h1, d2, h2, rfl⟩ := h
    refine ⟨?_, ?_⟩
    · show d2.length = a.capacity
      rw [Block.copyRun_length _ _ _ _ _ _ h2, Block.shiftRun_length _ _ _ _ h1, hlen]
    · show a.size_ + ys.length ≤ a.capacity
      omega

theorem Array.Erase_valid {T : Type} (a a1 : Array T) (position : Nat)
    (hv : a.Valid) (h : a.Erase position = some a1) : a1.Valid := by
  obtain ⟨hlen, hle⟩ := hv
  unfold Array.Size Array.Capacity at hle
  unfold Array.Erase at h
  simp only [Option.bind_eq_bind, Option.bind_eq_some, Option.some.injEq] at h
  obtain ⟨d1, h1, n, _, d2, h2, rfl⟩ := h
  refine ⟨?_, ?_⟩
  · show d2.length = a.capacity
    rw [Block.moveRun_length _ _ _ _ _ h2, Block.write_length h1, hlen]
  · show a.size_ - 1 ≤ a.capacity
    omega

theorem Array.Erase_range_valid {T : Type} (a a1 : Array T) (beginIter endIter : Nat)
    (hv : a.Valid) (h : a.Erase_range beginIter endIter = some a1) : a1.Valid := by
  obtain ⟨hlen, hle⟩ := hv
  unfold Array.Size Array.Capacity at hle
  unfold Array.Erase_range at h
  simp only [Option.bind_eq_bind, Option.bind_eq_some, Option.some.injEq] at h
  obtain ⟨n1, _, d1, h1, n2, _, d2, h2, rfl⟩ := h
  refine ⟨?_, ?_⟩
  · show d2.length = a.capacity
    rw [Block.moveRun_length _ _ _ _ _ h2, Block.destroyRun_length _ _ _ _ h1, hlen]
  · show a.size_ - (endIter - beginIter) ≤ a.capacity
    omega

theorem Array.Clear_valid {T : Type} (a a1 : Array T)
    (hv : a.Valid) (h : a.Clear = some a1) : a1.Valid := by
  obtain ⟨hlen, hle⟩ := hv
  unfold Array.Clear at h
  simp only [Option.bind_eq_bind, Option.bind_eq_some, Option.some.injEq] at h
  obtain ⟨d1, h1, rfl⟩ := h
  refine ⟨?_, ?_⟩
  · show d1.length = a.capacity
    rw [Block.destroyRun_length _ _ _ _ h1, hlen]
  · exact Nat.zero_le _

/-! ## Calls that return -/

theorem Array.Resize_returns {T : Type} (NextPowerOfTwo : Int → Int)
    (hNPT : ∀ n, n ≤ NextPowerOfTwo n) (a : Array T) (inSize : Int) (val : T)
    (hv : a.Valid) (hpos : 0 ≤ inSize) :
    ∃ a1, a.Resize NextPowerOfTwo inSize val = some a1 ∧ (a1.size_ : Int) = inSize := by
  obtain ⟨c, rfl⟩ := Int.eq_ofNat_of_zero_le hpos
  obtain ⟨a0, h0, ⟨hlen0, hle0⟩, hs0, hc0, _⟩ :=
    Array.grow_spec NextPowerOfTwo hNPT a c hv
  unfold Array.Size Array.Capacity at hle0
  obtain ⟨d1, h1, hd1, _⟩ := Block.destroyRun_spec (a0.size_ - c) a0.data c
    (by omega)
  obtain ⟨d2, h2, _, _⟩ := Block.fillRun_spec val ((c : Int) - (a0.size_ : Int)).toNat d1
    a0.size_ (by omega)
  unfold Array.Resize
  rw [toSizeType_natCast, h0]
  simp only [Option.bind_eq_bind, Option.some_bind]
  rw [h1]
  simp only [Option.some_bind]
  rw [h2]
  exact ⟨_, rfl, rfl⟩

theorem Array.Assign_returns {T : Type} (NextPowerOfTwo : Int → Int)
    (hNPT : ∀ n, n ≤ NextPowerOfTwo n) (a : Array T) (cnt : Nat) (val : T)
    (hv : a.Valid) : ∃ a1, a.Assign NextPowerOfTwo cnt val = some a1 ∧ a1.size_ = cnt := by
  obtain ⟨a0, h0, ⟨hlen0, hle0⟩, hs0, hc0, _⟩ :=
    Array.grow_spec NextPowerOfTwo hNPT a cnt hv
  unfold Array.Size Array.Capacity at hle0
  obtain ⟨d1, h1, hd1, _⟩ := Block.destroyRun_spec a0.size_ a0.data 0 (by omega)
  obtain ⟨d2, h2, _, _⟩ := Block.fillRun_spec val cnt d1 0 (by omega)
  unfold Array.Assign
  rw [h0]
  simp only [Option.bind_eq_bind, Option.some_bind]
  rw [h1]
  simp only [Option.some_bind]
  rw [h2]
  exact ⟨_, rfl, rfl⟩

theorem Array.Assign_range_returns {T : Type} (NextPowerOfTwo : Int → Int)
    (hNPT : ∀ n, n ≤ NextPowerOfTwo n) (a : Array T) (ys : List T) (hv : a.Valid) :
    ∃ a1, a.Assign_range NextPowerOfTwo ys = some a1 ∧ a1.size_ = ys.length := by
  obtain ⟨a0, h0, ⟨hlen0, hle0⟩, hs0, hc0, _⟩ :=
    Array.grow_spec NextPowerOfTwo hNPT a ys.length hv
  obtain ⟨d1, h1, hd1, _⟩ := Block.copyRun_spec (ys.map some) ys.length a0.data 0 0
    (by rw [List.length_map]; omega) (by omega)
  unfold Array.Assign_range
  rw [h0]
  simp only [Option.bind_eq_bind, Option.some_bind]
  rw [Block.assignRun_eq_copyRun, h1]
  simp only [Option.some_bind]
  rw [stepsUp_of_le (le_refl _)]
  simp only [Option.some_bind, Nat.sub_self, Block.destroyRun]
  exact ⟨_, rfl, rfl⟩

theorem Array.Clear_returns {T : Type} (a : Array T) (hv : a.Valid) :
    ∃ a1, a.Clear = some a1 ∧ a1.size_ = 0 := by
  obtain ⟨hlen, hle⟩ := hv
  unfold Array.Size Array.Capacity at hle
  obtain ⟨d1, h1, _, _⟩ := Block.destroyRun_spec a.size_ a.data 0 (by omega)
  unfold Array.Clear
  rw [h1]
  exact ⟨_, rfl, rfl⟩

theorem Array.Insert_returns {T : Type} (NextPowerOfTwo : Int → Int)
    (hNPT : ∀ n, n ≤ NextPowerOfTwo n) (a : Array T) (position : Nat) (val : T)
    (hv : a.Valid) (hp : position ≤ a.size_) :
    ∃ a1, a.Insert NextPowerOfTwo position val = some a1 ∧ a1.size_ = a.size_ + 1 := by
  obtain ⟨hlen, hle⟩ := hv
  unfold Array.Size Array.Capacity at hle
  have hn := le_toSizeType (hNPT ((a.size_ + 1 : Nat) : Int))
  unfold Array.Insert
  dsimp only
  split
  · obtain ⟨t1, h1, ht1, _⟩ := Block.copyRun_spec a.data position
      (NewArrOnFreeList T (toSizeType (NextPowerOfTwo ((a.size_ + 1 : Nat) : Int)))) 0 0 (by omega)
      (by rw [NewArrOnFreeList_length]; omega)
    rw [NewArrOnFreeList_length] at ht1
    obtain ⟨t3, h3, _, _⟩ := Block.copyRun_spec a.data (a.size_ + 1 - (position + 1))
      (t1.set position (some val)) position (position + 1) (by omega)
      (by rw [List.length_set]; omega)
    rw [stepsUp_of_le (Nat.zero_le _)]
    simp only [Option.bind_eq_bind, Option.some_bind, Nat.sub_zero]
    rw [h1]
    simp only [Option.some_bind]
    rw [Block.write_of_lt _ _ _ (by omega)]
    simp only [Option.some_bind]
    rw [stepsUp_of_le (by omega)]
    simp only [Option.some_bind]
    rw [h3]
    exact ⟨_, rfl, rfl⟩
  · obtain ⟨d1, h1, hd1, _⟩ := Block.shiftRun_spec (a.size_ - position) a.data a.size_
      (by omega) (by intro _; omega)
    rw [stepsDown_of_le hp]
    simp only [Option.bind_eq_bind, Option.some_bind]
    rw [h1]
    simp only [Option.some_bind]
    rw [Block.write_of_lt _ _ _ (by omega)]
    exact ⟨_, rfl, rfl⟩

/-- The in-place branch writes the slot at `end()` whenever `position` is before
`end()`; with an empty run on a full block that slot is outside the block. -/
theorem Array.Insert_cnt_returns {T : Type} (NextPowerOfTwo : Int → Int)
    (hNPT : ∀ n, n ≤ NextPowerOfTwo n) (a : Array T) (position cnt : Nat) (val : T)
    (hv : a.Valid) (hp : position ≤ a.size_)
    (hroom : cnt = 0 → position < a.size_ → a.size_ < a.capacity) :
    ∃ a1, a.Insert_cnt NextPowerOfTwo position cnt val = some a1 ∧
      a1.size_ = a.size_ + cnt := by
  obtain ⟨hlen, hle⟩ := hv
  unfold Array.Size Array.Capacity at hle
  have hn := le_toSizeType (hNPT ((a.size_ + cnt : Nat) : Int))
  unfold Array.Insert_cnt
  dsimp only
  split
  · obtain ⟨t1, h1, ht1, _⟩ := Block.copyRun_spec a.data position
      (NewArrOnFreeList T (toSizeType (NextPowerOfTwo ((a.size_ + cnt : Nat) : Int)))) 0 0 (by omega)
      (by rw [NewArrOnFreeList_length]; omega)
    rw [NewArrOnFreeList_length] at ht1
    obtain ⟨t2, h2, ht2, _⟩ := Block.fillRun_spec val cnt t1 position (by omega)
    obtain ⟨t3, h3, _, _⟩ := Block.copyRun_spec a.data (a.size_ + cnt - (position + cnt))
      t2 position (position + cnt) (by omega) (by omega)
    rw [stepsUp_of_le (Nat.zero_le _)]
    simp only [Option.bind_eq_bind, Option.some_bind, Nat.sub_zero]
    rw [h1]
    simp only [Option.some_bind]
    rw [h2]
    simp only [Option.some_bind]
    rw [stepsUp_of_le (by omega)]
    simp only [Option.some_bind]
    rw [h3]
    exact ⟨_, rfl, rfl⟩
  · obtain ⟨d1, h1, hd1, _⟩ := Block.shiftRun_spec (a.size_ - position) a.data a.size_
      (by omega) (by
        intro hk
        by_cases hc : cnt = 0
        · have := hroom hc (by omega)
          omega
        · omega)
    obtain ⟨d2, h2, _, _⟩ := Block.fillRun_spec val cnt d1 position (by omega)
    rw [stepsDown_of_le hp]
    simp only [Option.bind_eq_bind, Option.some_bind]
    rw [h1]
    simp only [Option.some_bind]
    rw [h2]
    exact ⟨_, rfl, rfl⟩

theorem Array.Insert_range_returns {T : Type} (NextPowerOfTwo : Int → Int)
    (hNPT : ∀ n, n ≤ NextPowerOfTwo n) (a : Array T) (position : Nat) (ys : List T)
    (hv : a.Valid) (hp : position ≤ a.size_)
    (hroom : ys.length = 0 → position < a.size_ → a.size_ < a.capacity) :
    ∃ a1, a.Insert_range NextPowerOfTwo position ys = some a1 ∧
      a1.size_ = a.size_ + ys.length := by
  obtain ⟨hlen, hle⟩ := hv
  unfold Array.Size Array.Capacity at hle
  have hn := le_toSizeType (hNPT ((a.size_ + ys.length : Nat) : Int))
  unfold Array.Insert_range
  dsimp only
  split
  · obtain ⟨t1, h1, ht1, _⟩ := Block.copyRun_spec a.data position
      (NewArrOnFreeList T (toSizeType (NextPowerOfTwo ((a.size_ + ys.length : Nat) : Int)))) 0 0 (by omega)
      (by rw [NewArrOnFreeList_length]; omega)
    rw [NewArrOnFreeList_length] at ht1
    obtain ⟨t2, h2, ht2, _⟩ := Block.copyRun_spec (ys.map some) ys.length t1 0 position
      (by rw [List.length_map]; omega) (by omega)
    obtain ⟨t3, h3, _, _⟩ := Block.copyRun_spec a.data
      (a.size_ + ys.length - (position + ys.length)) t2 position (position + ys.length)
      (by omega) (by omega)
    rw [stepsUp_of_le (Nat.zero_le _)]
    simp only [Option.bind_eq_bind, Option.some_bind, Nat.sub_zero]
    rw [h1]
    simp only [Option.some_bind]
    rw [h2]
    simp only [Option.some_bind]
    rw [stepsUp_of_le (by omega)]
    simp only [Option.some_bind]
    rw [h3]
    exact ⟨_, rfl, rfl⟩
  · obtain ⟨d1, h1, hd1, _⟩ := Block.shiftRun_spec (a.size_ - position) a.data a.size_
      (by omega) (by
        intro hk
        by_cases hc : ys.length = 0
        · have := hroom hc (by omega)
          omega
        · omega)
    obtain ⟨d2, h2, _, _⟩ := Block.copyRun_spec (ys.map some) ys.length d1 0 position
      (by rw [List.length_map]; omega) (by omega)
    rw [stepsDown_of_le hp]
    simp only [Option.bind_eq_bind, Option.some_bind]
    rw [h1]
    simp only [Option.some_bind]
    rw [h2]
    exact ⟨_, rfl, rfl⟩

/-! ## The capacity invariant -/

theorem Array.EmplaceBack_eq {T : Type} (NextPowerOfTwo : Int → Int) (a : Array T) (val : T) :
    a.EmplaceBack NextPowerOfTwo val = a.PushBack NextPowerOfTwo val := rfl

theorem Array.Emplace_eq {T : Type} (NextPowerOfTwo : Int → Int) (a : Array T)
    (position : Nat) (val : T) :
    a.Emplace NextPowerOfTwo position val = a.Insert NextPowerOfTwo position val := rfl

theorem Array.Emplace_const_eq {T : Type} (NextPowerOfTwo : Int → Int) (a : Array T)
    (position : Nat) (val : T) :
    a.Emplace_const NextPowerOfTwo position val = a.Insert NextPowerOfTwo position val := rfl

theorem Array.Insert_ptr_eq {T : Type} (NextPowerOfTwo : Int → Int) (a : Array T)
    (position : Nat) (ys : List T) :
    a.Insert_ptr NextPowerOfTwo position ys = a.Insert_range NextPowerOfTwo position ys := rfl

theorem Array.Insert_list_eq {T : Type} (NextPowerOfTwo : Int → Int) (a : Array T)
    (position : Nat) (list : List T) :
    a.Insert_list NextPowerOfTwo position list =
      a.Insert_range NextPowerOfTwo position list := rfl

theorem Array.Assign_ptr_eq {T : Type} (NextPowerOfTwo : Int → Int) (a : Array T)
    (ys : List T) : a.Assign_ptr NextPowerOfTwo ys = a.Assign_range NextPowerOfTwo ys := rfl

theorem Array.Assign_list_eq {T : Type} (NextPowerOfTwo : Int → Int) (a : Array T)
    (list : List T) :
    a.Assign_list NextPowerOfTwo list = a.Assign_range NextPowerOfTwo list := rfl

theorem Array.call_valid {T : Type} (NextPowerOfTwo : Int → Int)
    (hNPT : ∀ n, n ≤ NextPowerOfTwo n) (a a1 : Array T) (m : Mutation T) (hv : a.Valid)
    (hm : m.SizeNotNegative) (h : a.call NextPowerOfTwo m = some a1) : a1.Valid := by
  cases m with
  | PushBack val => exact Array.PushBack_valid NextPowerOfTwo hNPT a a1 val hv h
  | EmplaceBack val => exact Array.PushBack_valid NextPowerOfTwo hNPT a a1 val hv h
  | PopBack => exact (Array.PopBack_valid a a1 hv h).1
  | Insert position val => exact Array.Insert_valid NextPowerOfTwo hNPT a a1 position val hv h
  | Insert_cnt position cnt val =>
    exact Array.Insert_cnt_valid NextPowerOfTwo hNPT a a1 position cnt val hv h
  | Insert_range position ys =>
    exact Array.Insert_range_valid NextPowerOfTwo hNPT a a1 position ys hv h
  | Insert_ptr position ys =>
    exact Array.Insert_range_valid NextPowerOfTwo hNPT a a1 position ys hv h
  | Insert_list position list =>
    exact Array.Insert_range_valid NextPowerOfTwo hNPT a a1 position list hv h
  | Emplace position val => exact Array.Insert_valid NextPowerOfTwo hNPT a a1 position val hv h
  | Emplace_const position val =>
    exact Array.Insert_valid NextPowerOfTwo hNPT a a1 position val hv h
  | Erase position => exact Array.Erase_valid a a1 position hv h
  | Erase_range beginIter endIter => exact Array.Erase_range_valid a a1 beginIter endIter hv h
  | Resize inSize val =>
    exact Array.Resize_valid NextPowerOfTwo hNPT a a1 inSize val hv hm h
  | Reserve inCapacity => exact Array.Reserve_valid a a1 inCapacity hv h
  | Shrink => exact Array.Shrink_valid a a1 hv h
  | Assign cnt val => exact Array.Assign_valid NextPowerOfTwo hNPT a a1 cnt val hv h
  | Assign_range ys => exact Array.Assign_range_valid NextPowerOfTwo hNPT a a1 ys hv h
  | Assign_ptr ys => exact Array.Assign_range_valid NextPowerOfTwo hNPT a a1 ys hv h
  | Assign_list list => exact Array.Assign_range_valid NextPowerOfTwo hNPT a a1 list hv h
  | Clear => exact Array.Clear_valid a a1 hv h

theorem Array.call_returns {T : Type} (NextPowerOfTwo : Int → Int)
    (hNPT : ∀ n, n ≤ NextPowerOfTwo n) (a : Array T) (m : Mutation T) (hv : a.Valid)
    (hm : m.Admissible a) : ∃ a1, a.call NextPowerOfTwo m = some a1 := by
  cases m with
  | PushBack val => exact (Array.PushBack_spec NextPowerOfTwo hNPT a val hv).imp fun _ h => h.1
  | EmplaceBack val =>
    exact (Array.PushBack_spec NextPowerOfTwo hNPT a val hv).imp fun _ h => h.1
  | PopBack => exact (Array.PopBack_spec a hv hm.1 hm.2).imp fun _ h => h.1
  | Insert position val =>
    exact (Array.Insert_returns NextPowerOfTwo hNPT a position val hv hm).imp fun _ h => h.1
  | Insert_cnt position cnt val =>
    exact (Array.Insert_cnt_returns NextPowerOfTwo hNPT a position cnt val hv hm.1 hm.2).imp
      fun _ h => h.1
  | Insert_range position ys =>
    exact (Array.Insert_range_returns NextPowerOfTwo hNPT a position ys hv hm.1 hm.2).imp
      fun _ h => h.1
  | Insert_ptr position ys =>
    exact (Array.Insert_range_returns NextPowerOfTwo hNPT a position ys hv hm.1 hm.2).imp
      fun _ h => h.1
  | Insert_list position list =>
    exact (Array.Insert_range_returns NextPowerOfTwo hNPT a position list hv hm.1 hm.2).imp
      fun _ h => h.1
  | Emplace position val =>
    exact (Array.Insert_returns NextPowerOfTwo hNPT a position val hv hm).imp fun _ h => h.1
  | Emplace_const position val =>
    exact (Array.Insert_returns NextPowerOfTwo hNPT a position val hv hm).imp fun _ h => h.1
  | Erase position => exact (Array.Erase_spec a position hv hm).imp fun _ h => h.1
  | Erase_range beginIter endIter =>
    exact (Array.Erase_range_spec a beginIter endIter hv hm.1 hm.2).imp fun _ h => h.1
  | Resize inSize val =>
    exact (Array.Resize_returns NextPowerOfTwo hNPT a inSize val hv hm).imp fun _ h => h.1
  | Reserve inCapacity => exact (Array.Reserve_spec a inCapacity hv).imp fun _ h => h.1
  | Shrink => exact (Array.Shrink_spec a hv).imp fun _ h => h.1
  | Assign cnt val =>
    exact (Array.Assign_returns NextPowerOfTwo hNPT a cnt val hv).imp fun _ h => h.1
  | Assign_range ys =>
    exact (Array.Assign_range_returns NextPowerOfTwo hNPT a ys hv).imp fun _ h => h.1
  | Assign_ptr ys =>
    exact (Array.Assign_range_returns NextPowerOfTwo hNPT a ys hv).imp fun _ h => h.1
  | Assign_list list =>
    exact (Array.Assign_range_returns NextPowerOfTwo hNPT a list hv).imp fun _ h => h.1
  | Clear => exact (Array.Clear_returns a hv).imp fun _ h => h.1

theorem Mutation.Admissible.sizeNotNegative {T : Type} {m : Mutation T} {a : Array T}
    (hm : m.Admissible a) : m.SizeNotNegative := by
  cases m <;> first | exact hm | exact trivial

theorem Array.calls_valid {T : Type} (NextPowerOfTwo : Int → Int)
    (hNPT : ∀ n, n ≤ NextPowerOfTwo n) (ms : List (Mutation T)) :
    ∀ (a a1 : Array T), a.Valid → (∀ m, m ∈ ms → m.SizeNotNegative) →
      a.calls NextPowerOfTwo ms = some a1 → a1.Valid := by
  induction ms with
  | nil =>
    intro a a1 hv _ h
    simp only [Array.calls] at h
    rw [← Option.some.inj h]
    exact hv
  | cons m rest ih =>
    intro a a1 hv hms h
    simp only [Array.calls] at h
    split at h
    · cases h
    · rename_i a2 h2
      exact ih a2 a1
        (Array.call_valid NextPowerOfTwo hNPT a a2 m hv (hms m (List.mem_cons_self m rest)) h2)
        (fun m1 h1 => hms m1 (List.mem_cons_of_mem m h1)) h

theorem Array.withCapacity_valid (T : Type) (capacity : Nat) :
    (Array.withCapacity T capacity).Valid :=
  ⟨NewArrOnFreeList_length T capacity, Nat.zero_le _⟩

theorem Array.filled_spec {T : Type} (capacity : Nat) (val : T) :
    ∃ a, Array.filled capacity val = some a ∧ a.Valid ∧ a.Size = capacity := by
  obtain ⟨d, hd, hlen, _⟩ := Block.fillRun_spec val capacity (NewArrOnFreeList T capacity) 0
    (by rw [NewArrOnFreeList_length]; omega)
  unfold Array.filled
  rw [hd]
  refine ⟨_, rfl, ⟨?_, le_refl _⟩, rfl⟩
  show d.length = capacity
  rw [hlen, NewArrOnFreeList_length]

theorem Array.ofRange_spec {T : Type} (NextPowerOfTwo : Int → Int)
    (hNPT : ∀ n, n ≤ NextPowerOfTwo n) (ys : List T) :
    ∃ a, Array.ofRange NextPowerOfTwo ys = some a ∧ a.Valid ∧ a.Size = ys.length := by
  have hv : (Array.withCapacity T ys.length).Valid := Array.withCapacity_valid T ys.length
  obtain ⟨a, ha, hs⟩ := Array.Insert_range_returns NextPowerOfTwo hNPT
    (Array.withCapacity T ys.length) 0 ys hv (Nat.zero_le _)
    (fun _ h => absurd h (Nat.lt_irrefl 0))
  refine ⟨a, ha, Array.Insert_range_valid NextPowerOfTwo hNPT _ a 0 ys hv ha, ?_⟩
  show a.size_ = ys.length
  rw [hs]
  exact Nat.zero_add _

theorem Array.ofVector_spec {T : Type} (elems : List T) (vcapacity : Nat)
    (h : elems.length ≤ vcapacity) :
    ∃ a, Array.ofVector elems vcapacity = some a ∧ a.Valid ∧ a.Size = elems.length := by
  obtain ⟨d, hd, hlen, _⟩ := Block.copyRun_spec (elems.map some) elems.length
    (NewArrOnFreeList T vcapacity) 0 0 (by rw [List.length_map]; omega)
    (by rw [NewArrOnFreeList_length]; omega)
  unfold Array.ofVector
  rw [hd]
  refine ⟨_, rfl, ⟨?_, h⟩, rfl⟩
  show d.length = vcapacity
  rw [hlen, NewArrOnFreeList_length]

theorem Array.copy_spec {T : Type} (inVector : Array T) (hv : inVector.Valid) :
    ∃ a, inVector.copy = some a ∧ a.Valid ∧ a.Size = inVector.Size ∧
      a.Capacity = inVector.Capacity := by
  obtain ⟨hl, hle⟩ := hv
  have hle1 : inVector.size_ ≤ inVector.capacity := hle
  obtain ⟨d, hd, hlen, _⟩ := Block.copyRun_spec inVector.data inVector.size_
    (NewArrOnFreeList T inVector.capacity) 0 0 (by omega)
    (by rw [NewArrOnFreeList_length]; omega)
  unfold Array.copy
  rw [hd]
  refine ⟨_, rfl, ⟨?_, hle⟩, rfl, rfl⟩
  show d.length = inVector.capacity
  rw [hlen, NewArrOnFreeList_length]

theorem nextPowerOfTwoFrom_ge (n : Nat) :
    ∀ (fuel p : Nat), n ≤ p * 2 ^ fuel → n ≤ nextPowerOfTwoFrom n fuel p := by
  intro fuel
  induction fuel with
  | zero =>
    intro p h
    simpa [nextPowerOfTwoFrom] using h
  | succ fuel ih =>
    intro p h
    simp only [nextPowerOfTwoFrom]
    split
    · assumption
    · apply ih
      rw [pow_succ] at h
      calc n ≤ p * (2 ^ fuel * 2) := h
        _ = 2 * p * 2 ^ fuel := by ring

theorem demoNextPowerOfTwo_ge (n : Int) : n ≤ demoNextPowerOfTwo n := by
  unfold demoNextPowerOfTwo
  have h := nextPowerOfTwoFrom_ge n.toNat n.toNat 1
    (by rw [Nat.one_mul]; exact le_of_lt (Nat.lt_two_pow n.toNat))
  omega

/-- The capacity invariant for sizes that are not negative, assuming
`NextPowerOfTwo(n) >= n`.  An array is sound when its block has `capacity` slots and
`Size() <= Capacity()`.  Every freshly constructed array is sound (the copy of a
sound array, the array moved from a sound array and the array built from a vector
whose size is at most its capacity included).  Every call of PushBack, EmplaceBack,
PopBack, an Insert or Emplace overload, an Erase overload, Resize with a size that
is not negative, Reserve, Shrink, an Assign overload or Clear on a sound array that
returns leaves a sound array, and so does every sequence of such calls; the call
does return when its arguments are admissible.  Swap of two sound arrays leaves two
sound arrays. -/
theorem capacity_invariant {T : Type} (NextPowerOfTwo : Int → Int)
    (hNPT : ∀ n, n ≤ NextPowerOfTwo n) :
    ((Array.new T).Valid ∧
     (∀ capacity, (Array.withCapacity T capacity).Valid) ∧
     (∀ capacity (val : T), ∃ a, Array.filled capacity val = some a ∧ a.Valid) ∧
     (∀ list : List T, ∃ a, Array.ofList NextPowerOfTwo list = some a ∧ a.Valid) ∧
     (∀ ys : List T, ∃ a, Array.ofRange NextPowerOfTwo ys = some a ∧ a.Valid) ∧
     (∀ (elems : List T) (vcapacity : Nat), elems.length ≤ vcapacity →
        ∃ a, Array.ofVector elems vcapacity = some a ∧ a.Valid) ∧
     (∀ inVector : Array T, inVector.Valid →
        (∃ a, inVector.copy = some a ∧ a.Valid) ∧
        inVector.move.1.Valid ∧ inVector.move.2.Valid)) ∧
    (∀ (a a1 : Array T) (m : Mutation T), a.Valid → m.SizeNotNegative →
      a.call NextPowerOfTwo m = some a1 → a1.Valid ∧ a1.Size ≤ a1.Capacity) ∧
    (∀ (a : Array T) (m : Mutation T), a.Valid → m.Admissible a →
      ∃ a1, a.call NextPowerOfTwo m = some a1 ∧ a1.Size ≤ a1.Capacity) ∧
    (∀ a x : Array T, a.Valid → x.Valid → (a.Swap x).1.Valid ∧ (a.Swap x).2.Valid) ∧
    (∀ (a a1 : Array T) (ms : List (Mutation T)), a.Valid →
      (∀ m, m ∈ ms → m.SizeNotNegative) →
      a.calls NextPowerOfTwo ms = some a1 → a1.Size ≤ a1.Capacity) := by
  refine ⟨⟨⟨rfl, le_refl _⟩, Array.withCapacity_valid T, ?_, ?_, ?_, ?_, ?_⟩, ?_, ?_, ?_, ?_⟩
  · intro capacity val
    exact (Array.filled_spec capacity val).imp fun _ h => ⟨h.1, h.2.1⟩
  · intro list
    exact (Array.ofRange_spec NextPowerOfTwo hNPT list).imp fun _ h => ⟨h.1, h.2.1⟩
  · intro ys
    exact (Array.ofRange_spec NextPowerOfTwo hNPT ys).imp fun _ h => ⟨h.1, h.2.1⟩
  · intro elems vcapacity h
    exact (Array.ofVector_spec elems vcapacity h).imp fun _ h => ⟨h.1, h.2.1⟩
  · intro inVector hv
    exact ⟨(Array.copy_spec inVector hv).imp fun _ h => ⟨h.1, h.2.1⟩, hv,
      ⟨rfl, le_refl _⟩⟩
  · intro a a1 m hv hm h
    have hv1 := Array.call_valid NextPowerOfTwo hNPT a a1 m hv hm h
    exact ⟨hv1, hv1.2⟩
  · intro a m hv hm
    obtain ⟨a1, h1⟩ := Array.call_returns NextPowerOfTwo hNPT a m hv hm
    exact ⟨a1, h1, (Array.call_valid NextPowerOfTwo hNPT a a1 m hv hm.sizeNotNegative h1).2⟩
  · intro a x hva hvx
    exact ⟨hvx, hva⟩
  · intro a a1 ms hv hms h
    exact (Array.calls_valid NextPowerOfTwo hNPT ms a a1 hv hms h).2

/-- An instance of the capacity invariant: with the least power of two as
`NextPowerOfTwo`, the sound array [1,2,3] of capacity 8 takes PushBack(4) and returns
an array with Size() <= Capacity(); the default-constructed array takes a run of
nine calls that grows, shrinks and refills its block and ends with
Size() = 4 <= Capacity() = 7. -/
theorem capacity_invariant_instance :
    (∀ n, n ≤ demoNextPowerOfTwo n) ∧ demoArray.Valid ∧
    (∃ a1, demoArray.call demoNextPowerOfTwo (Mutation.PushBack 4) = some a1 ∧
      a1.Size ≤ a1.Capacity) ∧
    (∃ a1, (Array.new Int).calls demoNextPowerOfTwo
        [Mutation.PushBack 1, Mutation.PushBack 2, Mutation.Insert 1 5, Mutation.Erase 0,
         Mutation.Resize 7 0, Mutation.Shrink, Mutation.Assign_list [4, 5],
         Mutation.PopBack, Mutation.Insert_cnt 1 3 9] = some a1 ∧
      a1.Size = 4 ∧ a1.Capacity = 7 ∧ a1.Size ≤ a1.Capacity) :=
  ⟨demoNextPowerOfTwo_ge, demoArray_holds.1,
   (capacity_invariant demoNextPowerOfTwo demoNextPowerOfTwo_ge).2.2.1 demoArray
     (Mutation.PushBack 4) demoArray_holds.1 trivial,
   ⟨⟨[some 4, some 9, some 9, some 9, some 0, some 0, some 0], 4, 7⟩, by decide, rfl, rfl,
    (capacity_invariant demoNextPowerOfTwo demoNextPowerOfTwo_ge).2.2.2.2 (Array.new Int) _
      [Mutation.PushBack 1, Mutation.PushBack 2, Mutation.Insert 1 5, Mutation.Erase 0,
       Mutation.Resize 7 0, Mutation.Shrink, Mutation.Assign_list [4, 5],
       Mutation.PopBack, Mutation.Insert_cnt 1 3 9]
      ⟨rfl, le_refl _⟩ (by simp [Mutation.SizeNotNegative]) (by decide)⟩⟩

/-- C36 (capacity invariant), a call that breaks it.  `demoNextPowerOfTwo` meets the
assumption `NextPowerOfTwo(n) >= n`, and the array [1,2,3] of capacity 8 is sound:
its block has 8 slots and Size() = 3 <= Capacity() = 8.  `Resize(-1)` on it returns.
The test `inSize > capacity` compares as `size_type`, where -1 is 2^64 - 1, so
`ReservePow2(-1)` is called; it leaves the block as it is, since
`NextPowerOfTwo(-1) = 1 < 8`.  Neither loop runs a round, and `size_ = inSize`
stores 2^64 - 1: the call leaves Size() = 18446744073709551615 > Capacity() = 8 over
the same eight slots. -/
theorem resize_negative_breaks_capacity_invariant :
    (∀ n, n ≤ demoNextPowerOfTwo n) ∧ demoArray.Valid ∧
    demoArray.Size = 3 ∧ demoArray.Capacity = 8 ∧
    demoArray.Resize demoNextPowerOfTwo (-1) 0
      = some { data := demoArray.data, size_ := 18446744073709551615, capacity := 8 } ∧
    ∃ a1, demoArray.call demoNextPowerOfTwo (Mutation.Resize (-1) 0) = some a1 ∧
      a1.Size = 18446744073709551615 ∧ a1.Capacity = 8 ∧ a1.data.length = 8 ∧
      ¬ a1.Size ≤ a1.Capacity ∧ ¬ a1.Valid :=
  ⟨demoNextPowerOfTwo_ge, demoArray_holds.1, rfl, rfl, by decide,
   ⟨_, rfl, by decide, by decide, by decide, by decide,
    fun h => absurd h.2 (by decide)⟩⟩

/-! ## PushBack followed by PopBack -/

theorem Array.PopBack_after_PushBack {T : Type} (NextPowerOfTwo : Int → Int)
    (hNPT : ∀ n, n ≤ NextPowerOfTwo n) (a : Array T) (xs : List T) (val : T)
    (h : a.Holds xs) :
    ∃ a1, a.PushBack NextPowerOfTwo val = some a1 ∧
      (a1.Size < a1.Capacity → ∃ a2, a1.PopBack = some a2 ∧ a2.Holds xs) ∧
      (a1.Size = a1.Capacity → a1.PopBack = none) := by
  obtain ⟨a1, h1, hv1, hs1, _, _, _, hget⟩ := Array.PushBack_spec NextPowerOfTwo hNPT a val h.1
  have hsize : a.size_ = xs.length := h.2.1
  refine ⟨a1, h1, ?_, ?_⟩
  · intro hroom
    obtain ⟨a2, h2, hv2, hs2, _, hget2⟩ := Array.PopBack_spec a1 hv1 (by omega) hroom
    refine ⟨a2, h2, ?_⟩
    apply Array.holds_of_slots hv2
    · omega
    · intro j hj
      rw [hget2 j (by omega), hget j (by omega)]
      exact h.slot j hj
  · intro hfull
    exact Array.PopBack_full a1 hv1 hfull

/-- C33 (PushBack appends, PopBack restores), evaluated at
`Array<T> a(1); a.PushBack(x); a.PopBack();` for any element type and value.
PushBack stores the value into the only slot without growing the block: the array
holds [x] with Size() = 1 = Capacity() and Back() = x.  PopBack then runs the
destructor on `data[1]`, the slot after the last slot of the block, so the call
faults instead of leaving the empty contents.  The default-constructed array reaches
the same state when NextPowerOfTwo(1) = 1. -/
theorem pop_back_destroys_slot_past_block {T : Type} (NextPowerOfTwo : Int → Int) (x : T) :
    (Array.withCapacity T 1).PushBack NextPowerOfTwo x = some ⟨[some x], 1, 1⟩ ∧
    (⟨[some x], 1, 1⟩ : Array T).Holds [x] ∧
    (⟨[some x], 1, 1⟩ : Array T).Back = some (some x) ∧
    Block.destroy (⟨[some x], 1, 1⟩ : Array T).data 1 = none ∧
    (⟨[some x], 1, 1⟩ : Array T).PopBack = none ∧
    (Array.new T).PushBack demoNextPowerOfTwo x = some ⟨[some x], 1, 1⟩ :=
  ⟨rfl, ⟨⟨rfl, le_refl _⟩, rfl, rfl⟩, rfl, rfl, rfl, rfl⟩

/-! ## Insert of a run -/

theorem Array.Insert_cnt_realloc {T : Type} (NextPowerOfTwo : Int → Int)
    (hNPT : ∀ n, n ≤ NextPowerOfTwo n) (a : Array T) (xs : List T) (position cnt : Nat)
    (val : T) (h : a.Holds xs) (hp : position ≤ xs.length)
    (hgrow : a.size_ + cnt > a.capacity) :
    ∃ a1, a.Insert_cnt NextPowerOfTwo position cnt val = some a1 ∧
      a1.Holds (xs.take position ++ List.replicate cnt val ++ xs.drop position) ∧
      a1.Size = xs.length + cnt := by
  have hsize : a.size_ = xs.length := h.2.1
  obtain ⟨hlen, hle⟩ := h.1
  unfold Array.Size Array.Capacity at hle
  have hn := le_toSizeType (hNPT ((a.size_ + cnt : Nat) : Int))
  obtain ⟨t1, h1, ht1, hg1⟩ := Block.copyRun_spec a.data position
    (NewArrOnFreeList T (toSizeType (NextPowerOfTwo ((a.size_ + cnt : Nat) : Int)))) 0 0 (by omega)
    (by rw [NewArrOnFreeList_length]; omega)
  rw [NewArrOnFreeList_length] at ht1
  obtain ⟨t2, h2, ht2, hg2⟩ := Block.fillRun_spec val cnt t1 position (by omega)
  obtain ⟨t3, h3, ht3, hg3⟩ := Block.copyRun_spec a.data (a.size_ + cnt - (position + cnt))
    t2 position (position + cnt) (by omega) (by omega)
  have hcall : a.Insert_cnt NextPowerOfTwo position cnt val =
      some { data := t3, size_ := a.size_ + cnt,
             capacity := toSizeType (NextPowerOfTwo ((a.size_ + cnt : Nat) : Int)) } := by
    unfold Array.Insert_cnt
    dsimp only
    rw [if_pos hgrow, stepsUp_of_le (Nat.zero_le _)]
    simp only [Option.bind_eq_bind, Option.some_bind, Nat.sub_zero]
    rw [h1]
    simp only [Option.some_bind]
    rw [h2]
    simp only [Option.some_bind]
    rw [stepsUp_of_le (by omega)]
    simp only [Option.some_bind]
    rw [h3]
    rfl
  have hlenr : (xs.take position ++ List.replicate cnt val ++ xs.drop position).length =
      xs.length + cnt := by
    simp only [List.length_append, List.length_take, List.length_replicate, List.length_drop]
    omega
  refine ⟨_, hcall, ?_, ?_⟩
  · apply Array.holds_of_slots
    · refine ⟨?_, hn⟩
      show t3.length = toSizeType (NextPowerOfTwo ((a.size_ + cnt : Nat) : Int))
      rw [ht3, ht2, ht1]
    · show a.size_ + cnt = _
      rw [hlenr, hsize]
    · intro j hj
      rw [hlenr] at hj
      show t3[j]? = _
      rw [hg3 j, hg2 j, hg1 j, List.map_append, List.map_append, List.getElem?_append,
        List.getElem?_append]
      simp only [List.length_append, List.length_map, List.length_take, List.length_replicate,
        Nat.min_eq_left hp, List.map_replicate, List.map_take, List.map_drop]
      by_cases hj1 : j < position
      · rw [if_neg (by omega), if_neg (by omega), if_pos (by omega), if_pos (by omega),
          if_pos hj1, List.getElem?_take, if_pos hj1]
        simp only [Nat.zero_add, Nat.sub_zero]
        exact h.slot j (by omega)
      · by_cases hj2 : j < position + cnt
        · rw [if_neg (by omega), if_pos (by omega), if_pos hj2, if_neg hj1,
            List.getElem?_replicate, if_pos (by omega)]
        · rw [if_pos (by omega), if_neg hj2, List.getElem?_drop,
            h.slot _ (by omega)]
  · show a.size_ + cnt = _
    rw [hsize]

/-- C34 (Insert of a run keeps every existing element), evaluated at
`Array<int> a(8)` holding [1,2,3] and `a.Insert(a.begin(), 2, 9)`.  The new size 5
fits the capacity 8, so the in-place branch runs: its shift loop moves the old
elements up by one slot, not by two, and the two copies of 9 overwrite the slots 0
and 1.  The contents become [9,9,2,3] followed by a slot that was never written,
not [9,9,1,2,3]: the element 1 is lost.  The range overload does the same, and with
`cnt = 0` the shift alone turns [1,2,3] into [1,1,2].  From a full block of 3 slots
the same call takes the reallocating branch and yields [9,9,1,2,3]. -/
theorem insert_run_in_place_shifts_by_one :
    (Array.withCapacity Int 8).calls demoNextPowerOfTwo
      [Mutation.PushBack 1, Mutation.PushBack 2, Mutation.PushBack 3] = some demoArray ∧
    demoArray.Holds [1, 2, 3] ∧ demoArray.Capacity = 8 ∧
    (demoArray.Insert_cnt demoNextPowerOfTwo 0 2 9).map Array.contents =
      some [some 9, some 9, some 2, some 3, none] ∧
    (¬ ∃ a1, demoArray.Insert_cnt demoNextPowerOfTwo 0 2 9 = some a1 ∧
      a1.Holds ([1, 2, 3].take 0 ++ List.replicate 2 9 ++ [1, 2, 3].drop 0)) ∧
    (demoArray.Insert_range demoNextPowerOfTwo 0 [9, 9]).map Array.contents =
      some [some 9, some 9, some 2, some 3, none] ∧
    (demoArray.Insert_cnt demoNextPowerOfTwo 0 0 9).map Array.contents =
      some [some 1, some 1, some 2] ∧
    ((⟨[some 1, some 2, some 3], 3, 3⟩ : Array Int).Insert_cnt demoNextPowerOfTwo 0 2 9).map
      Array.contents = some [some 9, some 9, some 1, some 2, some 3] := by
  refine ⟨by decide, demoArray_holds, rfl, by decide, ?_, by decide, by decide, by decide⟩
  rintro ⟨a1, h1, _, _, hc⟩
  have h2 : demoArray.Insert_cnt demoNextPowerOfTwo 0 2 9 =
      some ⟨[some 9, some 9, some 2, some 3, none, none, none, none], 5, 8⟩ := by decide
  rw [h2] at h1
  rw [← Option.some.inj h1] at hc
  revert hc
  decide

end Isetta
